import Mathlib

/-!
# libnice agent core (agent/agent.c)

A shallow embedding of the ICE agent of `agent/agent.c`: the candidate, component, stream
and agent records, the STUN binding-request handler, the receive demultiplexer and the
stream and candidate bookkeeping of the public API, followed by theorems about them.

Conventions of the embedding.

* A C string is the list of its bytes before the terminating NUL; a byte is a `Nat`.
* `guint` counters wrap modulo `2 ^ 32`.
* A `NiceCandidate *` is the address of the heap object: every candidate record carries its
  own address in the field `ref`, and `active_candidate` holds such an address or NULL.
* Mutation through a pointer is explicit state passing: a function returns the new value of
  the object it writes to, and the caller stores it back where the pointer came from.
* Calls that leave the agent (socket send and receive, the STUN codec, signal emission) and
  the entry into the STUN handler are appended to a trace of `Effect`s, in program order.
* What the environment decides (bytes from the RNG, sockets from the factory, addresses from
  the allocator, datagrams from the network) is a parameter of the function that asks for it.
* A failing `g_assert` aborts the process: the operation returns `Run.abort` with the agent
  as it was at that point.
* Code under `#if 0` and `#ifdef DEBUG` is not compiled and not modelled.
-/

namespace Nice

/-! ## Data model -/

/-- The modulus of `guint` arithmetic. -/
def GUINT_MOD : Nat := 4294967296

/-- NiceAddress: an IPv4 address and a UDP port. -/
structure NiceAddress where
  addr_ipv4 : Nat
  port : Nat
deriving DecidableEq, Repr

/-- NiceUDPSocket: a bound socket, with its descriptor and the address it is bound to. -/
structure NiceUDPSocket where
  fileno : Nat
  addr : NiceAddress
deriving DecidableEq, Repr

/-- NiceCandidateType. -/
inductive NiceCandidateType where
  | HOST
  | SERVER_REFLEXIVE
  | PEER_REFLEXIVE
  | RELAYED
deriving DecidableEq, Repr

/-- NiceComponentState. -/
inductive NiceComponentState where
  | DISCONNECTED
  | GATHERING
  | CONNECTING
  | CONNECTED
  | READY
  | FAILED
deriving DecidableEq, Repr

/-- NiceCandidate.  `ref` is the address of the record (the value of a pointer to it);
`sock` is `none` until the socket factory has filled it in; `source` is the descriptor
watched by the GSource attached to the candidate, if any. -/
structure NiceCandidate where
  ref : Nat
  type : NiceCandidateType
  id : Nat
  addr : NiceAddress
  base_addr : NiceAddress
  stream_id : Nat
  component_id : Nat
  sock : Option NiceUDPSocket
  username : List Nat
  password : List Nat
  source : Option Nat
deriving DecidableEq, Repr

/-- Component: the candidate lists, the active pair and the connection state. -/
structure Component where
  id : Nat
  local_candidates : List NiceCandidate
  remote_candidates : List NiceCandidate
  active_candidate : Option Nat
  peer_addr : NiceAddress
  state : NiceComponentState
deriving DecidableEq, Repr

/-- Stream: an id and its single component. -/
structure Stream where
  id : Nat
  component : Component
deriving DecidableEq, Repr

/-- NiceAgent.  Pointers the agent only stores (main context, read callback and its data)
are kept as their numeric value, 0 for NULL. -/
structure NiceAgent where
  next_candidate_id : Nat
  next_stream_id : Nat
  local_addresses : List NiceAddress
  streams : List Stream
  main_context_set : Bool
  main_context : Nat
  read_func : Nat
  read_func_data : Nat
deriving DecidableEq, Repr

/-! ## STUN messages (stun.h) -/

/-- StunMessageType: the three binding types the agent names, and every other type code. -/
inductive StunMessageType where
  | BINDING_REQUEST
  | BINDING_RESPONSE
  | BINDING_ERROR_RESPONSE
  | OTHER (code : Nat)
deriving DecidableEq, Repr

/-- StunAttribute: the two attributes the agent builds, and every other attribute type. -/
inductive StunAttribute where
  | MAPPED_ADDRESS (ip : Nat) (port : Nat)
  | USERNAME (username : List Nat)
  | OTHER (code : Nat)
deriving DecidableEq, Repr

/-- StunMessage: type, 16-byte transaction id, attributes. -/
structure StunMessage where
  type : StunMessageType
  transaction_id : List Nat
  attributes : List StunAttribute
deriving DecidableEq, Repr

/-- Modelled from the spec: `stun_message_find_attribute (msg, STUN_ATTRIBUTE_USERNAME)` of
the STUN codec (stun.c is not part of the sources), `find_attribute(msg, kind) → attr | none`:
the first attribute of the message that is a USERNAME, as its string. -/
def stun_message_find_attribute_username : List StunAttribute → Option (List Nat)
  | [] => none
  | StunAttribute.USERNAME u :: _ => some u
  | _ :: rest => stun_message_find_attribute_username rest

/-! ## Effects -/

/-- One step of the trace of a run:
* `udp_recv sock`: the call nice_udp_socket_recv (sock, ...);
* `udp_send sock dest packed`: the call nice_udp_socket_send (sock, dest, len, packed);
* `stun_unpack bytes`: the call stun_message_unpack (len, buf), with the bytes handed over;
* `handle_stun sender msg`: entry into _handle_stun with the sender and the parsed message;
* `signal_emit stream_id component_id state`: emission of component-state-changed;
* `read_func stream_id component_id len buf data`: the call of the receive callback,
  func (agent, stream_id, component_id, len, buf, data), with the bytes it is handed;
* `source_attach fd`: a GSource watching `fd` is created and attached (g_source_attach). -/
inductive Effect where
  | udp_recv (sock : Option NiceUDPSocket)
  | udp_send (sock : Option NiceUDPSocket) (dest : NiceAddress) (packed : List Nat)
  | stun_unpack (bytes : List Nat)
  | handle_stun (sender : NiceAddress) (msg : StunMessage)
  | signal_emit (stream_id : Nat) (component_id : Nat) (state : NiceComponentState)
  | read_func (stream_id : Nat) (component_id : Nat) (len : Nat) (buf : List Nat)
      (data : Nat)
  | source_attach (fd : Nat)
deriving DecidableEq, Repr

/-! ## String helpers of glib and libc -/

/-- The libc strlen. -/
def strlen (s : List Nat) : Nat := s.length

/-- The glib g_str_has_prefix (str, prefix): compares the first strlen (prefix) bytes. -/
def g_str_has_prefix (str : List Nat) (pre : List Nat) : Bool :=
  if strlen str < strlen pre then false else str.take (strlen pre) == pre

/-- The libc strcmp, as far as the agent uses it: 0 exactly when the strings are equal. -/
def strcmp (s : List Nat) (t : List Nat) : Int :=
  if s = t then 0 else if s < t then -1 else 1

/-- The glib g_strconcat of two strings. -/
def g_strconcat (s : List Nat) (t : List Nat) : List Nat := s ++ t

/-! ## The STUN handler -/

/-- The validation loop of _handle_stun_binding_request over the remote candidates, in list
order: the first remote for which the received username starts with the local username and
continues with exactly the remote username (the jump to RESPOND), `none` when the loop
falls through (the jump to ERROR). -/
def find_remote (username : List Nat) (lcand : NiceCandidate) :
    List NiceCandidate → Option NiceCandidate
  | [] => none
  | remote :: rest =>
    if ¬ g_str_has_prefix username lcand.username then
      find_remote username lcand rest
    else if 0 ≠ strcmp (username.drop (strlen lcand.username)) remote.username then
      find_remote username lcand rest
    else
      some remote

/-- The ERROR block of _handle_stun_binding_request: a BINDING_ERROR_RESPONSE with the
transaction id of the request and no attribute, sent over the local socket to the sender. -/
def binding_request_error (stun_message_pack : StunMessage → List Nat)
    (component : Component) (lcand : NiceCandidate) (from_ : NiceAddress)
    (msg : StunMessage) : Component × List Effect :=
  (component,
    [Effect.udp_send lcand.sock from_
      (stun_message_pack ⟨StunMessageType.BINDING_ERROR_RESPONSE, msg.transaction_id, []⟩)])

/-- The RESPOND block of _handle_stun_binding_request: peer affinity, the response, the
triggered check (its transaction id is `rng_bytes`, the 16 bytes the RNG yields), and the
state change with its signal. -/
def binding_request_respond (stun_message_pack : StunMessage → List Nat)
    (rng_bytes : List Nat) (stream : Stream) (component : Component)
    (lcand : NiceCandidate) (from_ : NiceAddress) (msg : StunMessage)
    (username : List Nat) (remote : NiceCandidate) : Component × List Effect :=
  let component1 : Component :=
    { component with active_candidate := some lcand.ref, peer_addr := from_ }
  let response : StunMessage :=
    ⟨StunMessageType.BINDING_RESPONSE, msg.transaction_id,
      [StunAttribute.MAPPED_ADDRESS from_.addr_ipv4 from_.port,
       StunAttribute.USERNAME username]⟩
  let extra : StunMessage :=
    ⟨StunMessageType.BINDING_REQUEST, rng_bytes,
      [StunAttribute.USERNAME (g_strconcat remote.username lcand.username)]⟩
  let sends : List Effect :=
    [Effect.udp_send lcand.sock from_ (stun_message_pack response),
     Effect.udp_send lcand.sock from_ (stun_message_pack extra)]
  if component1.state ≠ NiceComponentState.CONNECTED then
    ({ component1 with state := NiceComponentState.CONNECTED },
      sends ++ [Effect.signal_emit stream.id component1.id NiceComponentState.CONNECTED])
  else
    (component1, sends)

/-- The function _handle_stun_binding_request: the new value of the component and the
trace of the call. -/
def _handle_stun_binding_request (stun_message_pack : StunMessage → List Nat)
    (rng_bytes : List Nat) (stream : Stream) (component : Component)
    (lcand : NiceCandidate) (from_ : NiceAddress) (msg : StunMessage) :
    Component × List Effect :=
  match stun_message_find_attribute_username msg.attributes with
  | none => binding_request_error stun_message_pack component lcand from_ msg
  | some username =>
    match find_remote username lcand component.remote_candidates with
    | none => binding_request_error stun_message_pack component lcand from_ msg
    | some remote =>
      binding_request_respond stun_message_pack rng_bytes stream component lcand from_ msg
        username remote

/-- The function _handle_stun: dispatch on the message type. -/
def _handle_stun (stun_message_pack : StunMessage → List Nat)
    (rng_bytes : List Nat) (stream : Stream) (component : Component)
    (lcand : NiceCandidate) (from_ : NiceAddress) (msg : StunMessage) :
    Component × List Effect :=
  match msg.type with
  | StunMessageType.BINDING_REQUEST =>
    _handle_stun_binding_request stun_message_pack rng_bytes stream component lcand from_ msg
  | StunMessageType.BINDING_RESPONSE => (component, [])
  | _ => (component, [])

/-! ## The receive demultiplexer -/

/-- The outcome of one call nice_udp_socket_recv (sock, &from, buf_len, buf): the length it
returns, the sender it reports, and the contents of `buf` after the call. -/
structure UdpRecv where
  len : Nat
  from_ : NiceAddress
  buf : List Nat
deriving DecidableEq, Repr

/-- What one call of _nice_agent_recv yields: the value returned, the new value of the
component, and the trace of the call. -/
structure RecvResult where
  ret : Nat
  component : Component
  trace : List Effect
deriving DecidableEq, Repr

/-- The function _nice_agent_recv: one datagram read on the socket of `candidate`, then the
classification on the top two bits of the first byte.  `buf[0]` is the head of the buffer
(the buffer holds at least `len` bytes whenever `0 < len ≤ buf_len`). -/
def _nice_agent_recv (stun_message_pack : StunMessage → List Nat)
    (stun_message_unpack : List Nat → Option StunMessage) (rng_bytes : List Nat)
    (stream : Stream) (component : Component) (candidate : NiceCandidate)
    (buf_len : Nat) (rd : UdpRecv) : RecvResult :=
  let len := rd.len
  let t0 := [Effect.udp_recv candidate.sock]
  if len = 0 then
    ⟨0, component, t0⟩
  else if len > buf_len then
    ⟨0, component, t0⟩
  else if (rd.buf.headD 0) &&& 0xc0 = 0x80 then
    ⟨len, component, t0⟩
  else if (rd.buf.headD 0) &&& 0xc0 = 0 then
    match stun_message_unpack (rd.buf.take len) with
    | some msg =>
      let r := _handle_stun stun_message_pack rng_bytes stream component candidate
        rd.from_ msg
      ⟨0, r.1, t0 ++ [Effect.stun_unpack (rd.buf.take len), Effect.handle_stun rd.from_ msg]
        ++ r.2⟩
    | none => ⟨0, component, t0 ++ [Effect.stun_unpack (rd.buf.take len)]⟩
  else
    ⟨0, component, t0⟩

/-! ## The agent -/

/-- The result of an operation that may hit a failing `g_assert` or dereference a NULL or
dangling pointer: `done` with its value, or `abort` with the agent as it was when the
process was brought down. -/
inductive Run (α : Type) where
  | done (value : α)
  | abort (agent : NiceAgent)

/-- The functions nice_agent_new and nice_agent_init: both counters 1, everything else
zero. -/
def nice_agent_new : NiceAgent :=
  { next_candidate_id := 1, next_stream_id := 1, local_addresses := [], streams := [],
    main_context_set := false, main_context := 0, read_func := 0, read_func_data := 0 }

/-- The function find_stream: the first stream of the list with the given id. -/
def find_stream (agent : NiceAgent) (stream_id : Nat) : Option Stream :=
  agent.streams.find? (fun s => s.id = stream_id)

/-- The function find_component: fails unless the component id is 1 and the stream exists;
yields the stream found and its component. -/
def find_component (agent : NiceAgent) (stream_id : Nat) (component_id : Nat) :
    Option (Stream × Component) :=
  if component_id ≠ 1 then none
  else
    match find_stream agent stream_id with
    | none => none
    | some s => some (s, s.component)

/-- Writing through the `Component *` that find_component returned: the component of the
first stream with the given id is replaced. -/
def store_component : List Stream → Nat → Component → List Stream
  | [], _, _ => []
  | s :: rest, stream_id, c =>
    if s.id = stream_id then { s with component := c } :: rest
    else s :: store_component rest stream_id c

/-- Modelled from the spec: `nice_candidate_new (type)` (candidate.c is not part of the
sources), "Candidate construction sets type, zero-initialises credentials, and leaves
addr/base_addr to the caller"; `ref` is the address the allocator returned. -/
def nice_candidate_new (ref : Nat) (type : NiceCandidateType) : NiceCandidate :=
  { ref := ref, type := type, id := 0, addr := ⟨0, 0⟩, base_addr := ⟨0, 0⟩, stream_id := 0,
    component_id := 0, sock := none, username := [], password := [], source := none }

/-- Modelled from the spec: `component_new (id)` (component.c is not part of the sources):
a component with the given id, no candidates, no active pair, state DISCONNECTED. -/
def component_new (id : Nat) : Component :=
  { id := id, local_candidates := [], remote_candidates := [], active_candidate := none,
    peer_addr := ⟨0, 0⟩, state := NiceComponentState.DISCONNECTED }

/-- Modelled from the spec: `stream_new ()` (stream.c is not part of the sources), "Stream:
numeric id, exactly one Component", "component id (always 1 in this core)". -/
def stream_new : Stream := ⟨0, component_new 1⟩

/-- What the environment supplies to one call of nice_agent_add_local_host_candidate: the
address of the new candidate record, the 8 printable bytes the RNG yields for the username
and for the password, and the answer of the socket factory to a request for an address
(`none`: the factory returns FALSE). -/
structure HostEnv where
  ref : Nat
  username : List Nat
  password : List Nat
  make : NiceAddress → Option NiceUDPSocket

/-- The function nice_agent_add_local_host_candidate.  The candidate is appended to the
local list before its credentials and its socket are made; when the factory fails the
process is aborted (g_assert_not_reached) in that state. -/
def nice_agent_add_local_host_candidate (agent : NiceAgent) (stream_id : Nat)
    (component_id : Nat) (address : NiceAddress) (env : HostEnv) : Run NiceAgent :=
  match find_component agent stream_id component_id with
  | none => Run.done agent
  | some (_, component) =>
    let candidate : NiceCandidate :=
      { nice_candidate_new env.ref NiceCandidateType.HOST with
        id := agent.next_candidate_id, stream_id := stream_id, component_id := component_id,
        addr := address, base_addr := address,
        username := env.username, password := env.password }
    let stored (c : NiceCandidate) : NiceAgent :=
      { agent with
        next_candidate_id := (agent.next_candidate_id + 1) % GUINT_MOD,
        streams := store_component agent.streams stream_id
          { component with local_candidates := component.local_candidates ++ [c] } }
    match env.make address with
    | none => Run.abort (stored candidate)
    | some sock =>
      Run.done (stored { candidate with sock := some sock, addr := sock.addr,
                                        base_addr := sock.addr })

/-- The loop of nice_agent_add_stream over the local addresses; `i` counts the calls. -/
def add_stream_loop (env : Nat → HostEnv) (stream_id : Nat) (component_id : Nat) :
    NiceAgent → List NiceAddress → Nat → Run NiceAgent
  | agent, [], _ => Run.done agent
  | agent, addr :: rest, i =>
    match nice_agent_add_local_host_candidate agent stream_id component_id addr (env i) with
    | Run.abort a => Run.abort a
    | Run.done a => add_stream_loop env stream_id component_id a rest (i + 1)

/-- The function nice_agent_add_stream: the new agent and the id returned. -/
def nice_agent_add_stream (agent : NiceAgent) (n_components : Nat) (env : Nat → HostEnv) :
    Run (NiceAgent × Nat) :=
  if n_components ≠ 1 then Run.abort agent
  else
    let stream : Stream := { stream_new with id := agent.next_stream_id }
    let agent1 : NiceAgent :=
      { agent with next_stream_id := (agent.next_stream_id + 1) % GUINT_MOD,
                   streams := agent.streams ++ [stream] }
    match add_stream_loop env stream.id stream.component.id agent1 agent1.local_addresses 0
    with
    | Run.abort a => Run.abort a
    | Run.done a => Run.done (a, stream.id)

/-- The function nice_agent_remove_stream: the first stream with the id is freed and
unlinked. -/
def nice_agent_remove_stream (agent : NiceAgent) (stream_id : Nat) : NiceAgent :=
  match find_stream agent stream_id with
  | none => agent
  | some _ => { agent with streams := agent.streams.eraseP (fun s => s.id = stream_id) }

/-- The function nice_agent_add_local_address: a copy with port 0 is appended. -/
def nice_agent_add_local_address (agent : NiceAgent) (addr : NiceAddress) : NiceAgent :=
  { agent with local_addresses := agent.local_addresses ++ [{ addr with port := 0 }] }

/-- The libc strncpy into a field of `n` bytes, read back as a C string.  A source shorter
than the field is stored whole, with its terminating NUL.  Otherwise the first `n` bytes are
stored and no NUL is written, so the string read back runs on past the field: it is those
`n` bytes followed by `after`, the bytes that follow the field in memory up to the first
NUL. -/
def strncpy (src : List Nat) (n : Nat) (after : List Nat) : List Nat :=
  if strlen src < n then src else src.take n ++ after

/-- The function nice_agent_add_remote_candidate; `ref` is the address of the new record
and `cred_size` is sizeof (candidate->username), which is also that of the password;
`after_username` and `after_password` are the bytes that follow the two fields in the
record, as a reader of an unterminated field meets them. -/
def nice_agent_add_remote_candidate (agent : NiceAgent) (stream_id : Nat)
    (component_id : Nat) (type : NiceCandidateType) (addr : NiceAddress)
    (username : List Nat) (password : List Nat) (ref : Nat) (cred_size : Nat)
    (after_username : List Nat) (after_password : List Nat) : NiceAgent :=
  match find_component agent stream_id component_id with
  | none => agent
  | some (_, component) =>
    let candidate : NiceCandidate :=
      { nice_candidate_new ref type with
        stream_id := stream_id, component_id := component_id, id := 0, addr := addr,
        username := strncpy username cred_size after_username,
        password := strncpy password cred_size after_password }
    { agent with
      streams := store_component agent.streams stream_id
        { component with remote_candidates := component.remote_candidates ++ [candidate] } }

/-- The descriptor of the socket of a candidate (0 in a record whose socket is not made). -/
def sock_fileno (c : NiceCandidate) : Nat :=
  match c.sock with
  | some s => s.fileno
  | none => 0

/-- The function nice_agent_main_context_attach: the new agent, the value returned, and
the trace of the call (one GSource attached per local candidate, in stream and list
order). -/
def nice_agent_main_context_attach (agent : NiceAgent) (ctx : Nat) (func : Nat)
    (data : Nat) : NiceAgent × Bool × List Effect :=
  if agent.main_context_set then (agent, false, [])
  else
    ({ agent with
       streams := agent.streams.map (fun s =>
         { s with component :=
           { s.component with local_candidates :=
               s.component.local_candidates.map (fun c =>
                 { c with source := some (sock_fileno c) }) } }),
       main_context := ctx, main_context_set := true, read_func := func,
       read_func_data := data },
     true,
     (agent.streams.map (fun s =>
       s.component.local_candidates.map (fun c =>
         Effect.source_attach (sock_fileno c)))).flatten)

/-- The function nice_agent_get_local_candidates: a copy of the local list, NULL (the empty
GSList) when the lookup fails. -/
def nice_agent_get_local_candidates (agent : NiceAgent) (stream_id : Nat)
    (component_id : Nat) : List NiceCandidate :=
  match find_component agent stream_id component_id with
  | none => []
  | some (_, component) => component.local_candidates

/-- The function nice_agent_get_remote_candidates: a copy of the remote list, NULL (the
empty GSList) when the lookup fails. -/
def nice_agent_get_remote_candidates (agent : NiceAgent) (stream_id : Nat)
    (component_id : Nat) : List NiceCandidate :=
  match find_component agent stream_id component_id with
  | none => []
  | some (_, component) => component.remote_candidates

/-- Reading through a `NiceCandidate *`: the candidate record of the agent that lives at
the address `ref` (streams in list order, local candidates before remote ones), `none` for
an address at which no candidate of the agent lives. -/
def candidate_at (agent : NiceAgent) (ref : Nat) : Option NiceCandidate :=
  agent.streams.findSome? (fun s =>
    (s.component.local_candidates ++ s.component.remote_candidates).find?
      (fun c => c.ref = ref))

/-- The function nice_agent_send: the agent (which it does not write to) and the trace.
The stream is looked up with find_stream and `stream->component` is read without a NULL
check; `component_id` is not used.  The datagram is the first `len` bytes of `buf`. -/
def nice_agent_send (agent : NiceAgent) (stream_id : Nat) (component_id : Nat) (len : Nat)
    (buf : List Nat) : Run (NiceAgent × List Effect) :=
  match find_stream agent stream_id with
  | none => Run.abort agent
  | some stream =>
    match stream.component.active_candidate with
    | none => Run.done (agent, [])
    | some ref =>
      match candidate_at agent ref with
      | none => Run.abort agent
      | some candidate =>
        Run.done (agent,
          [Effect.udp_send candidate.sock stream.component.peer_addr (buf.take len)])

/-- The function find_candidate_by_fd: the first local candidate of the component whose
socket has the descriptor `fd`. -/
def find_candidate_by_fd (component : Component) (fd : Nat) : Option NiceCandidate :=
  component.local_candidates.find? (fun c => sock_fileno c = fd)

/-- The call `_nice_agent_recv (agent, stream, stream->component, candidate, buf_len, buf)`
of the receive drivers, for a stream that find_stream returned: what the call yields,
and the agent with the component written back into that stream. -/
def recv_stream (stun_message_pack : StunMessage → List Nat)
    (stun_message_unpack : List Nat → Option StunMessage) (rng_bytes : List Nat)
    (agent : NiceAgent) (stream : Stream) (candidate : NiceCandidate) (buf_len : Nat)
    (rd : UdpRecv) : NiceAgent × RecvResult :=
  let r := _nice_agent_recv stun_message_pack stun_message_unpack rng_bytes stream
    stream.component candidate buf_len rd
  ({ agent with streams := store_component agent.streams stream.id r.component }, r)

/-- What the environment supplies to one datagram read: the outcome of the socket read and
the bytes the RNG yields if a triggered check is built. -/
structure RecvEnv where
  rd : UdpRecv
  rng_bytes : List Nat

/-- The function nice_agent_recv_sock: the new agent, the length returned and the trace;
`abort` when no local candidate of the component has the socket (g_assert). -/
def nice_agent_recv_sock (stun_message_pack : StunMessage → List Nat)
    (stun_message_unpack : List Nat → Option StunMessage) (agent : NiceAgent)
    (stream_id : Nat) (component_id : Nat) (sock : Nat) (buf_len : Nat) (env : RecvEnv) :
    Run (NiceAgent × Nat × List Effect) :=
  match find_component agent stream_id component_id with
  | none => Run.done (agent, 0, [])
  | some (stream, component) =>
    match find_candidate_by_fd component sock with
    | none => Run.abort agent
    | some candidate =>
      let r := recv_stream stun_message_pack stun_message_unpack env.rng_bytes agent stream
        candidate buf_len env.rd
      Run.done (r.1, r.2.ret, r.2.trace)

/-- One call of select over a set of descriptors with no timeout: the value it returns
and which descriptors it finds readable.  After the call a descriptor is in the set
exactly when it was in the set before and is readable. -/
structure SelectResult where
  num_readable : Int
  ready : Nat → Bool

/-- The descriptors of the sockets of all local candidates of the agent, in stream and
list order. -/
def agent_fds (agent : NiceAgent) : List Nat :=
  (agent.streams.map (fun s => s.component.local_candidates.map sock_fileno)).flatten

/-- The value of `max_fd` after the FD_SET loops: the largest descriptor, 0 for none. -/
def max_fd_of (fds : List Nat) : Nat := fds.foldl max 0

/-- The search of nice_agent_poll_read for the candidate with descriptor `fd`: the streams
in list order, find_candidate_by_fd on the component of each, the first hit. -/
def find_candidate_in_streams (streams : List Stream) (fd : Nat) : Option NiceCandidate :=
  streams.findSome? (fun s => find_candidate_by_fd s.component fd)

/-- The loop `for (j = 0; j <= max_fd; j++)` of nice_agent_poll_read over the descriptors
`js` still to visit; `fds` is the descriptor set after select, `reads j` is what the read
on descriptor `j` yields.  A readable descriptor of `other_fds` is appended to `ret`;
for any other readable descriptor one datagram is read (buffer of 1024 bytes) and handed
to `func` when it is application data and `func` is not NULL; the loop is left (`break`)
when no candidate has the descriptor or the stream of the candidate is not found. -/
def poll_read_loop (stun_message_pack : StunMessage → List Nat)
    (stun_message_unpack : List Nat → Option StunMessage) (reads : Nat → RecvEnv)
    (other_fds : List Nat) (func : Nat) (data : Nat) (fds : List Nat) :
    List Nat → NiceAgent → List Nat → List Effect → NiceAgent × List Nat × List Effect
  | [], agent, ret, trace => (agent, ret, trace)
  | j :: js, agent, ret, trace =>
    if j ∈ fds then
      if j ∈ other_fds then
        poll_read_loop stun_message_pack stun_message_unpack reads other_fds func data fds
          js agent (ret ++ [j]) trace
      else
        match find_candidate_in_streams agent.streams j with
        | none => (agent, ret, trace)
        | some candidate =>
          match find_stream agent candidate.stream_id with
          | none => (agent, ret, trace)
          | some stream =>
            let r := recv_stream stun_message_pack stun_message_unpack (reads j).rng_bytes
              agent stream candidate 1024 (reads j).rd
            let called : List Effect :=
              if r.2.ret ≠ 0 ∧ func ≠ 0 then
                [Effect.read_func stream.id candidate.component_id r.2.ret
                  ((reads j).rd.buf.take r.2.ret) data]
              else []
            poll_read_loop stun_message_pack stun_message_unpack reads other_fds func data
              fds js r.1 ret (trace ++ r.2.trace ++ called)
    else
      poll_read_loop stun_message_pack stun_message_unpack reads other_fds func data fds
        js agent ret trace

/-- The function nice_agent_poll_read: the new agent, the list returned and the trace.
`func` is the callback pointer (0 for NULL). -/
def nice_agent_poll_read (stun_message_pack : StunMessage → List Nat)
    (stun_message_unpack : List Nat → Option StunMessage) (agent : NiceAgent)
    (other_fds : List Nat) (func : Nat) (data : Nat) (sel : SelectResult)
    (reads : Nat → RecvEnv) : NiceAgent × List Nat × List Effect :=
  let fds := agent_fds agent ++ other_fds
  let max_fd := max_fd_of fds
  if sel.num_readable < 1 then (agent, [], [])
  else
    poll_read_loop stun_message_pack stun_message_unpack reads other_fds func data
      (fds.filter sel.ready) (List.range (max_fd + 1)) agent [] []

/-- One round of the loop of nice_agent_recv: the outcome of its select call and what the
read on each descriptor yields in that round. -/
structure RecvRound where
  sel : SelectResult
  reads : Nat → RecvEnv

/-- The loop `for (j = 0; j <= max_fd; j++)` of nice_agent_recv over the descriptors `js`
still to visit, `stream` being the current value of the stream the call works on: the
new agent, the new value of the stream, the length of the application datagram that ends
the call (`none` when the loop runs to its end) and the trace; `abort` when no local
candidate of the component has a readable descriptor (g_assert). -/
def agent_recv_scan (stun_message_pack : StunMessage → List Nat)
    (stun_message_unpack : List Nat → Option StunMessage) (reads : Nat → RecvEnv)
    (buf_len : Nat) (fds : List Nat) :
    List Nat → NiceAgent → Stream → List Effect →
      Run (NiceAgent × Stream × Option Nat × List Effect)
  | [], agent, stream, trace => Run.done (agent, stream, none, trace)
  | j :: js, agent, stream, trace =>
    if j ∈ fds then
      match find_candidate_by_fd stream.component j with
      | none => Run.abort agent
      | some candidate =>
        let r := recv_stream stun_message_pack stun_message_unpack (reads j).rng_bytes
          agent stream candidate buf_len (reads j).rd
        if r.2.ret > 0 then
          Run.done (r.1, { stream with component := r.2.component }, some r.2.ret,
            trace ++ r.2.trace)
        else
          agent_recv_scan stun_message_pack stun_message_unpack reads buf_len fds js r.1
            { stream with component := r.2.component } (trace ++ r.2.trace)
    else
      agent_recv_scan stun_message_pack stun_message_unpack reads buf_len fds js agent
        stream trace

/-- The loop `for (;;)` of nice_agent_recv over the rounds the environment supplies; `fds`
is the descriptor set, which select overwrites in every round.  The length is `none`
when the rounds are used up and the call is still blocked in select; `abort` when select
fails (g_assert (num_readable >= 0)). -/
def agent_recv_rounds (stun_message_pack : StunMessage → List Nat)
    (stun_message_unpack : List Nat → Option StunMessage) (buf_len : Nat) (max_fd : Nat) :
    List RecvRound → List Nat → NiceAgent → Stream → List Effect →
      Run (NiceAgent × Option Nat × List Effect)
  | [], _, agent, _, trace => Run.done (agent, none, trace)
  | round :: rounds, fds, agent, stream, trace =>
    if round.sel.num_readable < 0 then Run.abort agent
    else if round.sel.num_readable > 0 then
      match agent_recv_scan stun_message_pack stun_message_unpack round.reads buf_len
        (fds.filter round.sel.ready) (List.range (max_fd + 1)) agent stream trace with
      | Run.abort a => Run.abort a
      | Run.done (a, _, some len, tr) => Run.done (a, some len, tr)
      | Run.done (a, st, none, tr) =>
        agent_recv_rounds stun_message_pack stun_message_unpack buf_len max_fd rounds
          (fds.filter round.sel.ready) a st tr
    else
      agent_recv_rounds stun_message_pack stun_message_unpack buf_len max_fd rounds
        (fds.filter round.sel.ready) agent stream trace

/-- The function nice_agent_recv: the new agent, the length returned (`none` while the call
is still blocked when the rounds supplied are used up) and the trace. -/
def nice_agent_recv (stun_message_pack : StunMessage → List Nat)
    (stun_message_unpack : List Nat → Option StunMessage) (agent : NiceAgent)
    (stream_id : Nat) (component_id : Nat) (buf_len : Nat) (rounds : List RecvRound) :
    Run (NiceAgent × Option Nat × List Effect) :=
  match find_component agent stream_id component_id with
  | none => Run.done (agent, some 0, [])
  | some (stream, component) =>
    let fds := component.local_candidates.map sock_fileno
    agent_recv_rounds stun_message_pack stun_message_unpack buf_len (max_fd_of fds) rounds
      fds agent stream []

/-! ## Runs of the agent -/

/-- One call `_nice_agent_recv (agent, stream, stream->component, candidate, ...)` for the
stream at position `pos` of the stream list, the component written back in place.  Every
receive driver (nice_agent_recv, nice_agent_recv_sock, nice_agent_poll_read and the GSource
callback) changes the agent only through such calls. -/
def agent_recv_at (stun_message_pack : StunMessage → List Nat)
    (stun_message_unpack : List Nat → Option StunMessage) (rng_bytes : List Nat)
    (agent : NiceAgent) (pos : Nat) (candidate : NiceCandidate) (buf_len : Nat)
    (rd : UdpRecv) : NiceAgent :=
  match agent.streams.get? pos with
  | none => agent
  | some stream =>
    let r := _nice_agent_recv stun_message_pack stun_message_unpack rng_bytes stream
      stream.component candidate buf_len rd
    { agent with streams := agent.streams.set pos { stream with component := r.component } }

/-- The operations on an agent, with what the environment supplies to each: the calls of
the public API, and `recv`, a bare call of _nice_agent_recv on the stream at a position
of the list with any candidate (as the GSource callback makes it with the pointers it was
given when it was attached). -/
inductive Op where
  | add_local_address (addr : NiceAddress)
  | add_stream (n_components : Nat) (env : Nat → HostEnv)
  | remove_stream (stream_id : Nat)
  | add_remote_candidate (stream_id : Nat) (component_id : Nat) (type : NiceCandidateType)
      (addr : NiceAddress) (username : List Nat) (password : List Nat) (ref : Nat)
      (cred_size : Nat) (after_username : List Nat) (after_password : List Nat)
  | recv (stun_message_pack : StunMessage → List Nat)
      (stun_message_unpack : List Nat → Option StunMessage) (rng_bytes : List Nat)
      (pos : Nat) (candidate : NiceCandidate) (buf_len : Nat) (rd : UdpRecv)
  | main_context_attach (ctx : Nat) (func : Nat) (data : Nat)
  | recv_sock (stun_message_pack : StunMessage → List Nat)
      (stun_message_unpack : List Nat → Option StunMessage) (stream_id : Nat)
      (component_id : Nat) (sock : Nat) (buf_len : Nat) (env : RecvEnv)
  | poll_read (stun_message_pack : StunMessage → List Nat)
      (stun_message_unpack : List Nat → Option StunMessage) (other_fds : List Nat)
      (func : Nat) (data : Nat) (sel : SelectResult) (reads : Nat → RecvEnv)
  | agent_recv (stun_message_pack : StunMessage → List Nat)
      (stun_message_unpack : List Nat → Option StunMessage) (stream_id : Nat)
      (component_id : Nat) (buf_len : Nat) (rounds : List RecvRound)
  | send (stream_id : Nat) (component_id : Nat) (len : Nat) (buf : List Nat)

/-- The record of one nice_agent_add_stream call in a run: the id it returned, the local
addresses that were registered when it was made, and the environment it ran in. -/
structure Creation where
  id : Nat
  addresses : List NiceAddress
  env : Nat → HostEnv

/-- One operation: the new agent, and the record of the call when it is an add_stream. -/
def step (agent : NiceAgent) : Op → Run (NiceAgent × List Creation)
  | Op.add_local_address addr => Run.done (nice_agent_add_local_address agent addr, [])
  | Op.add_stream n_components env =>
    match nice_agent_add_stream agent n_components env with
    | Run.abort a => Run.abort a
    | Run.done (a, id) => Run.done (a, [⟨id, agent.local_addresses, env⟩])
  | Op.remove_stream stream_id => Run.done (nice_agent_remove_stream agent stream_id, [])
  | Op.add_remote_candidate stream_id component_id type addr username password ref
      cred_size after_username after_password =>
    Run.done (nice_agent_add_remote_candidate agent stream_id component_id type addr
      username password ref cred_size after_username after_password, [])
  | Op.recv pack unpack rng_bytes pos candidate buf_len rd =>
    Run.done (agent_recv_at pack unpack rng_bytes agent pos candidate buf_len rd, [])
  | Op.main_context_attach ctx func data =>
    Run.done ((nice_agent_main_context_attach agent ctx func data).1, [])
  | Op.recv_sock pack unpack stream_id component_id sock buf_len env =>
    match nice_agent_recv_sock pack unpack agent stream_id component_id sock buf_len env with
    | Run.abort a => Run.abort a
    | Run.done (a, _, _) => Run.done (a, [])
  | Op.poll_read pack unpack other_fds func data sel reads =>
    Run.done ((nice_agent_poll_read pack unpack agent other_fds func data sel reads).1, [])
  | Op.agent_recv pack unpack stream_id component_id buf_len rounds =>
    match nice_agent_recv pack unpack agent stream_id component_id buf_len rounds with
    | Run.abort a => Run.abort a
    | Run.done (a, _, _) => Run.done (a, [])
  | Op.send stream_id component_id len buf =>
    match nice_agent_send agent stream_id component_id len buf with
    | Run.abort a => Run.abort a
    | Run.done (a, _) => Run.done (a, [])

/-- A sequence of operations from an agent and the records made so far: the final agent
and the records of all add_stream calls, in call order; `abort` as soon as one aborts. -/
def exec : NiceAgent → List Creation → List Op → Run (NiceAgent × List Creation)
  | agent, log, [] => Run.done (agent, log)
  | agent, log, op :: ops =>
    match step agent op with
    | Run.abort a => Run.abort a
    | Run.done (a, made) => exec a (log ++ made) ops

/-- Whether an operation is the bare call of _nice_agent_recv rather than a call of the
public API. -/
def is_bare_recv : Op → Bool
  | Op.recv _ _ _ _ _ _ _ => true
  | _ => false

/-- The local candidates a stream created by nice_agent_add_stream gets from the factory:
one per address, in order, the `i`-th call asking for the `i`-th address. -/
def made_socks (env : Nat → HostEnv) : List NiceAddress → Nat → List (Option NiceUDPSocket)
  | [], _ => []
  | addr :: rest, i => (env i).make addr :: made_socks env rest (i + 1)

/-- The sockets of the local candidates of a stream, in list order. -/
def local_socks (s : Stream) : List (Option NiceUDPSocket) :=
  s.component.local_candidates.map (fun c => c.sock)

/-- The relation between a stream before and after an operation that keeps its id and the
sockets of its local candidates. -/
def keeps_locals (s : Stream) (t : Stream) : Prop :=
  t.id = s.id ∧ local_socks t = local_socks s

/-- The bookkeeping invariant of a run that started from a new agent, `log` being the
records of its add_stream calls: the id counter is one more than the number of streams
made, the ids returned are 1, 2, ... in call order (all modulo 2^32), every stream in the
list has an id that was returned, these ids are pairwise distinct, and the local candidates
of a stream are the ones the factory made for the addresses registered when the stream was
created. -/
def RunInv (a : NiceAgent) (log : List Creation) : Prop :=
  a.next_stream_id = (log.length + 1) % GUINT_MOD ∧
  log.map (fun c => c.id) = (List.range' 1 log.length).map (fun k => k % GUINT_MOD) ∧
  (∀ s ∈ a.streams, s.id ∈ log.map (fun c => c.id)) ∧
  (a.streams.map (fun s => s.id)).Nodup ∧
  (∀ s ∈ a.streams, ∀ c ∈ log, c.id = s.id →
    local_socks s = made_socks c.env c.addresses 0)

/-- What the codec makes of the datagram of a socket read: stun_message_unpack on the
first `len` bytes of the buffer. -/
def stun_message_unpack_result (stun_message_unpack : List Nat → Option StunMessage)
    (rd : UdpRecv) : Option StunMessage :=
  stun_message_unpack (rd.buf.take rd.len)

/-- What a stream may become while datagrams are received on it, whatever candidate the
reads are attributed to: the ids and both candidate lists stay, and the state stays or
becomes CONNECTED. -/
def evolves_any (s : Stream) (t : Stream) : Prop :=
  t.id = s.id ∧ t.component.id = s.component.id ∧
  t.component.local_candidates = s.component.local_candidates ∧
  t.component.remote_candidates = s.component.remote_candidates ∧
  (t.component.state = s.component.state ∨
    t.component.state = NiceComponentState.CONNECTED)

/-- What a stream may become while datagrams are received on sockets of its own local
candidates: as `evolves_any`, and active_candidate stays or points to one of the local
candidates of the stream. -/
def evolves (s : Stream) (t : Stream) : Prop :=
  evolves_any s t ∧
  (t.component.active_candidate = s.component.active_candidate ∨
    ∃ c ∈ s.component.local_candidates, t.component.active_candidate = some c.ref)

/-- Ownership of the local candidates in a stream list: every local candidate carries the
id of the stream that holds it, and of two streams with the same id the later one holds no
local candidate. -/
def Owned (l : List Stream) : Prop :=
  (∀ s ∈ l, ∀ c ∈ s.component.local_candidates, c.stream_id = s.id) ∧
  l.Pairwise (fun s t => t.id = s.id → t.component.local_candidates = [])

/-- The second agent differs from the first in its stream list at most. -/
def only_streams (a : NiceAgent) (a1 : NiceAgent) : Prop :=
  a1 = { a with streams := a1.streams }

/-- A candidate is a host candidate whose address and base address are the address its
socket is bound to. -/
def host_bound (c : NiceCandidate) : Prop :=
  c.type = NiceCandidateType.HOST ∧
  ∃ sk, c.sock = some sk ∧ c.addr = sk.addr ∧ c.base_addr = sk.addr

/-- The active candidate of the component of a stream is unset or points to one of the
local candidates of that same component. -/
def active_local (s : Stream) : Prop :=
  s.component.active_candidate = none ∨
  ∃ c ∈ s.component.local_candidates, s.component.active_candidate = some c.ref

/-- The invariant of the candidate and state bookkeeping: the local candidates are owned by
their streams, each is a bound host candidate, and every component is DISCONNECTED or
CONNECTED. -/
def CandInv (a : NiceAgent) : Prop :=
  Owned a.streams ∧
  (∀ s ∈ a.streams, ∀ c ∈ s.component.local_candidates, host_bound c) ∧
  (∀ s ∈ a.streams, s.component.state = NiceComponentState.DISCONNECTED ∨
    s.component.state = NiceComponentState.CONNECTED)

/-- The candidate invariant, together with the active-candidate property when `strict`
holds (runs made of calls of the public API only). -/
def ApiInv (strict : Bool) (a : NiceAgent) : Prop :=
  CandInv a ∧ (strict = true → ∀ s ∈ a.streams, active_local s)

/-- What the invariants need of a stream after an operation that creates and removes
nothing: the id and the local candidates stay, the state stays or becomes CONNECTED, and,
when `strict` holds, active_candidate stays or points to a local candidate. -/
def carries (strict : Bool) (s : Stream) (t : Stream) : Prop :=
  t.id = s.id ∧
  t.component.local_candidates = s.component.local_candidates ∧
  (t.component.state = s.component.state ∨
    t.component.state = NiceComponentState.CONNECTED) ∧
  (strict = true →
    (t.component.active_candidate = s.component.active_candidate ∨
      ∃ c ∈ s.component.local_candidates, t.component.active_candidate = some c.ref))

/-- An environment whose socket factory never fails. -/
def env_ok (env : Nat → HostEnv) : Prop :=
  ∀ i addr, (env i).make addr ≠ none

/-- A family of sample environments, one per `slot`: the `i`-th candidate record made in it
is at address 4096 (slot + 1) + 64 i, has the credentials AAAAAAAA and PPPPPPPP, and its
socket is bound to port 5000 + 16 slot + i of the address asked for, on descriptor
3 + 16 slot + i. -/
def sample_env (slot : Nat) (i : Nat) : HostEnv :=
  { ref := 4096 * (slot + 1) + 64 * i, username := [65, 65, 65, 65, 65, 65, 65, 65],
    password := [80, 80, 80, 80, 80, 80, 80, 80],
    make := fun addr => some ⟨3 + 16 * slot + i, ⟨addr.addr_ipv4, 5000 + 16 * slot + i⟩⟩ }

/-- The run that adds a stream and removes it again, `n` times over, the stream ids being
`first`, `first + 1`, ... modulo 2^32. -/
def churn (first : Nat) : Nat → List Op
  | 0 => []
  | n + 1 =>
    churn first n ++
      [Op.add_stream 1 (sample_env 1), Op.remove_stream ((first + n) % GUINT_MOD)]

/-- The records of the add_stream calls of `churn first n` when `addrs` are the registered
local addresses. -/
def churn_log (first : Nat) (addrs : List NiceAddress) : Nat → List Creation
  | 0 => []
  | n + 1 => churn_log first addrs n ++ [⟨(first + n) % GUINT_MOD, addrs, sample_env 1⟩]

/-- A short run: an address, a stream, a remote candidate for it, a second address, a
second stream, the first stream removed, a third stream. -/
def sample_run_ops : List Op :=
  [Op.add_local_address ⟨167772161, 9⟩, Op.add_stream 1 (sample_env 0),
   Op.add_remote_candidate 1 1 NiceCandidateType.HOST ⟨3221225989, 40000⟩
     [66, 66, 66, 66, 66, 66, 66, 66] [81, 81, 81, 81, 81, 81, 81, 81] 8000 128 [] [],
   Op.add_local_address ⟨167772162, 0⟩, Op.remove_stream 1, Op.add_stream 1 (sample_env 1),
   Op.add_stream 1 (sample_env 2)]

/-- The host candidate that `sample_env slot` makes as the `i`-th one of stream
`stream_id`, with candidate id `id`, for the address `ip`. -/
def sample_host (slot : Nat) (i : Nat) (stream_id : Nat) (id : Nat) (ip : Nat) :
    NiceCandidate :=
  { ref := 4096 * (slot + 1) + 64 * i, type := NiceCandidateType.HOST, id := id,
    addr := ⟨ip, 5000 + 16 * slot + i⟩, base_addr := ⟨ip, 5000 + 16 * slot + i⟩,
    stream_id := stream_id, component_id := 1,
    sock := some ⟨3 + 16 * slot + i, ⟨ip, 5000 + 16 * slot + i⟩⟩,
    username := [65, 65, 65, 65, 65, 65, 65, 65],
    password := [80, 80, 80, 80, 80, 80, 80, 80], source := none }

/-- The agent at the end of `sample_run_ops`. -/
def sample_run_agent : NiceAgent :=
  { next_candidate_id := 6, next_stream_id := 4,
    local_addresses := [⟨167772161, 0⟩, ⟨167772162, 0⟩],
    streams :=
      [⟨2, { component_new 1 with
              local_candidates := [sample_host 1 0 2 2 167772161,
                                   sample_host 1 1 2 3 167772162] }⟩,
       ⟨3, { component_new 1 with
              local_candidates := [sample_host 2 0 3 4 167772161,
                                   sample_host 2 1 3 5 167772162] }⟩],
    main_context_set := false, main_context := 0, read_func := 0, read_func_data := 0 }

/-- The records of the three add_stream calls of `sample_run_ops`. -/
def sample_run_log : List Creation :=
  [⟨1, [⟨167772161, 0⟩], sample_env 0⟩,
   ⟨2, [⟨167772161, 0⟩, ⟨167772162, 0⟩], sample_env 1⟩,
   ⟨3, [⟨167772161, 0⟩, ⟨167772162, 0⟩], sample_env 2⟩]

/-- The agent after add_local_address (10.0.0.1) and one add_stream in `sample_env 0`. -/
def wrap_base : NiceAgent :=
  { next_candidate_id := 2, next_stream_id := 2, local_addresses := [⟨167772161, 0⟩],
    streams :=
      [⟨1, { component_new 1 with local_candidates := [sample_host 0 0 1 1 167772161] }⟩],
    main_context_set := false, main_context := 0, read_func := 0, read_func_data := 0 }

/-- Whether an effect is a datagram sent over a socket. -/
def is_udp_send : Effect → Bool
  | Effect.udp_send _ _ _ => true
  | _ => false

/-- Whether an effect is a signal emission. -/
def is_signal_emit : Effect → Bool
  | Effect.signal_emit _ _ _ => true
  | _ => false

/-! ## Sample data used by the concrete instances -/

/-- A codec stand-in for concrete runs: the type tag, then the transaction id, then the
attribute payloads. -/
def sample_pack (m : StunMessage) : List Nat :=
  (match m.type with
    | StunMessageType.BINDING_REQUEST => 1
    | StunMessageType.BINDING_RESPONSE => 2
    | StunMessageType.BINDING_ERROR_RESPONSE => 3
    | StunMessageType.OTHER c => c) :: m.transaction_id ++
  (m.attributes.map (fun a => match a with
    | StunAttribute.MAPPED_ADDRESS ip port => [ip, port]
    | StunAttribute.USERNAME u => u
    | StunAttribute.OTHER c => [c])).flatten

/-- A local host candidate with username AAAAAAAA, bound to 10.0.0.1:5000 on fd 7. -/
def sample_local : NiceCandidate :=
  { ref := 4096, type := NiceCandidateType.HOST, id := 1,
    addr := ⟨167772161, 5000⟩, base_addr := ⟨167772161, 5000⟩,
    stream_id := 1, component_id := 1, sock := some ⟨7, ⟨167772161, 5000⟩⟩,
    username := [65, 65, 65, 65, 65, 65, 65, 65],
    password := [80, 80, 80, 80, 80, 80, 80, 80], source := none }

/-- A remote candidate with username BBBBBBBB at 192.0.2.5:40000. -/
def sample_remote : NiceCandidate :=
  { ref := 8192, type := NiceCandidateType.HOST, id := 0,
    addr := ⟨3221225989, 40000⟩, base_addr := ⟨0, 0⟩,
    stream_id := 1, component_id := 1, sock := none,
    username := [66, 66, 66, 66, 66, 66, 66, 66],
    password := [81, 81, 81, 81, 81, 81, 81, 81], source := none }

/-- A disconnected component holding the two sample candidates. -/
def sample_component : Component :=
  { id := 1, local_candidates := [sample_local], remote_candidates := [sample_remote],
    active_candidate := none, peer_addr := ⟨0, 0⟩,
    state := NiceComponentState.DISCONNECTED }

/-- The stream of the sample component. -/
def sample_stream : Stream := ⟨1, sample_component⟩

/-- The sender 192.0.2.5:40000. -/
def sample_from : NiceAddress := ⟨3221225989, 40000⟩

/-- A transaction id. -/
def sample_tid : List Nat := [1, 2, 3, 4, 5, 6, 7, 8, 9, 10, 11, 12, 13, 14, 15, 16]

/-- The bytes the RNG yields for the triggered check. -/
def sample_rng : List Nat := [9, 9, 9, 9, 9, 9, 9, 9, 9, 9, 9, 9, 9, 9, 9, 9]

/-- An agent with one stream whose component is connected: the sample local candidate is
the active one and the sample sender is the peer. -/
def sample_connected_agent : NiceAgent :=
  { nice_agent_new with
    next_candidate_id := 2, next_stream_id := 2, local_addresses := [⟨167772161, 0⟩],
    streams := [⟨1, { sample_component with
                       active_candidate := some sample_local.ref,
                       peer_addr := sample_from,
                       state := NiceComponentState.CONNECTED }⟩] }

/-- A codec stand-in for concrete runs: a datagram that starts with the bytes 0 and 1 is a
BINDING_REQUEST whose next 16 bytes are the transaction id and whose remaining bytes are
the USERNAME; nothing else parses. -/
def sample_unpack (bytes : List Nat) : Option StunMessage :=
  match bytes with
  | 0 :: 1 :: rest =>
    some ⟨StunMessageType.BINDING_REQUEST, rest.take 16,
      [StunAttribute.USERNAME (rest.drop 16)]⟩
  | _ => none

/-- A socket read that yields a connectivity check from the sample sender, with the
USERNAME AAAAAAAABBBBBBBB. -/
def sample_check : RecvEnv :=
  ⟨⟨34, sample_from,
      [0, 1] ++ sample_tid ++
        [65, 65, 65, 65, 65, 65, 65, 65, 66, 66, 66, 66, 66, 66, 66, 66]⟩,
    sample_rng⟩

/-- A run of API calls: an address, a stream, a remote candidate, and a valid connectivity
check received on the socket (descriptor 3) of the local candidate. -/
def sample_api_ops : List Op :=
  [Op.add_local_address ⟨167772161, 9⟩, Op.add_stream 1 (sample_env 0),
   Op.add_remote_candidate 1 1 NiceCandidateType.HOST ⟨3221225989, 40000⟩
     [66, 66, 66, 66, 66, 66, 66, 66] [81, 81, 81, 81, 81, 81, 81, 81] 8192 128 [] [],
   Op.recv_sock sample_pack sample_unpack 1 1 3 1024 sample_check]

/-- The agent at the end of `sample_api_ops`. -/
def sample_api_agent : NiceAgent :=
  { nice_agent_new with
    next_candidate_id := 2, next_stream_id := 2, local_addresses := [⟨167772161, 0⟩],
    streams :=
      [⟨1, { component_new 1 with
              local_candidates := [sample_host 0 0 1 1 167772161],
              remote_candidates := [sample_remote],
              active_candidate := some 4096,
              peer_addr := sample_from,
              state := NiceComponentState.CONNECTED }⟩] }

/-- Whether an operation is nice_agent_main_context_attach. -/
def is_attach : Op → Bool
  | Op.main_context_attach _ _ _ => true
  | _ => false

/-- The run that wraps the stream id counter onto the id of a live stream: one address,
one stream (id 1), then 4294967295 times a stream added and removed (ids 2, 3, ...,
4294967295, 0), then one more stream, which gets the id 1 again. -/
def wrap_ops : List Op :=
  [Op.add_local_address ⟨167772161, 0⟩, Op.add_stream 1 (sample_env 0)] ++
    churn 2 4294967295 ++ [Op.add_stream 1 (sample_env 1)]

/-- A connectivity check in the ICE form: a BINDING_REQUEST whose USERNAME is the local
username AAAAAAAA, a colon (byte 58), and the remote username BBBBBBBB. -/
def sample_ice_request : StunMessage :=
  ⟨StunMessageType.BINDING_REQUEST, sample_tid,
    [StunAttribute.USERNAME
      (sample_local.username ++ [58] ++ sample_remote.username)]⟩

/-- An environment whose socket factory fails for every address (it returns FALSE); records
and credentials as in `sample_env 0`. -/
def failing_env (i : Nat) : HostEnv :=
  { sample_env 0 i with make := fun _ => none }

/-- The host candidate as nice_agent_add_local_host_candidate has linked it into the local
list before asking the factory: id 1 of stream 1, with the address asked for (10.0.0.1,
port 0), its credentials, and no socket. -/
def unbound_host : NiceCandidate :=
  { nice_candidate_new 4096 NiceCandidateType.HOST with
    id := 1, stream_id := 1, component_id := 1,
    addr := ⟨167772161, 0⟩, base_addr := ⟨167772161, 0⟩,
    username := [65, 65, 65, 65, 65, 65, 65, 65],
    password := [80, 80, 80, 80, 80, 80, 80, 80] }

/-- The outputs of the RESPOND path in terms of what the handler is given, with no remote
candidate named: over the socket `sock` to the sender, the BINDING_RESPONSE (transaction id
of the request, MAPPED-ADDRESS of the sender, USERNAME as received), then the triggered
BINDING_REQUEST (transaction id from the RNG, USERNAME = the received one with the prefix of
the length of the local username moved to the end), then the signal when the state was not
CONNECTED.  It is compared with binding_request_respond. -/
def respond_outputs (stun_message_pack : StunMessage → List Nat) (rng_bytes : List Nat)
    (stream_id : Nat) (component_id : Nat) (state : NiceComponentState)
    (sock : Option NiceUDPSocket) (local_username : List Nat) (from_ : NiceAddress)
    (transaction_id : List Nat) (username : List Nat) : List Effect :=
  [Effect.udp_send sock from_
      (stun_message_pack ⟨StunMessageType.BINDING_RESPONSE, transaction_id,
        [StunAttribute.MAPPED_ADDRESS from_.addr_ipv4 from_.port,
         StunAttribute.USERNAME username]⟩),
   Effect.udp_send sock from_
      (stun_message_pack ⟨StunMessageType.BINDING_REQUEST, rng_bytes,
        [StunAttribute.USERNAME
          (username.drop (strlen local_username) ++ local_username)]⟩)] ++
  (if state ≠ NiceComponentState.CONNECTED then
    [Effect.signal_emit stream_id component_id NiceComponentState.CONNECTED] else [])

/-- The sample remote candidate as another agent state may hold it: the same username
BBBBBBBB, with another password, address, type and record. -/
def sample_remote_variant : NiceCandidate :=
  { sample_remote with
    ref := 8256, type := NiceCandidateType.PEER_REFLEXIVE, addr := ⟨3221225990, 40002⟩,
    password := [82, 82, 82, 82, 82, 82, 82, 82] }

/-- A second remote candidate, with username CCCCCCCC. -/
def sample_remote_c : NiceCandidate :=
  { sample_remote with
    ref := 8320, addr := ⟨3221225991, 40004⟩,
    username := [67, 67, 67, 67, 67, 67, 67, 67] }

/-- The sample component with the remote candidates BBBBBBBB and CCCCCCCC. -/
def sample_component_two : Component :=
  { sample_component with remote_candidates := [sample_remote, sample_remote_c] }

/-- The same component in another agent state: the remote candidates in the other order,
the one with username BBBBBBBB with another password, address and type. -/
def sample_component_variant : Component :=
  { sample_component with remote_candidates := [sample_remote_c, sample_remote_variant] }

/-- The sample local candidate with another password. -/
def sample_local_variant : NiceCandidate :=
  { sample_local with password := [83, 83, 83, 83, 83, 83, 83, 83] }

/-- A connectivity check with the USERNAME AAAAAAAABBBBBBBB. -/
def sample_request : StunMessage :=
  ⟨StunMessageType.BINDING_REQUEST, sample_tid,
    [StunAttribute.USERNAME (sample_local.username ++ sample_remote.username)]⟩

/-- Whether an effect is a datagram read on a socket. -/
def is_udp_recv : Effect → Bool
  | Effect.udp_recv _ => true
  | _ => false

/-- Whether an effect is a call of the receive callback. -/
def is_read_func : Effect → Bool
  | Effect.read_func _ _ _ _ _ => true
  | _ => false

/-- The length of the application data in a datagram read into a buffer of `buf_len`
bytes: the length read when it is positive, fits the buffer and the top two bits of the
first byte are 10, and 0 otherwise.  It is compared with the value _nice_agent_recv
returns. -/
def app_data_len (buf_len : Nat) (rd : UdpRecv) : Nat :=
  if 0 < rd.len ∧ rd.len ≤ buf_len ∧ (rd.buf.headD 0) &&& 0xc0 = 0x80 then rd.len else 0

/-- The descriptors on which the loop of nice_agent_poll_read reads a datagram, in the
order of the loop: `j` from 0 to max_fd with `j` in the descriptor set after select and not
in `other_fds`. -/
def poll_sockets (agent : NiceAgent) (other_fds : List Nat) (sel : SelectResult) :
    List Nat :=
  (List.range (max_fd_of (agent_fds agent ++ other_fds) + 1)).filter
    (fun j => decide (j ∈ (agent_fds agent ++ other_fds).filter sel.ready) &&
      !decide (j ∈ other_fds))

/-- The datagram read that belongs to descriptor `j`: on the socket of the candidate that
the search of nice_agent_poll_read finds for `j`. -/
def expected_read (streams : List Stream) (j : Nat) : Option Effect :=
  match find_candidate_in_streams streams j with
  | none => none
  | some c => some (Effect.udp_recv c.sock)

/-- The callback invocation that belongs to descriptor `j`, if any: when the datagram read
on `j` is application data and `func` is not NULL, the call with the stream id and the
component id of the candidate found for `j`, the length and the bytes of the datagram, and
`data`. -/
def expected_call (streams : List Stream) (reads : Nat → RecvEnv) (func : Nat) (data : Nat)
    (j : Nat) : Option Effect :=
  match find_candidate_in_streams streams j with
  | none => none
  | some c =>
    if app_data_len 1024 (reads j).rd ≠ 0 ∧ func ≠ 0 then
      some (Effect.read_func c.stream_id c.component_id (app_data_len 1024 (reads j).rd)
        ((reads j).rd.buf.take (app_data_len 1024 (reads j).rd)) data)
    else none

/-- A select outcome: three descriptors readable, namely 9, 19, 35 and 36 as far as they
are in the set. -/
def sample_select : SelectResult :=
  ⟨3, fun j => j == 9 || j == 19 || j == 35 || j == 36⟩

/-- What the reads yield: on descriptor 19 a datagram of three bytes of application data,
on every other descriptor the sample connectivity check. -/
def sample_reads (j : Nat) : RecvEnv :=
  if j = 19 then ⟨⟨3, sample_from, [128, 1, 2]⟩, sample_rng⟩ else sample_check

/-- A remote candidate whose username is a colon followed by BBBBBBBB. -/
def sample_remote_colon : NiceCandidate :=
  { sample_remote with ref := 8384, username := [58] ++ sample_remote.username }

/-- The sample component with the remote candidates BBBBBBBB and :BBBBBBBB. -/
def sample_component_colon : Component :=
  { sample_component with remote_candidates := [sample_remote, sample_remote_colon] }

/-- A trace shows that a valid connectivity check was handled for the component of a
stream: it records an entry into _handle_stun with a BINDING_REQUEST whose USERNAME is the
username of a local candidate of the component followed by the username of one of its
remote candidates. -/
def valid_check_handled (trace : List Effect) (s : Stream) : Prop :=
  ∃ sender msg, Effect.handle_stun sender msg ∈ trace ∧
    msg.type = StunMessageType.BINDING_REQUEST ∧
    ∃ l ∈ s.component.local_candidates, ∃ r ∈ s.component.remote_candidates,
      stun_message_find_attribute_username msg.attributes =
        some (l.username ++ r.username)

/-- What an operation with the trace `trace` may do to the state of a stream that stays in
the list: the id stays, and the state stays, or it was not CONNECTED, is CONNECTED now, and
the trace shows a valid connectivity check handled for the component. -/
def state_step (trace : List Effect) (s : Stream) (t : Stream) : Prop :=
  t.id = s.id ∧
  (t.component.state = s.component.state ∨
    (s.component.state ≠ NiceComponentState.CONNECTED ∧
      t.component.state = NiceComponentState.CONNECTED ∧ valid_check_handled trace s))

/-- The relation `state_step` together with what makes it compose along the reads of one
call: the candidate lists and the component id stay. -/
def checked (trace : List Effect) (s : Stream) (t : Stream) : Prop :=
  evolves_any s t ∧
  (t.component.state = s.component.state ∨
    (s.component.state ≠ NiceComponentState.CONNECTED ∧ valid_check_handled trace s))

/-! # Theorems -/

/-! ## Lemmas on the username match -/

theorem g_str_has_prefix_iff (u p : List Nat) :
    g_str_has_prefix u p = true ↔ ∃ s, u = p ++ s := by
  unfold g_str_has_prefix strlen
  constructor
  · intro h
    split at h
    · exact absurd h (by simp)
    · refine ⟨u.drop p.length, ?_⟩
      have h1 : u.take p.length = p := by simpa using h
      conv_lhs => rw [← List.take_append_drop p.length u]
      rw [h1]
  · rintro ⟨s, rfl⟩
    simp

theorem strcmp_eq_zero_iff (s t : List Nat) : 0 = strcmp s t ↔ s = t := by
  unfold strcmp
  constructor
  · intro h
    by_contra hne
    rw [if_neg hne] at h
    split at h <;> omega
  · intro h
    simp [h]

theorem username_match_iff (u p r : List Nat) :
    ( g_str_has_prefix u p = true ∧ 0 = strcmp (u.drop (strlen p)) r) ↔ u = p ++ r := by
  rw [g_str_has_prefix_iff, strcmp_eq_zero_iff]
  unfold strlen
  constructor
  · rintro ⟨⟨s, rfl⟩, h⟩
    simp at h
    rw [h]
  · rintro rfl
    exact ⟨⟨r, rfl⟩, by simp⟩

theorem find_remote_cons (u : List Nat) (l r : NiceCandidate) (rs : List NiceCandidate) :
    find_remote u l (r :: rs) =
      if u = l.username ++ r.username then some r else find_remote u l rs := by
  have hm := username_match_iff u l.username r.username
  by_cases hp : g_str_has_prefix u l.username = true
  · by_cases hc : 0 = strcmp (u.drop (strlen l.username)) r.username
    · have : u = l.username ++ r.username := hm.1 ⟨hp, hc⟩
      simp only [find_remote, hp, hc]
      simp [this]
    · have : ¬ u = l.username ++ r.username := fun h => hc (hm.2 h).2
      simp only [find_remote, hp]
      simp [this, hc]
  · have : ¬ u = l.username ++ r.username := fun h => hp (hm.2 h).1
    simp only [find_remote]
    simp [this, hp]

theorem find_remote_some (u : List Nat) (l : NiceCandidate) (rs : List NiceCandidate)
    (r : NiceCandidate) (h : find_remote u l rs = some r) :
    r ∈ rs ∧ u = l.username ++ r.username := by
  induction rs with
  | nil => simp [find_remote] at h
  | cons x xs ih =>
    rw [find_remote_cons] at h
    split at h
    · cases h
      exact ⟨List.mem_cons_self _ _, by assumption⟩
    · exact ⟨List.mem_cons_of_mem _ (ih h).1, (ih h).2⟩

theorem find_remote_none_iff (u : List Nat) (l : NiceCandidate) (rs : List NiceCandidate) :
    find_remote u l rs = none ↔ ∀ r ∈ rs, u ≠ l.username ++ r.username := by
  induction rs with
  | nil => simp [find_remote]
  | cons x xs ih =>
    rw [find_remote_cons]
    by_cases hx : u = l.username ++ x.username
    · simp [hx]
    · simp only [if_neg hx, ih, List.mem_cons, forall_eq_or_imp]
      exact ⟨fun h => ⟨hx, h⟩, fun h => h.2⟩

theorem find_remote_of_mem (l r : NiceCandidate) (rs : List NiceCandidate) (hr : r ∈ rs) :
    ∃ r1, find_remote (l.username ++ r.username) l rs = some r1 ∧ r1 ∈ rs ∧
      r1.username = r.username := by
  cases hf : find_remote (l.username ++ r.username) l rs with
  | none => exact absurd rfl ((find_remote_none_iff _ _ _).1 hf r hr)
  | some r1 =>
    have h := find_remote_some _ _ _ _ hf
    exact ⟨r1, rfl, h.1, (List.append_cancel_left h.2).symm⟩

/-! ## The binding-request handler -/

theorem handle_request_valid (pack : StunMessage → List Nat) (rng : List Nat)
    (stream : Stream) (component : Component) (l r : NiceCandidate) (sender : NiceAddress)
    (msg : StunMessage) (hr : r ∈ component.remote_candidates)
    (hu : stun_message_find_attribute_username msg.attributes =
      some (l.username ++ r.username)) :
    ∃ r1, r1 ∈ component.remote_candidates ∧ r1.username = r.username ∧
      _handle_stun_binding_request pack rng stream component l sender msg =
        binding_request_respond pack rng stream component l sender msg
          (l.username ++ r.username) r1 := by
  obtain ⟨r1, hf, hm, hn⟩ := find_remote_of_mem l r component.remote_candidates hr
  refine ⟨r1, hm, hn, ?_⟩
  simp only [_handle_stun_binding_request, hu, hf]

theorem handle_request_invalid (pack : StunMessage → List Nat) (rng : List Nat)
    (stream : Stream) (component : Component) (l : NiceCandidate) (sender : NiceAddress)
    (msg : StunMessage)
    (h : ∀ u, stun_message_find_attribute_username msg.attributes = some u →
      ∀ r ∈ component.remote_candidates, u ≠ l.username ++ r.username) :
    _handle_stun_binding_request pack rng stream component l sender msg =
      binding_request_error pack component l sender msg := by
  unfold _handle_stun_binding_request
  cases hu : stun_message_find_attribute_username msg.attributes with
  | none => rfl
  | some u =>
    have hf := (find_remote_none_iff u l component.remote_candidates).2 (h u hu)
    simp only [hf]

/-- C1: a BINDING_REQUEST with transaction id T whose USERNAME is L.username ++ R.username,
for a remote candidate R of the component, makes the handler send exactly two datagrams,
both over the socket of L to the sender, in this order: the packed BINDING_RESPONSE with
transaction id T and the attributes MAPPED-ADDRESS (sender) and USERNAME (as received), then
the packed BINDING_REQUEST whose only attribute is USERNAME = R.username ++ L.username. -/
theorem binding_request_valid_sends (pack : StunMessage → List Nat) (rng : List Nat)
    (stream : Stream) (component : Component) (l r : NiceCandidate) (sender : NiceAddress)
    (tid : List Nat) (attrs : List StunAttribute)
    (hr : r ∈ component.remote_candidates)
    (hu : stun_message_find_attribute_username attrs = some (l.username ++ r.username)) :
    ((_handle_stun pack rng stream component l sender
        ⟨StunMessageType.BINDING_REQUEST, tid, attrs⟩).2.filter is_udp_send) =
      [Effect.udp_send l.sock sender
         (pack ⟨StunMessageType.BINDING_RESPONSE, tid,
           [StunAttribute.MAPPED_ADDRESS sender.addr_ipv4 sender.port,
            StunAttribute.USERNAME (l.username ++ r.username)]⟩),
       Effect.udp_send l.sock sender
         (pack ⟨StunMessageType.BINDING_REQUEST, rng,
           [StunAttribute.USERNAME (r.username ++ l.username)]⟩)] := by
  obtain ⟨r1, -, hn, he⟩ := handle_request_valid pack rng stream component l r sender
    ⟨StunMessageType.BINDING_REQUEST, tid, attrs⟩ hr hu
  simp only [_handle_stun, he, binding_request_respond, g_strconcat, hn]
  split <;> simp [is_udp_send]

theorem binding_request_valid_sends_witness :
    ((_handle_stun sample_pack sample_rng sample_stream sample_component sample_local
        sample_from ⟨StunMessageType.BINDING_REQUEST, sample_tid,
          [StunAttribute.USERNAME (sample_local.username ++ sample_remote.username)]⟩
        ).2.filter is_udp_send) =
      [Effect.udp_send sample_local.sock sample_from
         (sample_pack ⟨StunMessageType.BINDING_RESPONSE, sample_tid,
           [StunAttribute.MAPPED_ADDRESS sample_from.addr_ipv4 sample_from.port,
            StunAttribute.USERNAME (sample_local.username ++ sample_remote.username)]⟩),
       Effect.udp_send sample_local.sock sample_from
         (sample_pack ⟨StunMessageType.BINDING_REQUEST, sample_rng,
           [StunAttribute.USERNAME (sample_remote.username ++ sample_local.username)]⟩)] :=
  binding_request_valid_sends sample_pack sample_rng sample_stream sample_component
    sample_local sample_remote sample_from sample_tid _ (by decide) (by decide)

/-- C2: a BINDING_REQUEST that carries no USERNAME, or whose USERNAME is
L.username ++ R.username for no remote candidate R of the component, makes the handler
send one datagram only, the packed BINDING_ERROR_RESPONSE with the transaction id of the
request and no attribute, over the socket of L to the sender; the trace holds nothing else
(no triggered check, no signal) and the component is returned unchanged. -/
theorem binding_request_invalid_error (pack : StunMessage → List Nat) (rng : List Nat)
    (stream : Stream) (component : Component) (l : NiceCandidate) (sender : NiceAddress)
    (tid : List Nat) (attrs : List StunAttribute)
    (h : stun_message_find_attribute_username attrs = none ∨
      ∃ u, stun_message_find_attribute_username attrs = some u ∧
        ∀ r ∈ component.remote_candidates, u ≠ l.username ++ r.username) :
    _handle_stun pack rng stream component l sender
        ⟨StunMessageType.BINDING_REQUEST, tid, attrs⟩ =
      (component,
        [Effect.udp_send l.sock sender
          (pack ⟨StunMessageType.BINDING_ERROR_RESPONSE, tid, []⟩)]) := by
  simp only [_handle_stun]
  rw [handle_request_invalid]
  · rfl
  · intro u hu
    rcases h with h | ⟨u1, h1, h2⟩
    · simp only [h] at hu
      cases hu
    · simp only [h1] at hu
      cases hu
      exact h2

theorem binding_request_invalid_error_witness :
    _handle_stun sample_pack sample_rng sample_stream sample_component sample_local
        sample_from ⟨StunMessageType.BINDING_REQUEST, sample_tid,
          [StunAttribute.USERNAME [65, 65, 65, 65, 65, 65, 65, 65, 90, 90, 90, 90, 90, 90, 90, 90]]⟩ =
      (sample_component,
        [Effect.udp_send sample_local.sock sample_from
          (sample_pack ⟨StunMessageType.BINDING_ERROR_RESPONSE, sample_tid, []⟩)]) :=
  binding_request_invalid_error sample_pack sample_rng sample_stream sample_component
    sample_local sample_from sample_tid _ (Or.inr ⟨_, rfl, by decide⟩)

/-- C3: after a BINDING_REQUEST whose USERNAME is L.username ++ R.username for a remote
candidate R of the component, active_candidate points to L and peer_addr is the sender,
whatever they were before and whatever the address of R is, and the remote and the local
candidate lists are the ones before the call. -/
theorem binding_request_valid_affinity (pack : StunMessage → List Nat) (rng : List Nat)
    (stream : Stream) (component : Component) (l r : NiceCandidate) (sender : NiceAddress)
    (tid : List Nat) (attrs : List StunAttribute)
    (hr : r ∈ component.remote_candidates)
    (hu : stun_message_find_attribute_username attrs = some (l.username ++ r.username)) :
    let c := (_handle_stun pack rng stream component l sender
      ⟨StunMessageType.BINDING_REQUEST, tid, attrs⟩).1
    c.active_candidate = some l.ref ∧ c.peer_addr = sender ∧
      c.remote_candidates = component.remote_candidates ∧
      c.local_candidates = component.local_candidates := by
  obtain ⟨r1, -, -, he⟩ := handle_request_valid pack rng stream component l r sender
    ⟨StunMessageType.BINDING_REQUEST, tid, attrs⟩ hr hu
  simp only [_handle_stun, he, binding_request_respond]
  split <;> simp

theorem binding_request_valid_affinity_witness :
    ((_handle_stun sample_pack sample_rng sample_stream sample_component sample_local
        ⟨167772999, 1234⟩ ⟨StunMessageType.BINDING_REQUEST, sample_tid,
          [StunAttribute.USERNAME (sample_local.username ++ sample_remote.username)]⟩
        ).1.active_candidate = some sample_local.ref) ∧
    ((_handle_stun sample_pack sample_rng sample_stream sample_component sample_local
        ⟨167772999, 1234⟩ ⟨StunMessageType.BINDING_REQUEST, sample_tid,
          [StunAttribute.USERNAME (sample_local.username ++ sample_remote.username)]⟩
        ).1.peer_addr = ⟨167772999, 1234⟩) ∧
    ((_handle_stun sample_pack sample_rng sample_stream sample_component sample_local
        ⟨167772999, 1234⟩ ⟨StunMessageType.BINDING_REQUEST, sample_tid,
          [StunAttribute.USERNAME (sample_local.username ++ sample_remote.username)]⟩
        ).1.remote_candidates = sample_component.remote_candidates) ∧
    ((_handle_stun sample_pack sample_rng sample_stream sample_component sample_local
        ⟨167772999, 1234⟩ ⟨StunMessageType.BINDING_REQUEST, sample_tid,
          [StunAttribute.USERNAME (sample_local.username ++ sample_remote.username)]⟩
        ).1.local_candidates = sample_component.local_candidates) :=
  binding_request_valid_affinity sample_pack sample_rng sample_stream sample_component
    sample_local sample_remote ⟨167772999, 1234⟩ sample_tid _ (by decide) (by decide)

theorem respond_connected (pack : StunMessage → List Nat) (rng : List Nat)
    (stream : Stream) (c : Component) (l : NiceCandidate) (sender : NiceAddress)
    (msg : StunMessage) (u : List Nat) (r : NiceCandidate)
    (hs : c.state = NiceComponentState.CONNECTED) (ha : c.active_candidate = some l.ref)
    (hp : c.peer_addr = sender) :
    (binding_request_respond pack rng stream c l sender msg u r).1 = c ∧
      (binding_request_respond pack rng stream c l sender msg u r).2.filter
        is_signal_emit = [] := by
  cases c with
  | mk id lc rc ac pa st =>
    simp only at hs ha hp
    subst hs ha hp
    simp [binding_request_respond, is_signal_emit]

/-- C4: handling a valid BINDING_REQUEST (USERNAME = L.username ++ R.username for a remote
candidate R of the component) twice, on the same local candidate and from the same sender:
the second handling returns the component exactly as the first one left it (the same
active_candidate, peer_addr and state, which is CONNECTED); the first handling emits
component-state-changed (stream id, component id, CONNECTED) once when the state was not
CONNECTED before and not at all when it was; the second handling emits no signal. -/
theorem binding_request_idempotent (pack : StunMessage → List Nat) (rng1 rng2 : List Nat)
    (stream : Stream) (component : Component) (l r : NiceCandidate) (sender : NiceAddress)
    (tid : List Nat) (attrs : List StunAttribute)
    (hr : r ∈ component.remote_candidates)
    (hu : stun_message_find_attribute_username attrs = some (l.username ++ r.username)) :
    let first := _handle_stun pack rng1 stream component l sender
      ⟨StunMessageType.BINDING_REQUEST, tid, attrs⟩
    let second := _handle_stun pack rng2 stream first.1 l sender
      ⟨StunMessageType.BINDING_REQUEST, tid, attrs⟩
    second.1 = first.1 ∧
      second.1.active_candidate = first.1.active_candidate ∧
      second.1.peer_addr = first.1.peer_addr ∧
      second.1.state = first.1.state ∧
      first.1.state = NiceComponentState.CONNECTED ∧
      first.2.filter is_signal_emit =
        (if component.state ≠ NiceComponentState.CONNECTED then
          [Effect.signal_emit stream.id component.id NiceComponentState.CONNECTED]
         else []) ∧
      second.2.filter is_signal_emit = [] := by
  intro first second
  obtain ⟨r1, -, -, he⟩ := handle_request_valid pack rng1 stream component l r sender
    ⟨StunMessageType.BINDING_REQUEST, tid, attrs⟩ hr hu
  have h1 : first = binding_request_respond pack rng1 stream component l sender
      ⟨StunMessageType.BINDING_REQUEST, tid, attrs⟩ (l.username ++ r.username) r1 := by
    simp only [first, _handle_stun, he]
  have hrem : first.1.remote_candidates = component.remote_candidates := by
    rw [h1]
    simp only [binding_request_respond]
    split <;> rfl
  obtain ⟨r2, -, -, he2⟩ := handle_request_valid pack rng2 stream first.1 l r sender
    ⟨StunMessageType.BINDING_REQUEST, tid, attrs⟩ (hrem ▸ hr) hu
  have h2 : second = binding_request_respond pack rng2 stream first.1 l sender
      ⟨StunMessageType.BINDING_REQUEST, tid, attrs⟩ (l.username ++ r.username) r2 := by
    simp only [second, _handle_stun, he2]
  have hst : first.1.state = NiceComponentState.CONNECTED := by
    rw [h1]
    simp only [binding_request_respond]
    split
    · rfl
    · rename_i h
      simpa using h
  have hact : first.1.active_candidate = some l.ref ∧ first.1.peer_addr = sender := by
    rw [h1]
    simp only [binding_request_respond]
    split <;> exact ⟨rfl, rfl⟩
  have hsig : first.2.filter is_signal_emit =
      (if component.state ≠ NiceComponentState.CONNECTED then
        [Effect.signal_emit stream.id component.id NiceComponentState.CONNECTED]
       else []) := by
    rw [h1]
    simp only [binding_request_respond]
    split <;> simp [is_signal_emit]
  have hsec : second.1 = first.1 ∧ second.2.filter is_signal_emit = [] := by
    rw [h2]
    exact respond_connected pack rng2 stream first.1 l sender _ _ r2 hst hact.1 hact.2
  refine ⟨hsec.1, ?_, ?_, ?_, hst, hsig, hsec.2⟩
  · rw [hsec.1]
  · rw [hsec.1]
  · rw [hsec.1]

theorem binding_request_idempotent_witness :
    (_handle_stun sample_pack [3] sample_stream
        (_handle_stun sample_pack sample_rng sample_stream sample_component sample_local
          sample_from ⟨StunMessageType.BINDING_REQUEST, sample_tid,
            [StunAttribute.USERNAME (sample_local.username ++ sample_remote.username)]⟩).1
        sample_local sample_from ⟨StunMessageType.BINDING_REQUEST, sample_tid,
          [StunAttribute.USERNAME (sample_local.username ++ sample_remote.username)]⟩).1 =
      (_handle_stun sample_pack sample_rng sample_stream sample_component sample_local
          sample_from ⟨StunMessageType.BINDING_REQUEST, sample_tid,
            [StunAttribute.USERNAME (sample_local.username ++ sample_remote.username)]⟩).1 :=
  (binding_request_idempotent sample_pack sample_rng [3] sample_stream sample_component
    sample_local sample_remote sample_from sample_tid _ (by decide) (by decide)).1

/-! ## The receive demultiplexer -/

theorem land_c0_rtp (b : Nat) (h1 : 0x80 ≤ b) (h2 : b ≤ 0xBF) : b &&& 0xc0 = 0x80 := by
  interval_cases b <;> rfl

theorem land_c0_stun (b : Nat) (h : b ≤ 0x3F) : b &&& 0xc0 = 0 := by
  interval_cases b <;> rfl

theorem land_c0_other (b : Nat)
    (h : (0x40 ≤ b ∧ b ≤ 0x7F) ∨ (0xC0 ≤ b ∧ b ≤ 0xFF)) :
    b &&& 0xc0 ≠ 0x80 ∧ b &&& 0xc0 ≠ 0 := by
  rcases h with ⟨h1, h2⟩ | ⟨h1, h2⟩ <;> interval_cases b <;> decide

/-- C5: a datagram of length len with 0 < len ≤ buf_len whose first byte is in 0x80..0xBF
is handed to the application: _nice_agent_recv returns len, the component is unchanged and
the trace of the call is the single socket read (the codec is not called, _handle_stun is
not entered, nothing is sent). -/
theorem recv_rtp_passthrough (pack : StunMessage → List Nat)
    (unpack : List Nat → Option StunMessage) (rng : List Nat) (stream : Stream)
    (component : Component) (candidate : NiceCandidate) (buf_len : Nat) (rd : UdpRecv)
    (b : Nat) (hpos : 0 < rd.len) (hlen : rd.len ≤ buf_len)
    (hb : rd.buf.head? = some b) (h1 : 0x80 ≤ b) (h2 : b ≤ 0xBF) :
    _nice_agent_recv pack unpack rng stream component candidate buf_len rd =
      ⟨rd.len, component, [Effect.udp_recv candidate.sock]⟩ := by
  have hh : rd.buf.headD 0 = b := by
    cases hbuf : rd.buf with
    | nil => simp [hbuf] at hb
    | cons x xs =>
      simp only [hbuf, List.head?_cons, Option.some.injEq] at hb
      simp [hb]
  unfold _nice_agent_recv
  simp only [hh, land_c0_rtp b h1 h2]
  rw [if_neg (by omega), if_neg (by omega)]
  simp

theorem recv_rtp_passthrough_witness :
    _nice_agent_recv sample_pack (fun _ => none) sample_rng sample_stream sample_component
        sample_local 1024 ⟨3, sample_from, [128, 1, 2]⟩ =
      ⟨3, sample_component, [Effect.udp_recv sample_local.sock]⟩ :=
  recv_rtp_passthrough sample_pack (fun _ => none) sample_rng sample_stream
    sample_component sample_local 1024 ⟨3, sample_from, [128, 1, 2]⟩ 128 (by decide)
    (by decide) rfl (by decide) (by decide)

theorem headD_of_head (buf : List Nat) (b : Nat) (hb : buf.head? = some b) :
    buf.headD 0 = b := by
  cases buf with
  | nil => simp at hb
  | cons x xs =>
    simp only [List.head?_cons, Option.some.injEq] at hb
    simp [hb]

/-- C6: for a datagram whose first byte is in 0x00..0x3F, _nice_agent_recv returns 0 in
every case.  When the length is in range (0 < len ≤ buf_len) the codec is called on the
datagram; if it parses, the message is dispatched to _handle_stun, whose component and
trace are the ones returned; if parsing fails the component is unchanged and the trace is
the socket read and the codec call.  Whatever the length, a failed parse leaves the
component unchanged and sends nothing. -/
theorem recv_stun_returns_zero (pack : StunMessage → List Nat)
    (unpack : List Nat → Option StunMessage) (rng : List Nat) (stream : Stream)
    (component : Component) (candidate : NiceCandidate) (buf_len : Nat) (rd : UdpRecv)
    (b : Nat) (hb : rd.buf.head? = some b) (h : b ≤ 0x3F) :
    (_nice_agent_recv pack unpack rng stream component candidate buf_len rd).ret = 0 ∧
    (0 < rd.len → rd.len ≤ buf_len → ∀ msg, unpack (rd.buf.take rd.len) = some msg →
      _nice_agent_recv pack unpack rng stream component candidate buf_len rd =
        ⟨0, (_handle_stun pack rng stream component candidate rd.from_ msg).1,
          [Effect.udp_recv candidate.sock, Effect.stun_unpack (rd.buf.take rd.len),
            Effect.handle_stun rd.from_ msg] ++
          (_handle_stun pack rng stream component candidate rd.from_ msg).2⟩) ∧
    (0 < rd.len → rd.len ≤ buf_len → unpack (rd.buf.take rd.len) = none →
      _nice_agent_recv pack unpack rng stream component candidate buf_len rd =
        ⟨0, component,
          [Effect.udp_recv candidate.sock, Effect.stun_unpack (rd.buf.take rd.len)]⟩) ∧
    (unpack (rd.buf.take rd.len) = none →
      (_nice_agent_recv pack unpack rng stream component candidate buf_len rd).component =
        component ∧
      (_nice_agent_recv pack unpack rng stream component candidate buf_len rd).trace.filter
        is_udp_send = []) := by
  have hh := headD_of_head rd.buf b hb
  have hl := land_c0_stun b h
  refine ⟨?_, ?_, ?_, ?_⟩
  · unfold _nice_agent_recv
    simp only [hh, hl]
    split
    · rfl
    · split
      · rfl
      · simp only [show ¬ (0 = 128) by decide, if_false, if_true]
        split <;> rfl
  · intro hpos hlen msg hm
    unfold _nice_agent_recv
    simp only [hh, hl, hm]
    rw [if_neg (by omega), if_neg (by omega)]
    simp
  · intro hpos hlen hm
    unfold _nice_agent_recv
    simp only [hh, hl, hm]
    rw [if_neg (by omega), if_neg (by omega)]
    simp
  · intro hm
    unfold _nice_agent_recv
    simp only [hh, hl, hm]
    split_ifs <;> simp [is_udp_send]

theorem recv_stun_returns_zero_witness :
    (_nice_agent_recv sample_pack
        (fun _ => some ⟨StunMessageType.BINDING_REQUEST, sample_tid,
          [StunAttribute.USERNAME (sample_local.username ++ sample_remote.username)]⟩)
        sample_rng sample_stream sample_component sample_local 1024
        ⟨20, sample_from, [0, 1, 0, 0]⟩).ret = 0 :=
  (recv_stun_returns_zero sample_pack
    (fun _ => some ⟨StunMessageType.BINDING_REQUEST, sample_tid,
      [StunAttribute.USERNAME (sample_local.username ++ sample_remote.username)]⟩)
    sample_rng sample_stream sample_component sample_local 1024
    ⟨20, sample_from, [0, 1, 0, 0]⟩ 0 rfl (by decide)).1

/-- C7: for a datagram whose first byte is in 0x40..0x7F or in 0xC0..0xFF,
_nice_agent_recv returns 0, the component is unchanged and the trace of the call is the
single socket read (the codec is not called, _handle_stun is not entered, nothing is
sent). -/
theorem recv_other_discarded (pack : StunMessage → List Nat)
    (unpack : List Nat → Option StunMessage) (rng : List Nat) (stream : Stream)
    (component : Component) (candidate : NiceCandidate) (buf_len : Nat) (rd : UdpRecv)
    (b : Nat) (hb : rd.buf.head? = some b)
    (h : (0x40 ≤ b ∧ b ≤ 0x7F) ∨ (0xC0 ≤ b ∧ b ≤ 0xFF)) :
    _nice_agent_recv pack unpack rng stream component candidate buf_len rd =
      ⟨0, component, [Effect.udp_recv candidate.sock]⟩ := by
  have hh := headD_of_head rd.buf b hb
  have hl := land_c0_other b h
  unfold _nice_agent_recv
  simp only [hh]
  rw [if_neg hl.1, if_neg hl.2]
  split
  · rfl
  · split <;> rfl

theorem recv_other_discarded_witness :
    _nice_agent_recv sample_pack (fun _ => none) sample_rng sample_stream sample_component
        sample_local 1024 ⟨3, sample_from, [192, 1, 2]⟩ =
      ⟨0, sample_component, [Effect.udp_recv sample_local.sock]⟩ :=
  recv_other_discarded sample_pack (fun _ => none) sample_rng sample_stream
    sample_component sample_local 1024 ⟨3, sample_from, [192, 1, 2]⟩ 192 rfl
    (Or.inr (by decide))

/-- C8: when the socket read reports a length greater than buf_len, or the length 0,
_nice_agent_recv returns 0 whatever the buffer holds (also a first byte that looks like
RTP or STUN); the component is unchanged and the trace of the call is the single socket
read (no classification outcome, no codec call, no _handle_stun, nothing sent). -/
theorem recv_oversized_discarded (pack : StunMessage → List Nat)
    (unpack : List Nat → Option StunMessage) (rng : List Nat) (stream : Stream)
    (component : Component) (candidate : NiceCandidate) (buf_len : Nat) (rd : UdpRecv)
    (h : buf_len < rd.len ∨ rd.len = 0) :
    _nice_agent_recv pack unpack rng stream component candidate buf_len rd =
      ⟨0, component, [Effect.udp_recv candidate.sock]⟩ := by
  unfold _nice_agent_recv
  rcases h with h | h
  · by_cases h0 : rd.len = 0
    · simp [h0]
    · simp [h0, h]
  · simp [h]

theorem recv_oversized_discarded_witness :
    _nice_agent_recv sample_pack
        (fun _ => some ⟨StunMessageType.BINDING_REQUEST, sample_tid, []⟩) sample_rng
        sample_stream sample_component sample_local 2 ⟨3, sample_from, [128, 1]⟩ =
      ⟨0, sample_component, [Effect.udp_recv sample_local.sock]⟩ :=
  recv_oversized_discarded sample_pack
    (fun _ => some ⟨StunMessageType.BINDING_REQUEST, sample_tid, []⟩) sample_rng
    sample_stream sample_component sample_local 2 ⟨3, sample_from, [128, 1]⟩
    (Or.inl (by decide))

/-! ## Stream and candidate bookkeeping -/

theorem find_stream_append_new (old : List Stream) (new : Stream)
    (hold : ∀ s ∈ old, s.id ≠ new.id) :
    (old ++ [new]).find? (fun s => decide (s.id = new.id)) = some new := by
  induction old with
  | nil => simp
  | cons x xs ih =>
    have hx : x.id ≠ new.id := hold x (List.mem_cons_self _ _)
    have := ih (fun s hs => hold s (List.mem_cons_of_mem _ hs))
    simp [List.find?_cons, hx, this]

theorem store_component_append_new (old : List Stream) (new : Stream) (c : Component)
    (hold : ∀ s ∈ old, s.id ≠ new.id) :
    store_component (old ++ [new]) new.id c = old ++ [{ new with component := c }] := by
  induction old with
  | nil => simp [store_component]
  | cons x xs ih =>
    have hx : x.id ≠ new.id := hold x (List.mem_cons_self _ _)
    have := ih (fun s hs => hold s (List.mem_cons_of_mem _ hs))
    simp [store_component, hx, this]

theorem made_socks_length (env : Nat → HostEnv) (addrs : List NiceAddress) (i : Nat) :
    (made_socks env addrs i).length = addrs.length := by
  induction addrs generalizing i with
  | nil => rfl
  | cons x xs ih => simp [made_socks, ih]

theorem add_local_host_candidate_new (agent a1 : NiceAgent) (old : List Stream)
    (new : Stream) (addr : NiceAddress) (e : HostEnv)
    (hs : agent.streams = old ++ [new]) (hold : ∀ s ∈ old, s.id ≠ new.id)
    (h : nice_agent_add_local_host_candidate agent new.id 1 addr e = Run.done a1) :
    ∃ new1, a1.streams = old ++ [new1] ∧ new1.id = new.id ∧
      new1.component.local_candidates.map (fun c => c.sock) =
        new.component.local_candidates.map (fun c => c.sock) ++ [e.make addr] ∧
      a1.next_stream_id = agent.next_stream_id ∧
      a1.local_addresses = agent.local_addresses := by
  have hf : find_component agent new.id 1 = some (new, new.component) := by
    simp [find_component, find_stream, hs, find_stream_append_new old new hold]
  unfold nice_agent_add_local_host_candidate at h
  simp only [hf] at h
  cases hm : e.make addr with
  | none => simp [hm] at h
  | some sock =>
    simp only [hm, Run.done.injEq] at h
    rw [hs, store_component_append_new old new _ hold] at h
    subst h
    exact ⟨_, rfl, rfl, by simp, rfl, rfl⟩

theorem add_stream_loop_new (env : Nat → HostEnv) (old : List Stream) (sid : Nat)
    (hold : ∀ s ∈ old, s.id ≠ sid) (addrs : List NiceAddress) :
    ∀ (i : Nat) (agent a1 : NiceAgent) (new : Stream), new.id = sid →
      agent.streams = old ++ [new] →
      add_stream_loop env sid 1 agent addrs i = Run.done a1 →
      ∃ new1, a1.streams = old ++ [new1] ∧ new1.id = sid ∧
        new1.component.local_candidates.map (fun c => c.sock) =
          new.component.local_candidates.map (fun c => c.sock) ++ made_socks env addrs i ∧
        a1.next_stream_id = agent.next_stream_id ∧
        a1.local_addresses = agent.local_addresses := by
  induction addrs with
  | nil =>
    intro i agent a1 new hid hs h
    simp only [add_stream_loop, Run.done.injEq] at h
    subst h
    exact ⟨new, hs, hid, by simp [made_socks], rfl, rfl⟩
  | cons addr rest ih =>
    intro i agent a1 new hid hs h
    subst hid
    simp only [add_stream_loop] at h
    cases hc : nice_agent_add_local_host_candidate agent new.id 1 addr (env i) with
    | abort x => simp [hc] at h
    | done a2 =>
      simp only [hc] at h
      obtain ⟨new2, hs2, hid2, hl2, hn2, ha2⟩ :=
        add_local_host_candidate_new agent a2 old new addr (env i) hs hold hc
      obtain ⟨new1, hs1, hid1, hl1, hn1, ha1⟩ := ih (i + 1) a2 a1 new2 hid2 hs2 h
      refine ⟨new1, hs1, hid1, ?_, hn1.trans hn2, ha1.trans ha2⟩
      rw [hl1, hl2]
      simp [made_socks]

theorem add_stream_done (agent a1 : NiceAgent) (n : Nat) (env : Nat → HostEnv) (id : Nat)
    (hold : ∀ s ∈ agent.streams, s.id ≠ agent.next_stream_id)
    (h : nice_agent_add_stream agent n env = Run.done (a1, id)) :
    id = agent.next_stream_id ∧
    a1.next_stream_id = (agent.next_stream_id + 1) % GUINT_MOD ∧
    ∃ new1, a1.streams = agent.streams ++ [new1] ∧ new1.id = id ∧
      new1.component.local_candidates.map (fun c => c.sock) =
        made_socks env agent.local_addresses 0 ∧
      a1.local_addresses = agent.local_addresses := by
  unfold nice_agent_add_stream at h
  split at h
  · cases h
  · simp only at h
    cases hl : add_stream_loop env agent.next_stream_id stream_new.component.id
        { agent with next_stream_id := (agent.next_stream_id + 1) % GUINT_MOD,
                     streams := agent.streams ++
                       [{ stream_new with id := agent.next_stream_id }] }
        agent.local_addresses 0 with
    | abort x => simp [hl] at h
    | done a2 =>
      simp only [hl, Run.done.injEq, Prod.mk.injEq] at h
      obtain ⟨h1, h2⟩ := h
      subst h1
      obtain ⟨new1, hs1, hid1, hl1, hn1, ha1⟩ :=
        add_stream_loop_new env agent.streams agent.next_stream_id hold _ 0 _ a2
          { stream_new with id := agent.next_stream_id } rfl rfl hl
      refine ⟨h2.symm, hn1, new1, hs1, ?_, ?_, ha1⟩
      · rw [hid1, ← h2]
      · rw [hl1]
        simp [stream_new, component_new]

theorem keeps_locals_ids (l l1 : List Stream) (h : List.Forall₂ keeps_locals l l1) :
    l1.map (fun s => s.id) = l.map (fun s => s.id) := by
  induction h with
  | nil => rfl
  | cons hab _ ih => simp [hab.1, ih]

theorem keeps_locals_mem (l l1 : List Stream) (h : List.Forall₂ keeps_locals l l1)
    (t : Stream) (ht : t ∈ l1) : ∃ s ∈ l, keeps_locals s t := by
  induction h with
  | nil => cases ht
  | cons hab _ ih =>
    rcases List.mem_cons.1 ht with rfl | ht1
    · exact ⟨_, List.mem_cons_self _ _, hab⟩
    · obtain ⟨s, hs, hk⟩ := ih ht1
      exact ⟨s, List.mem_cons_of_mem _ hs, hk⟩

theorem keeps_locals_same (l : List Stream) : List.Forall₂ keeps_locals l l := by
  induction l with
  | nil => exact List.Forall₂.nil
  | cons x xs ih => exact List.Forall₂.cons ⟨rfl, rfl⟩ ih

theorem keeps_locals_map (f : Stream → Stream) (hf : ∀ s, keeps_locals s (f s))
    (l : List Stream) : List.Forall₂ keeps_locals l (l.map f) := by
  induction l with
  | nil => exact List.Forall₂.nil
  | cons x xs ih => exact List.Forall₂.cons (hf x) ih

theorem keeps_locals_set (x : Stream) (l : List Stream) :
    ∀ (pos : Nat) (st : Stream), l.get? pos = some st → keeps_locals st x →
      List.Forall₂ keeps_locals l (l.set pos x) := by
  induction l with
  | nil => intro pos st h; simp at h
  | cons y ys ih =>
    intro pos st h hk
    cases pos with
    | zero =>
      simp only [List.get?_cons_zero, Option.some.injEq] at h
      subst h
      exact List.Forall₂.cons hk (keeps_locals_same ys)
    | succ n =>
      simp only [List.get?_cons_succ] at h
      exact List.Forall₂.cons ⟨rfl, rfl⟩ (ih n st h hk)

theorem keeps_locals_store (sid : Nat) (c : Component) (l : List Stream)
    (h : ∀ st, l.find? (fun s => decide (s.id = sid)) = some st →
      c.local_candidates.map (fun x => x.sock) = local_socks st) :
    List.Forall₂ keeps_locals l (store_component l sid c) := by
  induction l with
  | nil => exact List.Forall₂.nil
  | cons y ys ih =>
    by_cases hy : y.id = sid
    · have := h y (by simp [List.find?_cons, hy])
      simp only [store_component, if_pos hy]
      exact List.Forall₂.cons ⟨rfl, this⟩ (keeps_locals_same ys)
    · simp only [store_component, if_neg hy]
      refine List.Forall₂.cons ⟨rfl, rfl⟩ (ih ?_)
      intro st hst
      exact h st (by simpa [List.find?_cons, hy] using hst)

theorem run_inv_frame (a a1 : NiceAgent) (log : List Creation)
    (hf : List.Forall₂ keeps_locals a.streams a1.streams)
    (hn : a1.next_stream_id = a.next_stream_id) (h : RunInv a log) : RunInv a1 log := by
  obtain ⟨h1, h2, h3, h4, h5⟩ := h
  refine ⟨hn.trans h1, h2, ?_, ?_, ?_⟩
  · intro t ht
    obtain ⟨s, hs, hk⟩ := keeps_locals_mem _ _ hf t ht
    rw [hk.1]
    exact h3 s hs
  · rw [keeps_locals_ids _ _ hf]
    exact h4
  · intro t ht c hc hid
    obtain ⟨s, hs, hk⟩ := keeps_locals_mem _ _ hf t ht
    rw [hk.2]
    exact h5 s hs c hc (hid.trans hk.1)

theorem handle_stun_locals (pack : StunMessage → List Nat) (rng : List Nat)
    (stream : Stream) (component : Component) (l : NiceCandidate) (sender : NiceAddress)
    (msg : StunMessage) :
    (_handle_stun pack rng stream component l sender msg).1.local_candidates =
      component.local_candidates := by
  unfold _handle_stun
  split
  · unfold _handle_stun_binding_request
    split
    · rfl
    · split
      · rfl
      · unfold binding_request_respond
        simp only
        split <;> rfl
  · rfl
  · rfl

theorem recv_locals (pack : StunMessage → List Nat)
    (unpack : List Nat → Option StunMessage) (rng : List Nat) (stream : Stream)
    (component : Component) (candidate : NiceCandidate) (buf_len : Nat) (rd : UdpRecv) :
    (_nice_agent_recv pack unpack rng stream component candidate buf_len rd
      ).component.local_candidates = component.local_candidates := by
  unfold _nice_agent_recv
  simp only
  split_ifs
  · rfl
  · rfl
  · rfl
  · split
    · exact handle_stun_locals _ _ _ _ _ _ _
    · rfl
  · rfl

/-! ## Receiving on a stream -/

theorem handle_stun_cases (pack : StunMessage → List Nat) (rng : List Nat)
    (stream : Stream) (component : Component) (l : NiceCandidate) (sender : NiceAddress)
    (msg : StunMessage) :
    (_handle_stun pack rng stream component l sender msg).1 = component ∨
    ((_handle_stun pack rng stream component l sender msg).1 =
        { component with active_candidate := some l.ref, peer_addr := sender,
                         state := NiceComponentState.CONNECTED } ∧
      msg.type = StunMessageType.BINDING_REQUEST ∧
      ∃ r ∈ component.remote_candidates,
        stun_message_find_attribute_username msg.attributes =
          some (l.username ++ r.username)) := by
  unfold _handle_stun
  split
  · rename_i hty
    unfold _handle_stun_binding_request
    cases hu : stun_message_find_attribute_username msg.attributes with
    | none => exact Or.inl rfl
    | some u =>
      simp only
      cases hf : find_remote u l component.remote_candidates with
      | none => exact Or.inl rfl
      | some r =>
        obtain ⟨hm, hun⟩ := find_remote_some u l component.remote_candidates r hf
        refine Or.inr ⟨?_, hty, r, hm, by rw [hun]⟩
        simp only [binding_request_respond]
        split
        · rfl
        · rename_i hst
          simp only [ne_eq, not_not] at hst
          cases component
          simp only at hst
          simp [hst]
  · exact Or.inl rfl
  · exact Or.inl rfl

theorem recv_cases (pack : StunMessage → List Nat)
    (unpack : List Nat → Option StunMessage) (rng : List Nat) (stream : Stream)
    (component : Component) (candidate : NiceCandidate) (buf_len : Nat) (rd : UdpRecv) :
    (_nice_agent_recv pack unpack rng stream component candidate buf_len rd).component =
      component ∨
    ((_nice_agent_recv pack unpack rng stream component candidate buf_len rd).component =
        { component with active_candidate := some candidate.ref, peer_addr := rd.from_,
                         state := NiceComponentState.CONNECTED } ∧
      ∃ msg, stun_message_unpack_result unpack rd = some msg ∧
        msg.type = StunMessageType.BINDING_REQUEST ∧
        ∃ r ∈ component.remote_candidates,
          stun_message_find_attribute_username msg.attributes =
            some (candidate.username ++ r.username)) := by
  unfold _nice_agent_recv stun_message_unpack_result
  simp only
  split_ifs
  · exact Or.inl rfl
  · exact Or.inl rfl
  · exact Or.inl rfl
  · cases hm : unpack (rd.buf.take rd.len) with
    | none => exact Or.inl rfl
    | some msg =>
      simp only
      rcases handle_stun_cases pack rng stream component candidate rd.from_ msg with h | h
      · exact Or.inl h
      · exact Or.inr ⟨h.1, msg, rfl, h.2⟩
  · exact Or.inl rfl

theorem forall2_same (R : Stream → Stream → Prop) (hr : ∀ s, R s s) (l : List Stream) :
    List.Forall₂ R l l := by
  induction l with
  | nil => exact List.Forall₂.nil
  | cons x xs ih => exact List.Forall₂.cons (hr x) ih

theorem forall2_store (R : Stream → Stream → Prop) (hr : ∀ s, R s s) (sid : Nat)
    (c : Component) (l : List Stream)
    (h : ∀ s, l.find? (fun s => decide (s.id = sid)) = some s →
      R s { s with component := c }) :
    List.Forall₂ R l (store_component l sid c) := by
  induction l with
  | nil => exact List.Forall₂.nil
  | cons y ys ih =>
    by_cases hy : y.id = sid
    · have := h y (by simp [List.find?_cons, hy])
      simp only [store_component, if_pos hy]
      exact List.Forall₂.cons this (forall2_same R hr ys)
    · simp only [store_component, if_neg hy]
      refine List.Forall₂.cons (hr y) (ih ?_)
      intro st hst
      exact h st (by simpa [List.find?_cons, hy] using hst)

theorem forall2_set (R : Stream → Stream → Prop) (hr : ∀ s, R s s) (x : Stream)
    (l : List Stream) :
    ∀ (pos : Nat) (st : Stream), l.get? pos = some st → R st x →
      List.Forall₂ R l (l.set pos x) := by
  induction l with
  | nil => intro pos st h; simp at h
  | cons y ys ih =>
    intro pos st h hk
    cases pos with
    | zero =>
      simp only [List.get?_cons_zero, Option.some.injEq] at h
      subst h
      exact List.Forall₂.cons hk (forall2_same R hr ys)
    | succ n =>
      simp only [List.get?_cons_succ] at h
      exact List.Forall₂.cons (hr y) (ih n st h hk)

theorem forall2_trans (R : Stream → Stream → Prop)
    (ht : ∀ a b c, R a b → R b c → R a c) (l1 l2 : List Stream)
    (h12 : List.Forall₂ R l1 l2) :
    ∀ l3, List.Forall₂ R l2 l3 → List.Forall₂ R l1 l3 := by
  induction h12 with
  | nil =>
    intro l3 h
    cases h
    exact List.Forall₂.nil
  | cons hab _ ih =>
    intro l3 h
    cases h with
    | cons hbc hrest => exact List.Forall₂.cons (ht _ _ _ hab hbc) (ih _ hrest)

theorem forall2_mem (R : Stream → Stream → Prop) (l l1 : List Stream)
    (h : List.Forall₂ R l l1) (t : Stream) (ht : t ∈ l1) : ∃ s ∈ l, R s t := by
  induction h with
  | nil => cases ht
  | cons hab _ ih =>
    rcases List.mem_cons.1 ht with rfl | ht1
    · exact ⟨_, List.mem_cons_self _ _, hab⟩
    · obtain ⟨s, hs, hk⟩ := ih ht1
      exact ⟨s, List.mem_cons_of_mem _ hs, hk⟩

theorem evolves_any_same (s : Stream) : evolves_any s s :=
  ⟨rfl, rfl, rfl, rfl, Or.inl rfl⟩

theorem evolves_same (s : Stream) : evolves s s :=
  ⟨evolves_any_same s, Or.inl rfl⟩

theorem evolves_any_trans (a b c : Stream) (hab : evolves_any a b) (hbc : evolves_any b c) :
    evolves_any a c := by
  obtain ⟨h1, h2, h3, h4, h5⟩ := hab
  obtain ⟨k1, k2, k3, k4, k5⟩ := hbc
  refine ⟨k1.trans h1, k2.trans h2, k3.trans h3, k4.trans h4, ?_⟩
  rcases k5 with k5 | k5
  · rw [k5]
    exact h5
  · exact Or.inr k5

theorem evolves_trans (a b c : Stream) (hab : evolves a b) (hbc : evolves b c) :
    evolves a c := by
  refine ⟨evolves_any_trans a b c hab.1 hbc.1, ?_⟩
  rcases hbc.2 with k | ⟨x, hx, k⟩
  · rw [k]
    exact hab.2
  · refine Or.inr ⟨x, ?_, k⟩
    rw [← hab.1.2.2.1]
    exact hx

theorem evolves_keeps_locals (l l1 : List Stream) (h : List.Forall₂ evolves_any l l1) :
    List.Forall₂ keeps_locals l l1 :=
  h.imp (fun _ _ hab => ⟨hab.1, by unfold local_socks; rw [hab.2.2.1]⟩)

theorem evolves_weaken (l l1 : List Stream) (h : List.Forall₂ evolves l l1) :
    List.Forall₂ evolves_any l l1 :=
  h.imp (fun _ _ hab => hab.1)

theorem recv_evolves_any (pack : StunMessage → List Nat)
    (unpack : List Nat → Option StunMessage) (rng : List Nat) (stream : Stream)
    (candidate : NiceCandidate) (buf_len : Nat) (rd : UdpRecv) :
    evolves_any stream
      { stream with component :=
          (_nice_agent_recv pack unpack rng stream stream.component candidate buf_len rd
            ).component } := by
  rcases recv_cases pack unpack rng stream stream.component candidate buf_len rd with
    h | ⟨h, -⟩
  · rw [h]
    exact evolves_any_same stream
  · rw [h]
    exact ⟨rfl, rfl, rfl, rfl, Or.inr rfl⟩

theorem recv_evolves (pack : StunMessage → List Nat)
    (unpack : List Nat → Option StunMessage) (rng : List Nat) (stream : Stream)
    (candidate : NiceCandidate) (buf_len : Nat) (rd : UdpRecv)
    (hc : candidate ∈ stream.component.local_candidates) :
    evolves stream
      { stream with component :=
          (_nice_agent_recv pack unpack rng stream stream.component candidate buf_len rd
            ).component } := by
  refine ⟨recv_evolves_any pack unpack rng stream candidate buf_len rd, ?_⟩
  rcases recv_cases pack unpack rng stream stream.component candidate buf_len rd with
    h | ⟨h, -⟩
  · rw [h]
    exact Or.inl rfl
  · rw [h]
    exact Or.inr ⟨candidate, hc, rfl⟩

theorem find_store (sid : Nat) (c : Component) (s : Stream) (l : List Stream)
    (h : l.find? (fun s => decide (s.id = sid)) = some s) :
    (store_component l sid c).find? (fun s => decide (s.id = sid)) =
      some { s with component := c } := by
  induction l with
  | nil => simp at h
  | cons y ys ih =>
    by_cases hy : y.id = sid
    · simp only [List.find?_cons, hy, decide_True, Option.some.injEq] at h
      subst h
      simp [store_component, hy, List.find?_cons]
    · simp only [List.find?_cons, hy, decide_False] at h
      simp [store_component, hy, List.find?_cons, ih h]

theorem find_id (sid : Nat) (s : Stream) (l : List Stream)
    (h : l.find? (fun s => decide (s.id = sid)) = some s) : s.id = sid ∧ s ∈ l := by
  have h1 := List.find?_some h
  exact ⟨by simpa using h1, List.mem_of_find?_eq_some h⟩

theorem recv_stream_evolves (pack : StunMessage → List Nat)
    (unpack : List Nat → Option StunMessage) (rng : List Nat) (agent : NiceAgent)
    (stream : Stream) (candidate : NiceCandidate) (buf_len : Nat) (rd : UdpRecv)
    (hf : find_stream agent stream.id = some stream)
    (hc : candidate ∈ stream.component.local_candidates) :
    List.Forall₂ evolves agent.streams
      (recv_stream pack unpack rng agent stream candidate buf_len rd).1.streams := by
  unfold recv_stream
  simp only
  apply forall2_store evolves evolves_same
  intro s hs
  unfold find_stream at hf
  rw [hf] at hs
  cases hs
  exact recv_evolves pack unpack rng stream candidate buf_len rd hc

theorem first_of_pairwise (l : List Stream)
    (hp : l.Pairwise (fun s t => t.id = s.id → t.component.local_candidates = []))
    (s : Stream) (hs : s ∈ l) (hne : s.component.local_candidates ≠ []) :
    l.find? (fun t => decide (t.id = s.id)) = some s := by
  induction l with
  | nil => cases hs
  | cons x xs ih =>
    rw [List.pairwise_cons] at hp
    by_cases hx : x.id = s.id
    · rcases List.mem_cons.1 hs with rfl | hs1
      · simp [List.find?_cons]
      · exact absurd (hp.1 s hs1 hx.symm) hne
    · rcases List.mem_cons.1 hs with rfl | hs1
      · exact absurd rfl hx
      · simp only [List.find?_cons, hx, decide_False]
        exact ih hp.2 hs1

theorem owned_first (l : List Stream) (ho : Owned l) (s : Stream) (hs : s ∈ l)
    (c : NiceCandidate) (hc : c ∈ s.component.local_candidates) :
    l.find? (fun t => decide (t.id = c.stream_id)) = some s := by
  rw [ho.1 s hs c hc]
  exact first_of_pairwise l ho.2 s hs (List.ne_nil_of_mem hc)

theorem owned_evolves (l l1 : List Stream) (h : List.Forall₂ evolves_any l l1)
    (ho : Owned l) : Owned l1 := by
  constructor
  · intro t ht c hc
    obtain ⟨s, hs, he⟩ := forall2_mem evolves_any l l1 h t ht
    rw [he.2.2.1] at hc
    rw [he.1]
    exact ho.1 s hs c hc
  · have hp := ho.2
    clear ho
    induction h with
    | nil => exact List.Pairwise.nil
    | cons hab hrest ih =>
      rw [List.pairwise_cons] at hp ⊢
      refine ⟨?_, ih hp.2⟩
      intro t ht hid
      obtain ⟨s, hs, he⟩ := forall2_mem evolves_any _ _ hrest t ht
      rw [he.2.2.1]
      exact hp.1 s hs (by rw [← he.1, hid, hab.1])

theorem candidate_in_streams (l : List Stream) (j : Nat) (c : NiceCandidate)
    (h : find_candidate_in_streams l j = some c) :
    ∃ s ∈ l, c ∈ s.component.local_candidates := by
  unfold find_candidate_in_streams at h
  obtain ⟨s, hs, hf⟩ := List.exists_of_findSome?_eq_some h
  exact ⟨s, hs, List.mem_of_find?_eq_some hf⟩

theorem poll_read_loop_evolves (pack : StunMessage → List Nat)
    (unpack : List Nat → Option StunMessage) (reads : Nat → RecvEnv)
    (other_fds : List Nat) (func data : Nat) (fds : List Nat) (js : List Nat) :
    ∀ (agent : NiceAgent) (ret : List Nat) (trace : List Effect),
      Owned agent.streams →
      List.Forall₂ evolves agent.streams
        (poll_read_loop pack unpack reads other_fds func data fds js agent ret trace
          ).1.streams := by
  induction js with
  | nil =>
    intro agent ret trace _
    exact forall2_same evolves evolves_same _
  | cons j js ih =>
    intro agent ret trace ho
    unfold poll_read_loop
    split_ifs with h1 h2
    · exact ih agent _ trace ho
    · cases hc : find_candidate_in_streams agent.streams j with
      | none => exact forall2_same evolves evolves_same _
      | some candidate =>
        simp only
        cases hs : find_stream agent candidate.stream_id with
        | none => exact forall2_same evolves evolves_same _
        | some stream =>
          simp only
          obtain ⟨s, hsm, hcm⟩ := candidate_in_streams agent.streams j candidate hc
          have hfirst := owned_first agent.streams ho s hsm candidate hcm
          have hss : stream = s := by
            unfold find_stream at hs
            rw [hfirst] at hs
            exact (Option.some.inj hs).symm
          rw [hss]
          have hid : candidate.stream_id = s.id := ho.1 s hsm candidate hcm
          have hstep := recv_stream_evolves pack unpack (reads j).rng_bytes agent s
            candidate 1024 (reads j).rd (by unfold find_stream; rw [← hid]; exact hfirst)
            hcm
          refine forall2_trans evolves evolves_trans _ _ hstep _ (ih _ _ _ ?_)
          exact owned_evolves _ _ (evolves_weaken _ _ hstep) ho
    · exact ih agent ret trace ho

theorem poll_read_evolves (pack : StunMessage → List Nat)
    (unpack : List Nat → Option StunMessage) (agent : NiceAgent) (other_fds : List Nat)
    (func data : Nat) (sel : SelectResult) (reads : Nat → RecvEnv)
    (ho : Owned agent.streams) :
    List.Forall₂ evolves agent.streams
      (nice_agent_poll_read pack unpack agent other_fds func data sel reads).1.streams := by
  unfold nice_agent_poll_read
  simp only
  split_ifs
  · exact forall2_same evolves evolves_same _
  · exact poll_read_loop_evolves pack unpack reads other_fds func data _ _ agent [] [] ho

theorem recv_sock_evolves (pack : StunMessage → List Nat)
    (unpack : List Nat → Option StunMessage) (agent a1 : NiceAgent)
    (sid cid sock buf_len : Nat) (env : RecvEnv) (n : Nat) (tr : List Effect)
    (h : nice_agent_recv_sock pack unpack agent sid cid sock buf_len env =
      Run.done (a1, n, tr)) :
    List.Forall₂ evolves agent.streams a1.streams := by
  unfold nice_agent_recv_sock at h
  cases hf : find_component agent sid cid with
  | none =>
    simp only [hf, Run.done.injEq, Prod.mk.injEq] at h
    rw [← h.1]
    exact forall2_same evolves evolves_same _
  | some p =>
    obtain ⟨stream, component⟩ := p
    simp only [hf] at h
    cases hc : find_candidate_by_fd component sock with
    | none => simp [hc] at h
    | some candidate =>
      simp only [hc, Run.done.injEq, Prod.mk.injEq] at h
      rw [← h.1]
      unfold find_component at hf
      split at hf
      · cases hf
      · cases hfs : find_stream agent sid with
        | none => simp [hfs] at hf
        | some st =>
          simp only [hfs, Option.some.injEq, Prod.mk.injEq] at hf
          obtain ⟨rfl, rfl⟩ := hf
          have hid := (find_id sid st agent.streams hfs).1
          exact recv_stream_evolves pack unpack env.rng_bytes agent st candidate buf_len
            env.rd (by rw [hid]; exact hfs) (List.mem_of_find?_eq_some hc)

theorem recv_stream_first (pack : StunMessage → List Nat)
    (unpack : List Nat → Option StunMessage) (rng : List Nat) (agent : NiceAgent)
    (stream : Stream) (candidate : NiceCandidate) (buf_len : Nat) (rd : UdpRecv)
    (hf : find_stream agent stream.id = some stream) :
    find_stream (recv_stream pack unpack rng agent stream candidate buf_len rd).1 stream.id =
      some { stream with component :=
        (recv_stream pack unpack rng agent stream candidate buf_len rd).2.component } := by
  unfold recv_stream find_stream
  simp only
  exact find_store stream.id _ stream agent.streams hf

theorem agent_recv_scan_evolves (pack : StunMessage → List Nat)
    (unpack : List Nat → Option StunMessage) (reads : Nat → RecvEnv) (buf_len : Nat)
    (fds : List Nat) (js : List Nat) :
    ∀ (agent : NiceAgent) (stream : Stream) (trace : List Effect) (a1 : NiceAgent)
      (st1 : Stream) (len : Option Nat) (tr : List Effect),
      find_stream agent stream.id = some stream →
      agent_recv_scan pack unpack reads buf_len fds js agent stream trace =
        Run.done (a1, st1, len, tr) →
      List.Forall₂ evolves agent.streams a1.streams ∧
        find_stream a1 st1.id = some st1 := by
  induction js with
  | nil =>
    intro agent stream trace a1 st1 len tr hf h
    simp only [agent_recv_scan, Run.done.injEq, Prod.mk.injEq] at h
    obtain ⟨rfl, rfl, -, -⟩ := h
    exact ⟨forall2_same evolves evolves_same _, hf⟩
  | cons j js ih =>
    intro agent stream trace a1 st1 len tr hf h
    unfold agent_recv_scan at h
    split_ifs at h with h1
    · cases hc : find_candidate_by_fd stream.component j with
      | none => simp [hc] at h
      | some candidate =>
        simp only [hc] at h
        have hstep := recv_stream_evolves pack unpack (reads j).rng_bytes agent stream
          candidate buf_len (reads j).rd hf (List.mem_of_find?_eq_some hc)
        have hfirst := recv_stream_first pack unpack (reads j).rng_bytes agent stream
          candidate buf_len (reads j).rd hf
        split_ifs at h with h2
        · simp only [Run.done.injEq, Prod.mk.injEq] at h
          obtain ⟨rfl, rfl, -, -⟩ := h
          exact ⟨hstep, hfirst⟩
        · obtain ⟨hrest, hf1⟩ := ih _
            { stream with component :=
              (recv_stream pack unpack (reads j).rng_bytes agent stream candidate buf_len
                (reads j).rd).2.component } _ a1 st1 len tr hfirst h
          exact ⟨forall2_trans evolves evolves_trans _ _ hstep _ hrest, hf1⟩
    · exact ih agent stream trace a1 st1 len tr hf h

theorem agent_recv_rounds_evolves (pack : StunMessage → List Nat)
    (unpack : List Nat → Option StunMessage) (buf_len max_fd : Nat)
    (rounds : List RecvRound) :
    ∀ (fds : List Nat) (agent : NiceAgent) (stream : Stream) (trace : List Effect)
      (a1 : NiceAgent) (len : Option Nat) (tr : List Effect),
      find_stream agent stream.id = some stream →
      agent_recv_rounds pack unpack buf_len max_fd rounds fds agent stream trace =
        Run.done (a1, len, tr) →
      List.Forall₂ evolves agent.streams a1.streams := by
  induction rounds with
  | nil =>
    intro fds agent stream trace a1 len tr _ h
    simp only [agent_recv_rounds, Run.done.injEq, Prod.mk.injEq] at h
    rw [← h.1]
    exact forall2_same evolves evolves_same _
  | cons round rounds ih =>
    intro fds agent stream trace a1 len tr hf h
    unfold agent_recv_rounds at h
    split_ifs at h with h1 h2
    · cases hs : agent_recv_scan pack unpack round.reads buf_len
          (fds.filter round.sel.ready) (List.range (max_fd + 1)) agent stream trace with
      | abort x => simp [hs] at h
      | done p =>
        obtain ⟨a2, st2, len2, tr2⟩ := p
        obtain ⟨hstep, hf2⟩ := agent_recv_scan_evolves pack unpack round.reads buf_len _ _
          agent stream trace a2 st2 len2 tr2 hf hs
        cases len2 with
        | some n =>
          simp only [hs, Run.done.injEq, Prod.mk.injEq] at h
          rw [← h.1]
          exact hstep
        | none =>
          simp only [hs] at h
          exact forall2_trans evolves evolves_trans _ _ hstep _
            (ih _ a2 st2 tr2 a1 len tr hf2 h)
    · exact ih _ agent stream trace a1 len tr hf h

theorem agent_recv_evolves (pack : StunMessage → List Nat)
    (unpack : List Nat → Option StunMessage) (agent a1 : NiceAgent)
    (sid cid buf_len : Nat) (rounds : List RecvRound) (len : Option Nat)
    (tr : List Effect)
    (h : nice_agent_recv pack unpack agent sid cid buf_len rounds = Run.done (a1, len, tr)) :
    List.Forall₂ evolves agent.streams a1.streams := by
  unfold nice_agent_recv at h
  cases hf : find_component agent sid cid with
  | none =>
    simp only [hf, Run.done.injEq, Prod.mk.injEq] at h
    rw [← h.1]
    exact forall2_same evolves evolves_same _
  | some p =>
    obtain ⟨stream, component⟩ := p
    simp only [hf] at h
    unfold find_component at hf
    split at hf
    · cases hf
    · cases hfs : find_stream agent sid with
      | none => simp [hfs] at hf
      | some st =>
        simp only [hfs, Option.some.injEq, Prod.mk.injEq] at hf
        obtain ⟨rfl, rfl⟩ := hf
        have hid := (find_id sid st agent.streams hfs).1
        exact agent_recv_rounds_evolves pack unpack buf_len _ rounds _ agent st [] a1 len
          tr (by rw [hid]; exact hfs) h

theorem recv_stream_evolves_any (pack : StunMessage → List Nat)
    (unpack : List Nat → Option StunMessage) (rng : List Nat) (agent : NiceAgent)
    (stream : Stream) (candidate : NiceCandidate) (buf_len : Nat) (rd : UdpRecv)
    (hf : find_stream agent stream.id = some stream) :
    List.Forall₂ evolves_any agent.streams
      (recv_stream pack unpack rng agent stream candidate buf_len rd).1.streams := by
  unfold recv_stream
  simp only
  apply forall2_store evolves_any evolves_any_same
  intro s hs
  unfold find_stream at hf
  rw [hf] at hs
  cases hs
  exact recv_evolves_any pack unpack rng stream candidate buf_len rd

theorem poll_read_loop_evolves_any (pack : StunMessage → List Nat)
    (unpack : List Nat → Option StunMessage) (reads : Nat → RecvEnv)
    (other_fds : List Nat) (func data : Nat) (fds : List Nat) (js : List Nat) :
    ∀ (agent : NiceAgent) (ret : List Nat) (trace : List Effect),
      List.Forall₂ evolves_any agent.streams
        (poll_read_loop pack unpack reads other_fds func data fds js agent ret trace
          ).1.streams := by
  induction js with
  | nil =>
    intro agent ret trace
    exact forall2_same evolves_any evolves_any_same _
  | cons j js ih =>
    intro agent ret trace
    unfold poll_read_loop
    split_ifs with h1 h2
    · exact ih agent _ trace
    · cases hc : find_candidate_in_streams agent.streams j with
      | none => exact forall2_same evolves_any evolves_any_same _
      | some candidate =>
        simp only
        cases hs : find_stream agent candidate.stream_id with
        | none => exact forall2_same evolves_any evolves_any_same _
        | some stream =>
          simp only
          have hid := (find_id candidate.stream_id stream agent.streams hs).1
          have hstep := recv_stream_evolves_any pack unpack (reads j).rng_bytes agent stream
            candidate 1024 (reads j).rd (by rw [hid]; exact hs)
          exact forall2_trans evolves_any evolves_any_trans _ _ hstep _ (ih _ _ _)
    · exact ih agent ret trace

theorem poll_read_evolves_any (pack : StunMessage → List Nat)
    (unpack : List Nat → Option StunMessage) (agent : NiceAgent) (other_fds : List Nat)
    (func data : Nat) (sel : SelectResult) (reads : Nat → RecvEnv) :
    List.Forall₂ evolves_any agent.streams
      (nice_agent_poll_read pack unpack agent other_fds func data sel reads).1.streams := by
  unfold nice_agent_poll_read
  simp only
  split_ifs
  · exact forall2_same evolves_any evolves_any_same _
  · exact poll_read_loop_evolves_any pack unpack reads other_fds func data _ _ agent [] []

theorem send_same (agent a1 : NiceAgent) (sid cid len : Nat) (buf : List Nat)
    (tr : List Effect) (h : nice_agent_send agent sid cid len buf = Run.done (a1, tr)) :
    a1 = agent := by
  unfold nice_agent_send at h
  split at h
  · cases h
  · split at h
    · simp only [Run.done.injEq, Prod.mk.injEq] at h
      exact h.1.symm
    · split at h
      · cases h
      · simp only [Run.done.injEq, Prod.mk.injEq] at h
        exact h.1.symm

theorem run_inv_evolves (a a1 : NiceAgent) (log : List Creation)
    (hf : List.Forall₂ evolves_any a.streams a1.streams)
    (hn : a1.next_stream_id = a.next_stream_id) (h : RunInv a log) : RunInv a1 log :=
  run_inv_frame a a1 log (evolves_keeps_locals _ _ hf) hn h

theorem recv_stream_counter (pack : StunMessage → List Nat)
    (unpack : List Nat → Option StunMessage) (rng : List Nat) (agent : NiceAgent)
    (stream : Stream) (candidate : NiceCandidate) (buf_len : Nat) (rd : UdpRecv) :
    (recv_stream pack unpack rng agent stream candidate buf_len rd).1.next_stream_id =
      agent.next_stream_id := rfl

theorem only_streams_same (a : NiceAgent) : only_streams a a := rfl

theorem only_streams_trans (a a1 a2 : NiceAgent) (h1 : only_streams a a1)
    (h2 : only_streams a1 a2) : only_streams a a2 := by
  unfold only_streams at *
  rw [h2, h1]

theorem recv_stream_only_streams (pack : StunMessage → List Nat)
    (unpack : List Nat → Option StunMessage) (rng : List Nat) (agent : NiceAgent)
    (stream : Stream) (candidate : NiceCandidate) (buf_len : Nat) (rd : UdpRecv) :
    only_streams agent (recv_stream pack unpack rng agent stream candidate buf_len rd).1 :=
  rfl

theorem poll_read_loop_only_streams (pack : StunMessage → List Nat)
    (unpack : List Nat → Option StunMessage) (reads : Nat → RecvEnv)
    (other_fds : List Nat) (func data : Nat) (fds : List Nat) (js : List Nat) :
    ∀ (agent : NiceAgent) (ret : List Nat) (trace : List Effect),
      only_streams agent
        (poll_read_loop pack unpack reads other_fds func data fds js agent ret trace).1 := by
  induction js with
  | nil =>
    intro agent ret trace
    exact only_streams_same _
  | cons j js ih =>
    intro agent ret trace
    unfold poll_read_loop
    split_ifs with h1 h2
    · exact ih agent _ trace
    · cases hc : find_candidate_in_streams agent.streams j with
      | none => exact only_streams_same _
      | some candidate =>
        simp only
        cases hs : find_stream agent candidate.stream_id with
        | none => exact only_streams_same _
        | some stream =>
          simp only
          exact only_streams_trans _ _ _
            (recv_stream_only_streams pack unpack (reads j).rng_bytes agent stream
              candidate 1024 (reads j).rd) (ih _ _ _)
    · exact ih agent ret trace

theorem poll_read_only_streams (pack : StunMessage → List Nat)
    (unpack : List Nat → Option StunMessage) (agent : NiceAgent) (other_fds : List Nat)
    (func data : Nat) (sel : SelectResult) (reads : Nat → RecvEnv) :
    only_streams agent
      (nice_agent_poll_read pack unpack agent other_fds func data sel reads).1 := by
  unfold nice_agent_poll_read
  simp only
  split_ifs
  · exact only_streams_same _
  · exact poll_read_loop_only_streams pack unpack reads other_fds func data _ _ agent [] []

theorem recv_sock_only_streams (pack : StunMessage → List Nat)
    (unpack : List Nat → Option StunMessage) (agent a1 : NiceAgent)
    (sid cid sock buf_len : Nat) (env : RecvEnv) (n : Nat) (tr : List Effect)
    (h : nice_agent_recv_sock pack unpack agent sid cid sock buf_len env =
      Run.done (a1, n, tr)) :
    only_streams agent a1 := by
  unfold nice_agent_recv_sock at h
  split at h
  · simp only [Run.done.injEq, Prod.mk.injEq] at h
    rw [← h.1]
    exact only_streams_same _
  · split at h
    · cases h
    · simp only [Run.done.injEq, Prod.mk.injEq] at h
      rw [← h.1]
      exact recv_stream_only_streams _ _ _ _ _ _ _ _

theorem agent_recv_scan_only_streams (pack : StunMessage → List Nat)
    (unpack : List Nat → Option StunMessage) (reads : Nat → RecvEnv) (buf_len : Nat)
    (fds : List Nat) (js : List Nat) :
    ∀ (agent : NiceAgent) (stream : Stream) (trace : List Effect) (a1 : NiceAgent)
      (st1 : Stream) (len : Option Nat) (tr : List Effect),
      agent_recv_scan pack unpack reads buf_len fds js agent stream trace =
        Run.done (a1, st1, len, tr) →
      only_streams agent a1 := by
  induction js with
  | nil =>
    intro agent stream trace a1 st1 len tr h
    simp only [agent_recv_scan, Run.done.injEq, Prod.mk.injEq] at h
    rw [← h.1]
    exact only_streams_same _
  | cons j js ih =>
    intro agent stream trace a1 st1 len tr h
    unfold agent_recv_scan at h
    split_ifs at h with h1
    · cases hc : find_candidate_by_fd stream.component j with
      | none => simp [hc] at h
      | some candidate =>
        simp only [hc] at h
        split_ifs at h with h2
        · simp only [Run.done.injEq, Prod.mk.injEq] at h
          rw [← h.1]
          exact recv_stream_only_streams _ _ _ _ _ _ _ _
        · exact only_streams_trans _ _ _ (recv_stream_only_streams pack unpack
            (reads j).rng_bytes agent stream candidate buf_len (reads j).rd)
            (ih _ _ _ a1 st1 len tr h)
    · exact ih agent stream trace a1 st1 len tr h

theorem agent_recv_rounds_only_streams (pack : StunMessage → List Nat)
    (unpack : List Nat → Option StunMessage) (buf_len max_fd : Nat)
    (rounds : List RecvRound) :
    ∀ (fds : List Nat) (agent : NiceAgent) (stream : Stream) (trace : List Effect)
      (a1 : NiceAgent) (len : Option Nat) (tr : List Effect),
      agent_recv_rounds pack unpack buf_len max_fd rounds fds agent stream trace =
        Run.done (a1, len, tr) →
      only_streams agent a1 := by
  induction rounds with
  | nil =>
    intro fds agent stream trace a1 len tr h
    simp only [agent_recv_rounds, Run.done.injEq, Prod.mk.injEq] at h
    rw [← h.1]
    exact only_streams_same _
  | cons round rounds ih =>
    intro fds agent stream trace a1 len tr h
    unfold agent_recv_rounds at h
    split_ifs at h with h1 h2
    · cases hs : agent_recv_scan pack unpack round.reads buf_len
          (fds.filter round.sel.ready) (List.range (max_fd + 1)) agent stream trace with
      | abort x => simp [hs] at h
      | done p =>
        obtain ⟨a2, st2, len2, tr2⟩ := p
        have hstep := agent_recv_scan_only_streams pack unpack round.reads buf_len _ _
          agent stream trace a2 st2 len2 tr2 hs
        cases len2 with
        | some n =>
          simp only [hs, Run.done.injEq, Prod.mk.injEq] at h
          rw [← h.1]
          exact hstep
        | none =>
          simp only [hs] at h
          exact only_streams_trans _ _ _ hstep (ih _ a2 st2 tr2 a1 len tr h)
    · exact ih _ agent stream trace a1 len tr h

theorem agent_recv_only_streams (pack : StunMessage → List Nat)
    (unpack : List Nat → Option StunMessage) (agent a1 : NiceAgent)
    (sid cid buf_len : Nat) (rounds : List RecvRound) (len : Option Nat)
    (tr : List Effect)
    (h : nice_agent_recv pack unpack agent sid cid buf_len rounds = Run.done (a1, len, tr)) :
    only_streams agent a1 := by
  unfold nice_agent_recv at h
  split at h
  · simp only [Run.done.injEq, Prod.mk.injEq] at h
    rw [← h.1]
    exact only_streams_same _
  · exact agent_recv_rounds_only_streams pack unpack buf_len _ rounds _ agent _ [] a1 len
      tr h

theorem run_inv_remove (a : NiceAgent) (log : List Creation) (sid : Nat)
    (h : RunInv a log) : RunInv (nice_agent_remove_stream a sid) log := by
  unfold nice_agent_remove_stream
  split
  · exact h
  · obtain ⟨h1, h2, h3, h4, h5⟩ := h
    have hsub : (a.streams.eraseP (fun s => decide (s.id = sid))).Sublist a.streams :=
      List.eraseP_sublist _
    refine ⟨h1, h2, ?_, ?_, ?_⟩
    · intro s hs
      exact h3 s (hsub.subset hs)
    · exact h4.sublist (hsub.map _)
    · intro s hs
      exact h5 s (hsub.subset hs)

theorem run_inv_add_remote (a : NiceAgent) (log : List Creation) (sid cid : Nat)
    (type : NiceCandidateType) (addr : NiceAddress) (u pw : List Nat) (ref sz : Nat)
    (au ap : List Nat)
    (h : RunInv a log) :
    RunInv (nice_agent_add_remote_candidate a sid cid type addr u pw ref sz au ap) log := by
  unfold nice_agent_add_remote_candidate
  cases hf : find_component a sid cid with
  | none => exact h
  | some p =>
    obtain ⟨st, component⟩ := p
    simp only
    refine run_inv_frame a _ log ?_ rfl h
    apply keeps_locals_store
    intro st1 hst1
    unfold find_component at hf
    split at hf
    · cases hf
    · unfold find_stream at hf
      rw [hst1] at hf
      simp only [Option.some.injEq, Prod.mk.injEq] at hf
      rw [← hf.2]
      rfl

theorem run_inv_recv (a : NiceAgent) (log : List Creation) (pack : StunMessage → List Nat)
    (unpack : List Nat → Option StunMessage) (rng : List Nat) (pos : Nat)
    (candidate : NiceCandidate) (buf_len : Nat) (rd : UdpRecv) (h : RunInv a log) :
    RunInv (agent_recv_at pack unpack rng a pos candidate buf_len rd) log := by
  unfold agent_recv_at
  cases hg : a.streams.get? pos with
  | none => exact h
  | some stream =>
    simp only
    refine run_inv_frame a _ log ?_ rfl h
    refine keeps_locals_set _ _ pos stream hg ⟨rfl, ?_⟩
    simp only [local_socks, recv_locals]

theorem run_inv_attach (a : NiceAgent) (log : List Creation) (ctx func data : Nat)
    (h : RunInv a log) : RunInv (nice_agent_main_context_attach a ctx func data).1 log := by
  unfold nice_agent_main_context_attach
  split
  · exact h
  · refine run_inv_frame a _ log ?_ rfl h
    apply keeps_locals_map
    intro s
    refine ⟨rfl, ?_⟩
    simp [local_socks, Function.comp_def]

theorem returned_id_range (log : List Creation) (x : Nat)
    (h2 : log.map (fun c => c.id) =
      (List.range' 1 log.length).map (fun k => k % GUINT_MOD))
    (hx : x ∈ log.map (fun c => c.id)) :
    ∃ k, 1 ≤ k ∧ k ≤ log.length ∧ x = k % GUINT_MOD := by
  rw [h2] at hx
  obtain ⟨k, hk, rfl⟩ := List.mem_map.1 hx
  rw [List.mem_range'_1] at hk
  exact ⟨k, hk.1, by omega, rfl⟩

theorem run_inv_add_stream (a a1 : NiceAgent) (log : List Creation) (n : Nat)
    (env : Nat → HostEnv) (id : Nat) (h : RunInv a log)
    (hlen : log.length + 1 ≤ GUINT_MOD)
    (hd : nice_agent_add_stream a n env = Run.done (a1, id)) :
    RunInv a1 (log ++ [⟨id, a.local_addresses, env⟩]) := by
  obtain ⟨h1, h2, h3, h4, h5⟩ := h
  have hfresh : ∀ x ∈ log.map (fun c => c.id), x ≠ a.next_stream_id := by
    intro x hx
    obtain ⟨k, hk1, hk2, rfl⟩ := returned_id_range log x h2 hx
    rw [h1]
    unfold GUINT_MOD at hlen ⊢
    omega
  have hold : ∀ s ∈ a.streams, s.id ≠ a.next_stream_id := fun s hs => hfresh _ (h3 s hs)
  obtain ⟨hid, hn1, new1, hs1, hid1, hl1, -⟩ := add_stream_done a a1 n env id hold hd
  refine ⟨?_, ?_, ?_, ?_, ?_⟩
  · rw [hn1, h1]
    simp only [List.length_append, List.length_singleton]
    unfold GUINT_MOD
    omega
  · simp only [List.map_append, List.map_cons, List.map_nil, h2, List.length_append,
      List.length_singleton]
    rw [List.range'_1_concat, List.map_append, hid, h1, Nat.add_comm 1]
    rfl
  · intro s hs
    rw [hs1] at hs
    simp only [List.map_append, List.map_cons, List.map_nil, List.mem_append,
      List.mem_singleton]
    rcases List.mem_append.1 hs with hs | hs
    · exact Or.inl (h3 s hs)
    · simp only [List.mem_singleton] at hs
      subst hs
      exact Or.inr hid1
  · rw [hs1]
    simp only [List.map_append, List.map_cons, List.map_nil]
    rw [List.nodup_append]
    refine ⟨h4, List.nodup_singleton _, ?_⟩
    intro x hx hx1
    simp only [List.mem_singleton] at hx1
    obtain ⟨s, hs, rfl⟩ := List.mem_map.1 hx
    exact hold s hs (hx1.trans (hid1.trans hid))
  · intro s hs c hc hcid
    rw [hs1] at hs
    rcases List.mem_append.1 hs with hs | hs
    · rcases List.mem_append.1 hc with hc | hc
      · exact h5 s hs c hc hcid
      · simp only [List.mem_singleton] at hc
        subst hc
        simp only at hcid
        exact absurd (hcid.symm.trans hid) (hold s hs)
    · simp only [List.mem_singleton] at hs
      subst hs
      rcases List.mem_append.1 hc with hc | hc
      · have hm : c.id ∈ log.map (fun c => c.id) := List.mem_map.2 ⟨c, hc, rfl⟩
        exact absurd (hcid.trans (hid1.trans hid)) (hfresh _ hm)
      · simp only [List.mem_singleton] at hc
        subst hc
        exact hl1

theorem run_inv_step (a a1 : NiceAgent) (log made : List Creation) (op : Op)
    (h : RunInv a log) (hlen : (log ++ made).length ≤ GUINT_MOD)
    (hs : step a op = Run.done (a1, made)) : RunInv a1 (log ++ made) := by
  cases op with
  | add_local_address addr =>
    simp only [step, Run.done.injEq, Prod.mk.injEq] at hs
    obtain ⟨rfl, rfl⟩ := hs
    rw [List.append_nil]
    exact run_inv_frame a _ log (keeps_locals_same _) rfl h
  | add_stream n env =>
    simp only [step] at hs
    cases hd : nice_agent_add_stream a n env with
    | abort x => simp [hd] at hs
    | done p =>
      obtain ⟨a2, id⟩ := p
      simp only [hd, Run.done.injEq, Prod.mk.injEq] at hs
      obtain ⟨rfl, rfl⟩ := hs
      refine run_inv_add_stream a a2 log n env id h ?_ hd
      simpa using hlen
  | remove_stream sid =>
    simp only [step, Run.done.injEq, Prod.mk.injEq] at hs
    obtain ⟨rfl, rfl⟩ := hs
    rw [List.append_nil]
    exact run_inv_remove a log sid h
  | add_remote_candidate sid cid type addr u pw ref sz au ap =>
    simp only [step, Run.done.injEq, Prod.mk.injEq] at hs
    obtain ⟨rfl, rfl⟩ := hs
    rw [List.append_nil]
    exact run_inv_add_remote a log sid cid type addr u pw ref sz au ap h
  | recv pack unpack rng pos candidate buf_len rd =>
    simp only [step, Run.done.injEq, Prod.mk.injEq] at hs
    obtain ⟨rfl, rfl⟩ := hs
    rw [List.append_nil]
    exact run_inv_recv a log pack unpack rng pos candidate buf_len rd h
  | main_context_attach ctx func data =>
    simp only [step, Run.done.injEq, Prod.mk.injEq] at hs
    obtain ⟨rfl, rfl⟩ := hs
    rw [List.append_nil]
    exact run_inv_attach a log ctx func data h
  | recv_sock pack unpack sid cid sock buf_len env =>
    simp only [step] at hs
    cases hd : nice_agent_recv_sock pack unpack a sid cid sock buf_len env with
    | abort x => simp [hd] at hs
    | done p =>
      obtain ⟨a2, n, tr⟩ := p
      simp only [hd, Run.done.injEq, Prod.mk.injEq] at hs
      obtain ⟨rfl, rfl⟩ := hs
      rw [List.append_nil]
      have ho := recv_sock_only_streams pack unpack a a2 sid cid sock buf_len env n tr hd
      exact run_inv_evolves a a2 log
        (evolves_weaken _ _ (recv_sock_evolves pack unpack a a2 sid cid sock buf_len env n
          tr hd)) (by rw [ho]) h
  | poll_read pack unpack other_fds func data sel reads =>
    simp only [step, Run.done.injEq, Prod.mk.injEq] at hs
    obtain ⟨rfl, rfl⟩ := hs
    rw [List.append_nil]
    have ho := poll_read_only_streams pack unpack a other_fds func data sel reads
    exact run_inv_evolves a _ log
      (poll_read_evolves_any pack unpack a other_fds func data sel reads) (by rw [ho]) h
  | agent_recv pack unpack sid cid buf_len rounds =>
    simp only [step] at hs
    cases hd : nice_agent_recv pack unpack a sid cid buf_len rounds with
    | abort x => simp [hd] at hs
    | done p =>
      obtain ⟨a2, n, tr⟩ := p
      simp only [hd, Run.done.injEq, Prod.mk.injEq] at hs
      obtain ⟨rfl, rfl⟩ := hs
      rw [List.append_nil]
      have ho := agent_recv_only_streams pack unpack a a2 sid cid buf_len rounds n tr hd
      exact run_inv_evolves a a2 log
        (evolves_weaken _ _ (agent_recv_evolves pack unpack a a2 sid cid buf_len rounds n
          tr hd)) (by rw [ho]) h
  | send sid cid len buf =>
    simp only [step] at hs
    cases hd : nice_agent_send a sid cid len buf with
    | abort x => simp [hd] at hs
    | done p =>
      obtain ⟨a2, tr⟩ := p
      simp only [hd, Run.done.injEq, Prod.mk.injEq] at hs
      obtain ⟨rfl, rfl⟩ := hs
      rw [List.append_nil, send_same a a2 sid cid len buf tr hd]
      exact h

theorem exec_log_length (ops : List Op) :
    ∀ (a0 : NiceAgent) (log0 : List Creation) (a : NiceAgent) (log : List Creation),
      exec a0 log0 ops = Run.done (a, log) → log0.length ≤ log.length := by
  induction ops with
  | nil =>
    intro a0 log0 a log h
    simp only [exec, Run.done.injEq, Prod.mk.injEq] at h
    rw [h.2]
  | cons op ops ih =>
    intro a0 log0 a log h
    simp only [exec] at h
    cases hs : step a0 op with
    | abort x => simp [hs] at h
    | done p =>
      obtain ⟨a1, made⟩ := p
      simp only [hs] at h
      have := ih a1 (log0 ++ made) a log h
      simp only [List.length_append] at this
      omega

theorem run_inv_exec (ops : List Op) :
    ∀ (a0 : NiceAgent) (log0 : List Creation) (a : NiceAgent) (log : List Creation),
      RunInv a0 log0 → exec a0 log0 ops = Run.done (a, log) → log.length ≤ GUINT_MOD →
      RunInv a log := by
  induction ops with
  | nil =>
    intro a0 log0 a log hi h _
    simp only [exec, Run.done.injEq, Prod.mk.injEq] at h
    obtain ⟨rfl, rfl⟩ := h
    exact hi
  | cons op ops ih =>
    intro a0 log0 a log hi h hlen
    simp only [exec] at h
    cases hs : step a0 op with
    | abort x => simp [hs] at h
    | done p =>
      obtain ⟨a1, made⟩ := p
      simp only [hs] at h
      have hle := exec_log_length ops a1 (log0 ++ made) a log h
      exact ih a1 (log0 ++ made) a log
        (run_inv_step a0 a1 log0 made op hi (by omega) hs) h hlen

theorem run_inv_new : RunInv nice_agent_new [] := by
  refine ⟨rfl, rfl, ?_, ?_, ?_⟩
  · intro s hs
    cases hs
  · exact List.nodup_nil
  · intro s hs
    cases hs

/-! ## Runs that wrap the stream id counter -/

theorem add_local_host_candidate_total (agent : NiceAgent) (sid cid : Nat)
    (addr : NiceAddress) (e : HostEnv) (he : e.make addr ≠ none) :
    ∃ a1, nice_agent_add_local_host_candidate agent sid cid addr e = Run.done a1 := by
  unfold nice_agent_add_local_host_candidate
  split
  · exact ⟨_, rfl⟩
  · simp only
    cases hm : e.make addr with
    | none => exact absurd hm he
    | some sk => exact ⟨_, rfl⟩

theorem add_stream_loop_total (env : Nat → HostEnv) (he : env_ok env) (sid cid : Nat)
    (addrs : List NiceAddress) :
    ∀ (i : Nat) (agent : NiceAgent),
      ∃ a1, add_stream_loop env sid cid agent addrs i = Run.done a1 := by
  induction addrs with
  | nil => intro i agent; exact ⟨_, rfl⟩
  | cons addr rest ih =>
    intro i agent
    obtain ⟨a2, h2⟩ := add_local_host_candidate_total agent sid cid addr (env i) (he i addr)
    obtain ⟨a1, h1⟩ := ih (i + 1) a2
    exact ⟨a1, by simp only [add_stream_loop, h2, h1]⟩

theorem add_stream_total (agent : NiceAgent) (env : Nat → HostEnv) (he : env_ok env) :
    ∃ a1 id, nice_agent_add_stream agent 1 env = Run.done (a1, id) := by
  unfold nice_agent_add_stream
  simp only [ne_eq, not_true_eq_false, if_false]
  obtain ⟨a1, h1⟩ := add_stream_loop_total env he agent.next_stream_id
    stream_new.component.id agent.local_addresses 0
    { agent with next_stream_id := (agent.next_stream_id + 1) % GUINT_MOD,
                 streams := agent.streams ++
                   [{ stream_new with id := agent.next_stream_id }] }
  exact ⟨a1, agent.next_stream_id, by simp only [h1]⟩

theorem sample_env_ok (slot : Nat) : env_ok (sample_env slot) := by
  intro i addr
  simp [sample_env]

theorem eraseP_append_new (old : List Stream) (new : Stream)
    (hold : ∀ s ∈ old, s.id ≠ new.id) :
    (old ++ [new]).eraseP (fun s => decide (s.id = new.id)) = old := by
  induction old with
  | nil => simp [List.eraseP_cons]
  | cons x xs ih =>
    have hx : x.id ≠ new.id := hold x (List.mem_cons_self _ _)
    have := ih (fun s hs => hold s (List.mem_cons_of_mem _ hs))
    simp [List.eraseP_cons, hx, this]

theorem exec_append (ops1 ops2 : List Op) :
    ∀ (a : NiceAgent) (log : List Creation) (a1 : NiceAgent) (log1 : List Creation),
      exec a log ops1 = Run.done (a1, log1) →
      exec a log (ops1 ++ ops2) = exec a1 log1 ops2 := by
  induction ops1 with
  | nil =>
    intro a log a1 log1 h
    simp only [exec, Run.done.injEq, Prod.mk.injEq] at h
    obtain ⟨rfl, rfl⟩ := h
    rfl
  | cons op ops ih =>
    intro a log a1 log1 h
    simp only [exec] at h
    simp only [List.cons_append, exec]
    cases hs : step a op with
    | abort x => simp [hs] at h
    | done p =>
      obtain ⟨a2, made⟩ := p
      simp only [hs] at h
      simp only
      exact ih a2 (log ++ made) a1 log1 h

theorem add_remove_cycle (a : NiceAgent) (log : List Creation)
    (hold : ∀ s ∈ a.streams, s.id ≠ a.next_stream_id) :
    ∃ a2, exec a log [Op.add_stream 1 (sample_env 1), Op.remove_stream a.next_stream_id] =
        Run.done (a2, log ++ [⟨a.next_stream_id, a.local_addresses, sample_env 1⟩]) ∧
      a2.streams = a.streams ∧
      a2.next_stream_id = (a.next_stream_id + 1) % GUINT_MOD ∧
      a2.local_addresses = a.local_addresses := by
  obtain ⟨a1, id, hd⟩ := add_stream_total a (sample_env 1) (sample_env_ok 1)
  obtain ⟨hid, hn1, new1, hs1, hid1, -, ha1⟩ := add_stream_done a a1 1 (sample_env 1) id hold hd
  subst hid
  have hfind : find_stream a1 a.next_stream_id = some new1 := by
    unfold find_stream
    rw [hs1, ← hid1]
    exact find_stream_append_new a.streams new1 (by rw [hid1]; exact hold)
  refine ⟨{ a1 with streams := a.streams }, ?_, rfl, hn1, ha1⟩
  simp only [exec, step, hd, nice_agent_remove_stream, hfind, List.append_nil]
  rw [hs1, ← hid1, eraseP_append_new a.streams new1 (by rw [hid1]; exact hold)]

theorem churn_exec (a0 : NiceAgent) (log0 : List Creation) (first : Nat)
    (hfirst : a0.next_stream_id = first % GUINT_MOD) (n : Nat) :
    (∀ k, k < n → ∀ s ∈ a0.streams, s.id ≠ (first + k) % GUINT_MOD) →
    ∃ a2, exec a0 log0 (churn first n) =
        Run.done (a2, log0 ++ churn_log first a0.local_addresses n) ∧
      a2.streams = a0.streams ∧
      a2.next_stream_id = (first + n) % GUINT_MOD ∧
      a2.local_addresses = a0.local_addresses := by
  induction n with
  | zero =>
    intro _
    exact ⟨a0, by simp [churn, churn_log, exec], rfl, by simpa using hfirst, rfl⟩
  | succ n ih =>
    intro hk
    obtain ⟨a1, he1, hs1, hn1, ha1⟩ := ih (fun k hkn => hk k (by omega))
    have hold : ∀ s ∈ a1.streams, s.id ≠ a1.next_stream_id := by
      rw [hs1, hn1]
      exact hk n (by omega)
    obtain ⟨a2, he2, hs2, hn2, ha2⟩ :=
      add_remove_cycle a1 (log0 ++ churn_log first a0.local_addresses n) hold
    refine ⟨a2, ?_, hs2.trans hs1, ?_, ha2.trans ha1⟩
    · simp only [churn, churn_log]
      rw [exec_append _ _ a0 log0 a1 _ he1, ← hn1, ← List.append_assoc]
      rw [ha1] at he2
      exact he2
    · rw [hn2, hn1]
      unfold GUINT_MOD
      omega

theorem churn_log_length (first : Nat) (addrs : List NiceAddress) (n : Nat) :
    (churn_log first addrs n).length = n := by
  induction n with
  | zero => rfl
  | succ n ih => simp [churn_log, ih]

theorem churn_log_addresses (first : Nat) (addrs : List NiceAddress) (n : Nat) :
    ∀ c ∈ churn_log first addrs n, c.addresses = addrs := by
  induction n with
  | zero => intro c hc; cases hc
  | succ n ih =>
    intro c hc
    simp only [churn_log, List.mem_append, List.mem_singleton] at hc
    rcases hc with hc | hc
    · exact ih c hc
    · rw [hc]

/-! ## Stream ids -/

theorem sample_run_exec :
    exec nice_agent_new [] sample_run_ops = Run.done (sample_run_agent, sample_run_log) := by
  rfl

/-- C9, as amended: on a new agent, for every run of operations (add_local_address,
add_stream, remove_stream, add_remote_candidate, datagrams received, main-context
attachment, in any order) that does not abort and makes at most 2^32 add_stream calls:
when fewer than 2^32 calls were made, the k-th add_stream call returned k for every k; the
ids of the streams of the agent are pairwise distinct; and when fewer than 2^32 - 1 calls
were made, every stream id is smaller than next_stream_id. -/
theorem stream_ids_monotone (ops : List Op) (a : NiceAgent) (log : List Creation)
    (h : exec nice_agent_new [] ops = Run.done (a, log))
    (hlen : log.length ≤ GUINT_MOD) :
    (log.length < GUINT_MOD → log.map (fun c => c.id) = List.range' 1 log.length) ∧
    (a.streams.map (fun s => s.id)).Nodup ∧
    (log.length + 1 < GUINT_MOD → ∀ s ∈ a.streams, s.id < a.next_stream_id) := by
  obtain ⟨h1, h2, h3, h4, -⟩ := run_inv_exec ops nice_agent_new [] a log run_inv_new h hlen
  refine ⟨?_, h4, ?_⟩
  · intro hl
    rw [h2]
    conv_rhs => rw [← List.map_id (List.range' 1 log.length)]
    apply List.map_congr_left
    intro k hk
    rw [List.mem_range'_1] at hk
    exact Nat.mod_eq_of_lt (by omega)
  · intro hl s hs
    obtain ⟨k, hk1, hk2, hk⟩ := returned_id_range log s.id h2 (h3 s hs)
    rw [h1, hk]
    unfold GUINT_MOD at hl ⊢
    omega

theorem stream_ids_monotone_witness :
    (sample_run_log.length < GUINT_MOD →
      sample_run_log.map (fun c => c.id) = List.range' 1 sample_run_log.length) ∧
    (sample_run_agent.streams.map (fun s => s.id)).Nodup ∧
    (sample_run_log.length + 1 < GUINT_MOD →
      ∀ s ∈ sample_run_agent.streams, s.id < sample_run_agent.next_stream_id) :=
  stream_ids_monotone sample_run_ops sample_run_agent sample_run_log sample_run_exec
    (by decide)

theorem last_created_id (log : List Creation) (c : Creation) :
    ((log ++ [c]).map (fun c => c.id)).getLast? = some c.id := by
  simp

/-- C9, the claim as stated fails: on a new agent, the run that adds and removes a stream
4294967295 times and then adds one more stream does not abort, and its 4294967296-th
add_stream call returns 0, the id counter having wrapped. -/
theorem stream_id_counter_wraps :
    ∃ a log, exec nice_agent_new [] (churn 1 4294967295 ++ [Op.add_stream 1 (sample_env 0)]) =
        Run.done (a, log) ∧
      log.length = 4294967296 ∧ (log.map (fun c => c.id)).getLast? = some 0 := by
  obtain ⟨a2, he2, -, hn2, -⟩ := churn_exec nice_agent_new [] 1 rfl 4294967295
    (fun k _ s hs => by cases hs)
  have hn0 : a2.next_stream_id = 0 := by
    rw [hn2]
    norm_num [GUINT_MOD]
  obtain ⟨a3, id, hd⟩ := add_stream_total a2 (sample_env 0) (sample_env_ok 0)
  have hid : id = 0 := by
    unfold nice_agent_add_stream at hd
    simp only [ne_eq, not_true_eq_false, if_false] at hd
    split at hd
    · cases hd
    · simp only [Run.done.injEq, Prod.mk.injEq] at hd
      rw [← hd.2, hn0]
  refine ⟨a3, ([] ++ churn_log 1 nice_agent_new.local_addresses 4294967295) ++
    [⟨id, a2.local_addresses, sample_env 0⟩], ?_, ?_, ?_⟩
  · rw [exec_append _ _ nice_agent_new [] a2 _ he2]
    simp only [exec, step, hd]
  · rw [List.length_append, List.length_append, churn_log_length, List.length_nil,
      List.length_singleton]
  · rw [last_created_id, hid]

/-! ## Local candidates per stream -/

/-- C10, as amended: on a new agent, for every run of operations that does not abort (so
every socket the factory was asked for was made) and makes at most 2^32 add_stream
calls, every stream of the agent was returned by exactly the add_stream calls recorded
with its id, and for such a call the stream has one local candidate per local address
that was registered at the call, in registration order, the i-th candidate holding the
socket the factory made for the i-th address; add_local_address leaves the stream list as
it is, and add_remote_candidate keeps the id and the local candidate sockets of every
stream, position by position. -/
theorem local_candidates_per_address (ops : List Op) (a : NiceAgent) (log : List Creation)
    (h : exec nice_agent_new [] ops = Run.done (a, log))
    (hlen : log.length ≤ GUINT_MOD) :
    (∀ s ∈ a.streams, (∃ c ∈ log, c.id = s.id) ∧
      ∀ c ∈ log, c.id = s.id →
        s.component.local_candidates.length = c.addresses.length ∧
        s.component.local_candidates.map (fun x => x.sock) =
          made_socks c.env c.addresses 0) ∧
    (∀ addr, (nice_agent_add_local_address a addr).streams = a.streams) ∧
    (∀ sid cid type addr u pw ref sz au ap,
      List.Forall₂ (fun s t => t.id = s.id ∧
          t.component.local_candidates.map (fun x => x.sock) =
            s.component.local_candidates.map (fun x => x.sock))
        a.streams
        (nice_agent_add_remote_candidate a sid cid type addr u pw ref sz au ap).streams) := by
  obtain ⟨-, -, h3, -, h5⟩ := run_inv_exec ops nice_agent_new [] a log run_inv_new h hlen
  refine ⟨?_, fun _ => rfl, ?_⟩
  · intro s hs
    constructor
    · obtain ⟨c, hc, hid⟩ := List.mem_map.1 (h3 s hs)
      exact ⟨c, hc, hid⟩
    · intro c hc hid
      have := h5 s hs c hc hid
      unfold local_socks at this
      refine ⟨?_, this⟩
      have hl := congrArg List.length this
      rw [List.length_map, made_socks_length] at hl
      exact hl
  · intro sid cid type addr u pw ref sz au ap
    unfold nice_agent_add_remote_candidate
    cases hf : find_component a sid cid with
    | none => exact keeps_locals_same a.streams
    | some p =>
      obtain ⟨st, component⟩ := p
      simp only
      apply keeps_locals_store
      intro st1 hst1
      unfold find_component at hf
      split at hf
      · cases hf
      · unfold find_stream at hf
        rw [hst1] at hf
        simp only [Option.some.injEq, Prod.mk.injEq] at hf
        rw [← hf.2]
        rfl

theorem local_candidates_per_address_witness :
    (∀ s ∈ sample_run_agent.streams, (∃ c ∈ sample_run_log, c.id = s.id) ∧
      ∀ c ∈ sample_run_log, c.id = s.id →
        s.component.local_candidates.length = c.addresses.length ∧
        s.component.local_candidates.map (fun x => x.sock) =
          made_socks c.env c.addresses 0) ∧
    (∀ addr, (nice_agent_add_local_address sample_run_agent addr).streams =
      sample_run_agent.streams) ∧
    (∀ sid cid type addr u pw ref sz au ap,
      List.Forall₂ (fun s t => t.id = s.id ∧
          t.component.local_candidates.map (fun x => x.sock) =
            s.component.local_candidates.map (fun x => x.sock))
        sample_run_agent.streams
        (nice_agent_add_remote_candidate sample_run_agent sid cid type addr u pw ref sz au ap
          ).streams) :=
  local_candidates_per_address sample_run_ops sample_run_agent sample_run_log
    sample_run_exec (by decide)

theorem add_local_host_candidate_head (agent a1 : NiceAgent) (hd : Stream)
    (tl : List Stream) (addr : NiceAddress) (e : HostEnv)
    (hs : agent.streams = hd :: tl)
    (h : nice_agent_add_local_host_candidate agent hd.id 1 addr e = Run.done a1) :
    ∃ hd1, a1.streams = hd1 :: tl ∧ hd1.id = hd.id := by
  have hf : find_component agent hd.id 1 = some (hd, hd.component) := by
    simp [find_component, find_stream, hs]
  unfold nice_agent_add_local_host_candidate at h
  simp only [hf] at h
  cases hm : e.make addr with
  | none => simp [hm] at h
  | some sock =>
    simp only [hm, Run.done.injEq] at h
    rw [hs] at h
    subst h
    simp only [store_component, if_true]
    exact ⟨_, rfl, rfl⟩

theorem add_stream_loop_head (env : Nat → HostEnv) (tl : List Stream) (sid : Nat)
    (addrs : List NiceAddress) :
    ∀ (i : Nat) (agent a1 : NiceAgent) (hd : Stream), hd.id = sid →
      agent.streams = hd :: tl →
      add_stream_loop env sid 1 agent addrs i = Run.done a1 →
      ∃ hd1, a1.streams = hd1 :: tl ∧ hd1.id = sid := by
  induction addrs with
  | nil =>
    intro i agent a1 hd hid hs h
    simp only [add_stream_loop, Run.done.injEq] at h
    subst h
    exact ⟨hd, hs, hid⟩
  | cons addr rest ih =>
    intro i agent a1 hd hid hs h
    subst hid
    simp only [add_stream_loop] at h
    cases hc : nice_agent_add_local_host_candidate agent hd.id 1 addr (env i) with
    | abort x => simp [hc] at h
    | done a2 =>
      simp only [hc] at h
      obtain ⟨hd2, hs2, hid2⟩ := add_local_host_candidate_head agent a2 hd tl addr (env i) hs hc
      exact ih (i + 1) a2 a1 hd2 hid2 hs2 h

theorem add_stream_same_id (agent a1 : NiceAgent) (env : Nat → HostEnv) (id : Nat)
    (hd : Stream) (tl : List Stream) (hs : agent.streams = hd :: tl)
    (hid : hd.id = agent.next_stream_id)
    (h : nice_agent_add_stream agent 1 env = Run.done (a1, id)) :
    ∃ hd1, a1.streams = hd1 :: (tl ++ [⟨agent.next_stream_id, component_new 1⟩]) := by
  unfold nice_agent_add_stream at h
  simp only [ne_eq, not_true_eq_false, if_false] at h
  cases hl : add_stream_loop env agent.next_stream_id stream_new.component.id
      { agent with next_stream_id := (agent.next_stream_id + 1) % GUINT_MOD,
                   streams := agent.streams ++
                     [{ stream_new with id := agent.next_stream_id }] }
      agent.local_addresses 0 with
  | abort x => simp [hl] at h
  | done a2 =>
    simp only [hl, Run.done.injEq, Prod.mk.injEq] at h
    obtain ⟨h1, -⟩ := h
    subst h1
    obtain ⟨hd1, hs1, -⟩ := add_stream_loop_head env
      (tl ++ [{ stream_new with id := agent.next_stream_id }]) agent.next_stream_id
      agent.local_addresses 0 _ a2 hd hid (by simp [hs]) hl
    exact ⟨hd1, hs1⟩

theorem wrap_base_exec :
    exec nice_agent_new []
        [Op.add_local_address ⟨167772161, 0⟩, Op.add_stream 1 (sample_env 0)] =
      Run.done (wrap_base, [⟨1, [⟨167772161, 0⟩], sample_env 0⟩]) := by
  rfl

/-- C10, the claim as stated fails: on a new agent with one local address, the run that
adds a stream, then adds and removes a stream 4294967295 times, then adds one more stream
does not abort; one address was registered at every add_stream call of the run, and yet a
stream of the final agent has no local candidate (the id counter has wrapped to the id of
the first stream, which is the one nice_agent_add_local_host_candidate finds). -/
theorem late_stream_without_candidate :
    ∃ a log s, exec nice_agent_new []
        ([Op.add_local_address ⟨167772161, 0⟩, Op.add_stream 1 (sample_env 0)] ++
          churn 2 4294967295 ++ [Op.add_stream 1 (sample_env 1)]) = Run.done (a, log) ∧
      (∀ c ∈ log, c.addresses.length = 1) ∧
      s ∈ a.streams ∧ s.component.local_candidates.length = 0 := by
  obtain ⟨a2, he2, hs2, hn2, ha2⟩ := churn_exec wrap_base
    [⟨1, [⟨167772161, 0⟩], sample_env 0⟩] 2 rfl 4294967295 (by
      intro k hk s hs
      simp only [wrap_base, List.mem_singleton] at hs
      subst hs
      simp only [GUINT_MOD]
      omega)
  have hn1 : a2.next_stream_id = 1 := by
    rw [hn2]
    norm_num [GUINT_MOD]
  obtain ⟨a3, id, hd⟩ := add_stream_total a2 (sample_env 1) (sample_env_ok 1)
  obtain ⟨hd1, hs3⟩ := add_stream_same_id a2 a3 (sample_env 1) id _ [] hs2
    (by rw [hn1]) hd
  refine ⟨a3, ([⟨1, [⟨167772161, 0⟩], sample_env 0⟩] ++
      churn_log 2 wrap_base.local_addresses 4294967295) ++
      [⟨id, a2.local_addresses, sample_env 1⟩],
    ⟨a2.next_stream_id, component_new 1⟩, ?_, ?_, ?_, rfl⟩
  · rw [List.append_assoc,
      exec_append _ _ nice_agent_new [] wrap_base _ wrap_base_exec,
      exec_append _ _ wrap_base _ a2 _ he2]
    simp only [exec, step, hd]
  · intro c hc
    simp only [List.mem_append, List.mem_singleton] at hc
    rcases hc with (hc | hc) | hc
    · rw [hc]
      rfl
    · rw [churn_log_addresses _ _ _ c hc]
      rfl
    · rw [hc]
      simp only [ha2]
      rfl
  · rw [hs3]
    simp

/-! ## Candidate ownership along a run -/

theorem mem_store (sid : Nat) (c : Component) (l : List Stream) (t : Stream)
    (ht : t ∈ store_component l sid c) :
    t ∈ l ∨ ∃ u, l.find? (fun s => decide (s.id = sid)) = some u ∧
      t = { u with component := c } := by
  induction l with
  | nil => simp [store_component] at ht
  | cons y ys ih =>
    by_cases hy : y.id = sid
    · simp only [store_component, if_pos hy, List.mem_cons] at ht
      rcases ht with rfl | ht
      · exact Or.inr ⟨y, by simp [List.find?_cons, hy], rfl⟩
      · exact Or.inl (List.mem_cons_of_mem _ ht)
    · simp only [store_component, if_neg hy, List.mem_cons] at ht
      rcases ht with rfl | ht
      · exact Or.inl (List.mem_cons_self _ _)
      · rcases ih ht with h | ⟨u, hu, rfl⟩
        · exact Or.inl (List.mem_cons_of_mem _ h)
        · exact Or.inr ⟨u, by simpa [List.find?_cons, hy] using hu, rfl⟩

theorem pairwise_store (sid : Nat) (c : Component) (l : List Stream)
    (hp : l.Pairwise (fun s t => t.id = s.id → t.component.local_candidates = [])) :
    (store_component l sid c).Pairwise
      (fun s t => t.id = s.id → t.component.local_candidates = []) := by
  induction l with
  | nil => exact List.Pairwise.nil
  | cons y ys ih =>
    rw [List.pairwise_cons] at hp
    by_cases hy : y.id = sid
    · simp only [store_component, if_pos hy]
      rw [List.pairwise_cons]
      exact ⟨fun t ht hid => hp.1 t ht hid, hp.2⟩
    · simp only [store_component, if_neg hy]
      rw [List.pairwise_cons]
      refine ⟨?_, ih hp.2⟩
      intro t ht hid
      rcases mem_store sid c ys t ht with h | ⟨u, hu, rfl⟩
      · exact hp.1 t h hid
      · exact absurd ((find_id sid u ys hu).1.symm.trans hid).symm hy

theorem host_candidate_shape (agent a1 : NiceAgent) (sid cid : Nat) (addr : NiceAddress)
    (e : HostEnv)
    (h : nice_agent_add_local_host_candidate agent sid cid addr e = Run.done a1) :
    a1 = agent ∨
    ∃ u cand, find_stream agent sid = some u ∧ host_bound cand ∧ cand.stream_id = sid ∧
      a1 = { agent with
        next_candidate_id := (agent.next_candidate_id + 1) % GUINT_MOD,
        streams := store_component agent.streams sid
          { u.component with
            local_candidates := u.component.local_candidates ++ [cand] } } := by
  unfold nice_agent_add_local_host_candidate at h
  cases hf : find_component agent sid cid with
  | none =>
    simp only [hf, Run.done.injEq] at h
    exact Or.inl h.symm
  | some p =>
    obtain ⟨st, component⟩ := p
    simp only [hf] at h
    cases hm : e.make addr with
    | none => simp [hm] at h
    | some sk =>
      simp only [hm, Run.done.injEq] at h
      unfold find_component at hf
      split at hf
      · cases hf
      · cases hfs : find_stream agent sid with
        | none => simp [hfs] at hf
        | some u =>
          simp only [hfs, Option.some.injEq, Prod.mk.injEq] at hf
          obtain ⟨rfl, rfl⟩ := hf
          refine Or.inr ⟨u, _, rfl, ?_, ?_, h.symm⟩
          · exact ⟨rfl, sk, rfl, rfl, rfl⟩
          · rfl

theorem carries_same (b : Bool) (s : Stream) : carries b s s :=
  ⟨rfl, rfl, Or.inl rfl, fun _ => Or.inl rfl⟩

theorem carries_of_evolves (b : Bool) (l l1 : List Stream)
    (h : List.Forall₂ evolves l l1) : List.Forall₂ (carries b) l l1 :=
  h.imp (fun _ _ hab => ⟨hab.1.1, hab.1.2.2.1, hab.1.2.2.2.2, fun _ => hab.2⟩)

theorem carries_of_evolves_any (l l1 : List Stream)
    (h : List.Forall₂ evolves_any l l1) : List.Forall₂ (carries false) l l1 :=
  h.imp (fun _ _ hab => ⟨hab.1, hab.2.2.1, hab.2.2.2.2, fun hb => by cases hb⟩)

theorem owned_carries (b : Bool) (l l1 : List Stream) (h : List.Forall₂ (carries b) l l1)
    (ho : Owned l) : Owned l1 := by
  constructor
  · intro t ht c hc
    obtain ⟨s, hs, he⟩ := forall2_mem (carries b) l l1 h t ht
    rw [he.2.1] at hc
    rw [he.1]
    exact ho.1 s hs c hc
  · have hp := ho.2
    clear ho
    induction h with
    | nil => exact List.Pairwise.nil
    | cons hab hrest ih =>
      rw [List.pairwise_cons] at hp ⊢
      refine ⟨?_, ih hp.2⟩
      intro t ht hid
      obtain ⟨s, hs, he⟩ := forall2_mem (carries b) _ _ hrest t ht
      rw [he.2.1]
      exact hp.1 s hs (by rw [← he.1, hid, hab.1])

theorem api_inv_carries (b : Bool) (a a1 : NiceAgent)
    (h : List.Forall₂ (carries b) a.streams a1.streams) (hi : ApiInv b a) :
    ApiInv b a1 := by
  obtain ⟨⟨ho, hh, hst⟩, hact⟩ := hi
  refine ⟨⟨owned_carries b _ _ h ho, ?_, ?_⟩, ?_⟩
  · intro t ht c hc
    obtain ⟨s, hs, he⟩ := forall2_mem (carries b) _ _ h t ht
    rw [he.2.1] at hc
    exact hh s hs c hc
  · intro t ht
    obtain ⟨s, hs, he⟩ := forall2_mem (carries b) _ _ h t ht
    rcases he.2.2.1 with h1 | h1
    · rw [h1]
      exact hst s hs
    · exact Or.inr h1
  · intro hb t ht
    obtain ⟨s, hs, he⟩ := forall2_mem (carries b) _ _ h t ht
    unfold active_local
    rw [he.2.1]
    rcases he.2.2.2 hb with h1 | h1
    · rw [h1]
      exact hact hb s hs
    · exact Or.inr h1

theorem api_inv_host (b : Bool) (agent a1 : NiceAgent) (sid cid : Nat)
    (addr : NiceAddress) (e : HostEnv) (hi : ApiInv b agent)
    (h : nice_agent_add_local_host_candidate agent sid cid addr e = Run.done a1) :
    ApiInv b a1 := by
  rcases host_candidate_shape agent a1 sid cid addr e h with rfl | ⟨u, cand, hu, hb, hsid, rfl⟩
  · exact hi
  · obtain ⟨⟨ho, hh, hst⟩, hact⟩ := hi
    have hum := find_id sid u agent.streams hu
    refine ⟨⟨⟨?_, pairwise_store sid _ _ ho.2⟩, ?_, ?_⟩, ?_⟩
    · intro t ht c hc
      rcases mem_store sid _ _ t ht with h1 | ⟨u1, hu1, rfl⟩
      · exact ho.1 t h1 c hc
      · unfold find_stream at hu
        rw [hu] at hu1
        cases hu1
        simp only [List.mem_append, List.mem_singleton] at hc
        rcases hc with hc | rfl
        · exact ho.1 u hum.2 c hc
        · exact hsid.trans hum.1.symm
    · intro t ht c hc
      rcases mem_store sid _ _ t ht with h1 | ⟨u1, hu1, rfl⟩
      · exact hh t h1 c hc
      · unfold find_stream at hu
        rw [hu] at hu1
        cases hu1
        simp only [List.mem_append, List.mem_singleton] at hc
        rcases hc with hc | rfl
        · exact hh u hum.2 c hc
        · exact hb
    · intro t ht
      rcases mem_store sid _ _ t ht with h1 | ⟨u1, hu1, rfl⟩
      · exact hst t h1
      · unfold find_stream at hu
        rw [hu] at hu1
        cases hu1
        exact hst u hum.2
    · intro hbt t ht
      rcases mem_store sid _ _ t ht with h1 | ⟨u1, hu1, rfl⟩
      · exact hact hbt t h1
      · unfold find_stream at hu
        rw [hu] at hu1
        cases hu1
        rcases hact hbt u hum.2 with h2 | ⟨c, hc, h2⟩
        · exact Or.inl h2
        · exact Or.inr ⟨c, List.mem_append_left _ hc, h2⟩

theorem api_inv_add_stream_loop (b : Bool) (env : Nat → HostEnv) (sid cid : Nat)
    (addrs : List NiceAddress) :
    ∀ (i : Nat) (agent a1 : NiceAgent), ApiInv b agent →
      add_stream_loop env sid cid agent addrs i = Run.done a1 → ApiInv b a1 := by
  induction addrs with
  | nil =>
    intro i agent a1 hi h
    simp only [add_stream_loop, Run.done.injEq] at h
    rw [← h]
    exact hi
  | cons addr rest ih =>
    intro i agent a1 hi h
    simp only [add_stream_loop] at h
    cases hc : nice_agent_add_local_host_candidate agent sid cid addr (env i) with
    | abort x => simp [hc] at h
    | done a2 =>
      simp only [hc] at h
      exact ih (i + 1) a2 a1 (api_inv_host b agent a2 sid cid addr (env i) hi hc) h

theorem api_inv_add_stream (b : Bool) (agent a1 : NiceAgent) (n : Nat)
    (env : Nat → HostEnv) (id : Nat) (hi : ApiInv b agent)
    (h : nice_agent_add_stream agent n env = Run.done (a1, id)) : ApiInv b a1 := by
  unfold nice_agent_add_stream at h
  split at h
  · cases h
  · simp only at h
    cases hl : add_stream_loop env agent.next_stream_id stream_new.component.id
        { agent with next_stream_id := (agent.next_stream_id + 1) % GUINT_MOD,
                     streams := agent.streams ++
                       [{ stream_new with id := agent.next_stream_id }] }
        agent.local_addresses 0 with
    | abort x => simp [hl] at h
    | done a2 =>
      simp only [hl, Run.done.injEq, Prod.mk.injEq] at h
      rw [← h.1]
      refine api_inv_add_stream_loop b env _ _ _ 0 _ a2 ?_ hl
      obtain ⟨⟨ho, hh, hst⟩, hact⟩ := hi
      refine ⟨⟨⟨?_, ?_⟩, ?_, ?_⟩, ?_⟩
      · intro t ht c hc
        simp only [List.mem_append, List.mem_singleton] at ht
        rcases ht with ht | rfl
        · exact ho.1 t ht c hc
        · simp [stream_new, component_new] at hc
      · simp only
        rw [List.pairwise_append]
        refine ⟨ho.2, List.pairwise_singleton _ _, ?_⟩
        intro s _ t ht _
        simp only [List.mem_singleton] at ht
        rw [ht]
        rfl
      · intro t ht c hc
        simp only [List.mem_append, List.mem_singleton] at ht
        rcases ht with ht | rfl
        · exact hh t ht c hc
        · simp [stream_new, component_new] at hc
      · intro t ht
        simp only [List.mem_append, List.mem_singleton] at ht
        rcases ht with ht | rfl
        · exact hst t ht
        · exact Or.inl rfl
      · intro hb t ht
        simp only [List.mem_append, List.mem_singleton] at ht
        rcases ht with ht | rfl
        · exact hact hb t ht
        · exact Or.inl rfl

theorem api_inv_remove (b : Bool) (a : NiceAgent) (sid : Nat) (hi : ApiInv b a) :
    ApiInv b (nice_agent_remove_stream a sid) := by
  unfold nice_agent_remove_stream
  split
  · exact hi
  · obtain ⟨⟨ho, hh, hst⟩, hact⟩ := hi
    have hsub : (a.streams.eraseP (fun s => decide (s.id = sid))).Sublist a.streams :=
      List.eraseP_sublist _
    exact ⟨⟨⟨fun s hs => ho.1 s (hsub.subset hs), ho.2.sublist hsub⟩,
      fun s hs => hh s (hsub.subset hs), fun s hs => hst s (hsub.subset hs)⟩,
      fun hb s hs => hact hb s (hsub.subset hs)⟩

theorem add_remote_carries (b : Bool) (a : NiceAgent) (sid cid : Nat)
    (type : NiceCandidateType) (addr : NiceAddress) (u pw : List Nat) (ref sz : Nat)
    (au ap : List Nat) :
    List.Forall₂ (carries b) a.streams
      (nice_agent_add_remote_candidate a sid cid type addr u pw ref sz au ap).streams := by
  unfold nice_agent_add_remote_candidate
  cases hf : find_component a sid cid with
  | none => exact forall2_same (carries b) (carries_same b) _
  | some p =>
    obtain ⟨st, component⟩ := p
    simp only
    apply forall2_store (carries b) (carries_same b)
    intro st1 hst1
    unfold find_component at hf
    split at hf
    · cases hf
    · unfold find_stream at hf
      rw [hst1] at hf
      simp only [Option.some.injEq, Prod.mk.injEq] at hf
      rw [← hf.2]
      exact ⟨rfl, rfl, Or.inl rfl, fun _ => Or.inl rfl⟩

theorem api_inv_attach (b : Bool) (a : NiceAgent) (ctx func data : Nat)
    (hi : ApiInv b a) : ApiInv b (nice_agent_main_context_attach a ctx func data).1 := by
  unfold nice_agent_main_context_attach
  split
  · exact hi
  · obtain ⟨⟨ho, hh, hst⟩, hact⟩ := hi
    simp only
    refine ⟨⟨⟨?_, ?_⟩, ?_, ?_⟩, ?_⟩
    · intro t ht c hc
      obtain ⟨s, hs, rfl⟩ := List.mem_map.1 ht
      simp only at hc ⊢
      obtain ⟨c0, hc0, rfl⟩ := List.mem_map.1 hc
      exact ho.1 s hs c0 hc0
    · rw [List.pairwise_map]
      refine ho.2.imp ?_
      intro s t hst1 hid
      simp only at hid ⊢
      rw [hst1 hid]
      rfl
    · intro t ht c hc
      obtain ⟨s, hs, rfl⟩ := List.mem_map.1 ht
      simp only at hc
      obtain ⟨c0, hc0, rfl⟩ := List.mem_map.1 hc
      exact hh s hs c0 hc0
    · intro t ht
      obtain ⟨s, hs, rfl⟩ := List.mem_map.1 ht
      exact hst s hs
    · intro hb t ht
      obtain ⟨s, hs, rfl⟩ := List.mem_map.1 ht
      rcases hact hb s hs with h1 | ⟨c, hc, h1⟩
      · exact Or.inl h1
      · exact Or.inr ⟨{ c with source := some (sock_fileno c) },
          List.mem_map.2 ⟨c, hc, rfl⟩, h1⟩

theorem recv_at_evolves_any (pack : StunMessage → List Nat)
    (unpack : List Nat → Option StunMessage) (rng : List Nat) (a : NiceAgent) (pos : Nat)
    (candidate : NiceCandidate) (buf_len : Nat) (rd : UdpRecv) :
    List.Forall₂ evolves_any a.streams
      (agent_recv_at pack unpack rng a pos candidate buf_len rd).streams := by
  unfold agent_recv_at
  cases hg : a.streams.get? pos with
  | none => exact forall2_same evolves_any evolves_any_same _
  | some stream =>
    simp only
    exact forall2_set evolves_any evolves_any_same _ _ pos stream hg
      (recv_evolves_any pack unpack rng stream candidate buf_len rd)

theorem api_inv_step (b : Bool) (a a1 : NiceAgent) (made : List Creation) (op : Op)
    (hi : ApiInv b a) (hop : b = true → is_bare_recv op = false)
    (hs : step a op = Run.done (a1, made)) : ApiInv b a1 := by
  cases op with
  | add_local_address addr =>
    simp only [step, Run.done.injEq, Prod.mk.injEq] at hs
    rw [← hs.1]
    exact hi
  | add_stream n env =>
    simp only [step] at hs
    cases hd : nice_agent_add_stream a n env with
    | abort x => simp [hd] at hs
    | done p =>
      obtain ⟨a2, id⟩ := p
      simp only [hd, Run.done.injEq, Prod.mk.injEq] at hs
      rw [← hs.1]
      exact api_inv_add_stream b a a2 n env id hi hd
  | remove_stream sid =>
    simp only [step, Run.done.injEq, Prod.mk.injEq] at hs
    rw [← hs.1]
    exact api_inv_remove b a sid hi
  | add_remote_candidate sid cid type addr u pw ref sz au ap =>
    simp only [step, Run.done.injEq, Prod.mk.injEq] at hs
    rw [← hs.1]
    exact api_inv_carries b a _ (add_remote_carries b a sid cid type addr u pw ref sz au ap) hi
  | recv pack unpack rng pos candidate buf_len rd =>
    simp only [step, Run.done.injEq, Prod.mk.injEq] at hs
    rw [← hs.1]
    cases b with
    | true => exact absurd (hop rfl) (by simp [is_bare_recv])
    | false =>
      exact api_inv_carries false a _
        (carries_of_evolves_any _ _
          (recv_at_evolves_any pack unpack rng a pos candidate buf_len rd)) hi
  | main_context_attach ctx func data =>
    simp only [step, Run.done.injEq, Prod.mk.injEq] at hs
    rw [← hs.1]
    exact api_inv_attach b a ctx func data hi
  | recv_sock pack unpack sid cid sock buf_len env =>
    simp only [step] at hs
    cases hd : nice_agent_recv_sock pack unpack a sid cid sock buf_len env with
    | abort x => simp [hd] at hs
    | done p =>
      obtain ⟨a2, n, tr⟩ := p
      simp only [hd, Run.done.injEq, Prod.mk.injEq] at hs
      rw [← hs.1]
      exact api_inv_carries b a a2 (carries_of_evolves b _ _
        (recv_sock_evolves pack unpack a a2 sid cid sock buf_len env n tr hd)) hi
  | poll_read pack unpack other_fds func data sel reads =>
    simp only [step, Run.done.injEq, Prod.mk.injEq] at hs
    rw [← hs.1]
    exact api_inv_carries b a _ (carries_of_evolves b _ _
      (poll_read_evolves pack unpack a other_fds func data sel reads hi.1.1)) hi
  | agent_recv pack unpack sid cid buf_len rounds =>
    simp only [step] at hs
    cases hd : nice_agent_recv pack unpack a sid cid buf_len rounds with
    | abort x => simp [hd] at hs
    | done p =>
      obtain ⟨a2, n, tr⟩ := p
      simp only [hd, Run.done.injEq, Prod.mk.injEq] at hs
      rw [← hs.1]
      exact api_inv_carries b a a2 (carries_of_evolves b _ _
        (agent_recv_evolves pack unpack a a2 sid cid buf_len rounds n tr hd)) hi
  | send sid cid len buf =>
    simp only [step] at hs
    cases hd : nice_agent_send a sid cid len buf with
    | abort x => simp [hd] at hs
    | done p =>
      obtain ⟨a2, tr⟩ := p
      simp only [hd, Run.done.injEq, Prod.mk.injEq] at hs
      rw [← hs.1, send_same a a2 sid cid len buf tr hd]
      exact hi

theorem api_inv_exec (b : Bool) (ops : List Op) :
    ∀ (a0 : NiceAgent) (log0 : List Creation) (a : NiceAgent) (log : List Creation),
      ApiInv b a0 → (b = true → ∀ op ∈ ops, is_bare_recv op = false) →
      exec a0 log0 ops = Run.done (a, log) → ApiInv b a := by
  induction ops with
  | nil =>
    intro a0 log0 a log hi _ h
    simp only [exec, Run.done.injEq, Prod.mk.injEq] at h
    rw [← h.1]
    exact hi
  | cons op ops ih =>
    intro a0 log0 a log hi hops h
    simp only [exec] at h
    cases hs : step a0 op with
    | abort x => simp [hs] at h
    | done p =>
      obtain ⟨a1, made⟩ := p
      simp only [hs] at h
      exact ih a1 (log0 ++ made) a log
        (api_inv_step b a0 a1 made op hi
          (fun hb => hops hb op (List.mem_cons_self _ _)) hs)
        (fun hb op1 h1 => hops hb op1 (List.mem_cons_of_mem _ h1)) h

theorem api_inv_new (b : Bool) : ApiInv b nice_agent_new := by
  refine ⟨⟨⟨?_, List.Pairwise.nil⟩, ?_, ?_⟩, ?_⟩
  · intro s hs
    cases hs
  · intro s hs
    cases hs
  · intro s hs
    cases hs
  · intro _ s hs
    cases hs

/-! ## Host candidates -/

/-- C11: on a new agent, after every run of operations that does not abort (so every
socket the factory was asked for was made), every local candidate of every stream has
type HOST and its addr and its base_addr are both the address its socket reports as
bound (`sock.addr`), whatever address was asked for. -/
theorem local_candidate_bound (ops : List Op) (a : NiceAgent) (log : List Creation)
    (h : exec nice_agent_new [] ops = Run.done (a, log)) :
    ∀ s ∈ a.streams, ∀ c ∈ s.component.local_candidates,
      c.type = NiceCandidateType.HOST ∧
      ∃ sk, c.sock = some sk ∧ c.addr = sk.addr ∧ c.base_addr = sk.addr :=
  (api_inv_exec false ops nice_agent_new [] a log (api_inv_new false)
    (fun hb => by cases hb) h).1.2.1

theorem local_candidate_bound_witness :
    (sample_host 1 1 2 3 167772162).type = NiceCandidateType.HOST ∧
    ∃ sk, (sample_host 1 1 2 3 167772162).sock = some sk ∧
      (sample_host 1 1 2 3 167772162).addr = sk.addr ∧
      (sample_host 1 1 2 3 167772162).base_addr = sk.addr :=
  local_candidate_bound sample_run_ops sample_run_agent sample_run_log sample_run_exec
    ⟨2, { component_new 1 with
           local_candidates := [sample_host 1 0 2 2 167772161,
                                sample_host 1 1 2 3 167772162] }⟩
    (by simp [sample_run_agent]) (sample_host 1 1 2 3 167772162) (by simp)

/-! ## Lookup failures -/

theorem find_component_none (agent : NiceAgent) (sid cid : Nat)
    (h : (∀ s ∈ agent.streams, s.id ≠ sid) ∨ cid ≠ 1) :
    find_component agent sid cid = none := by
  unfold find_component
  rcases h with h | h
  · have hf : find_stream agent sid = none := by
      unfold find_stream
      rw [List.find?_eq_none]
      intro s hs
      simpa using h s hs
    split
    · rfl
    · rw [hf]
  · rw [if_pos h]

/-- C12: when stream_id is not the id of a stream of the agent, or component_id is not 1,
nice_agent_add_remote_candidate returns the agent as it was, and
nice_agent_get_remote_candidates and nice_agent_get_local_candidates return the empty
(NULL) list. -/
theorem lookup_failure_noop (agent : NiceAgent) (sid cid : Nat)
    (type : NiceCandidateType) (addr : NiceAddress) (u pw : List Nat) (ref sz : Nat)
    (au ap : List Nat)
    (h : (∀ s ∈ agent.streams, s.id ≠ sid) ∨ cid ≠ 1) :
    nice_agent_add_remote_candidate agent sid cid type addr u pw ref sz au ap = agent ∧
    nice_agent_get_remote_candidates agent sid cid = [] ∧
    nice_agent_get_local_candidates agent sid cid = [] := by
  have hf := find_component_none agent sid cid h
  simp only [nice_agent_add_remote_candidate, nice_agent_get_remote_candidates,
    nice_agent_get_local_candidates, hf, and_self]

theorem lookup_failure_noop_witness :
    nice_agent_add_remote_candidate sample_run_agent 99 1 NiceCandidateType.HOST
        ⟨3221225989, 40000⟩ [66, 66] [81, 81] 8000 128 [] [] = sample_run_agent ∧
    nice_agent_get_remote_candidates sample_run_agent 99 1 = [] ∧
    nice_agent_get_local_candidates sample_run_agent 99 1 = [] :=
  lookup_failure_noop sample_run_agent 99 1 NiceCandidateType.HOST ⟨3221225989, 40000⟩
    [66, 66] [81, 81] 8000 128 [] [] (Or.inl (by decide))

/-! ## Sending -/

theorem sample_api_exec :
    exec nice_agent_new [] sample_api_ops =
      Run.done (sample_api_agent, [⟨1, [⟨167772161, 0⟩], sample_env 0⟩]) := by
  rfl

theorem candidate_at_local (streams : List Stream) (agent : NiceAgent)
    (hst : agent.streams = streams) (s : Stream) (hs : s ∈ streams)
    (c0 : NiceCandidate) (hc0 : c0 ∈ s.component.local_candidates) :
    ∃ c, candidate_at agent c0.ref = some c ∧ c.ref = c0.ref := by
  unfold candidate_at
  rw [hst]
  clear hst
  induction streams with
  | nil => cases hs
  | cons x xs ih =>
    rw [List.findSome?_cons]
    cases hx : (x.component.local_candidates ++ x.component.remote_candidates).find?
        (fun c => decide (c.ref = c0.ref)) with
    | some c =>
      have := List.find?_some hx
      exact ⟨c, rfl, by simpa using this⟩
    | none =>
      simp only
      rcases List.mem_cons.1 hs with rfl | hs1
      · rw [List.find?_eq_none] at hx
        have := hx c0 (List.mem_append_left _ hc0)
        simp at this
      · exact ih hs1

/-- C13: nice_agent_send on a stream of the agent.  If active_candidate is set and points
to a candidate record of the agent, the trace is exactly one datagram, the first `len`
bytes of `buf`, sent over the socket of that candidate to peer_addr of the component; if
active_candidate is not set, nothing is sent.  In both cases the agent is returned as it
was.  When the agent was reached from a new agent by calls of the public API, a set
active_candidate does point to a candidate record of the agent. -/
theorem send_on_stream (agent : NiceAgent) (sid cid len : Nat) (buf : List Nat)
    (s : Stream) (hs : find_stream agent sid = some s) :
    (∀ r c, s.component.active_candidate = some r → candidate_at agent r = some c →
      nice_agent_send agent sid cid len buf =
        Run.done (agent, [Effect.udp_send c.sock s.component.peer_addr (buf.take len)])) ∧
    (s.component.active_candidate = none →
      nice_agent_send agent sid cid len buf = Run.done (agent, [])) ∧
    (∀ ops log, (∀ op ∈ ops, is_bare_recv op = false) →
      exec nice_agent_new [] ops = Run.done (agent, log) →
      ∀ r, s.component.active_candidate = some r →
        ∃ c, candidate_at agent r = some c ∧ c.ref = r) := by
  refine ⟨?_, ?_, ?_⟩
  · intro r c hr hc
    simp only [nice_agent_send, hs, hr, hc]
  · intro hn
    simp only [nice_agent_send, hs, hn]
  · intro ops log hapi hrun r hr
    have hinv := api_inv_exec true ops nice_agent_new [] agent log (api_inv_new true)
      (fun _ => hapi) hrun
    have hsm : s ∈ agent.streams := (find_id sid s agent.streams hs).2
    rcases hinv.2 rfl s hsm with h1 | ⟨c0, hc0, h1⟩
    · rw [h1] at hr
      cases hr
    · rw [h1] at hr
      cases hr
      exact candidate_at_local agent.streams agent rfl s hsm c0 hc0

theorem send_on_stream_witness :
    nice_agent_send sample_api_agent 1 1 3 [128, 1, 2] =
      Run.done (sample_api_agent,
        [Effect.udp_send (some ⟨3, ⟨167772161, 5000⟩⟩) sample_from [128, 1, 2]]) :=
  (send_on_stream sample_api_agent 1 1 3 [128, 1, 2] _ rfl).1 4096
    (sample_host 0 0 1 1 167772161) rfl rfl

/-- C14 fails on the code: nice_agent_send looks the stream up with find_stream and reads
`stream->component` without a NULL check, so for an unknown stream id (here 99 on a new
agent) the call dereferences NULL instead of returning; and it never looks at
component_id, so on an existing connected stream with component id 2 the datagram is sent
all the same. -/
theorem send_lookup_failure :
    nice_agent_send nice_agent_new 99 1 3 [128, 1, 2] = Run.abort nice_agent_new ∧
    nice_agent_send sample_connected_agent 1 2 3 [128, 1, 2] =
      Run.done (sample_connected_agent,
        [Effect.udp_send sample_local.sock sample_from [128, 1, 2]]) :=
  ⟨rfl, rfl⟩

/-! ## The component count of a new stream -/

/-- C15, as amended: for every agent and every n_components other than 1,
nice_agent_add_stream does not return an id: its g_assert fails first and the process is
aborted with the agent as it was (no stream created, no counter advanced, the socket
factory not consulted, whatever the environment), and no operation that follows in a run
is performed. -/
theorem add_stream_bad_count (agent : NiceAgent) (n : Nat) (env : Nat → HostEnv)
    (h : n ≠ 1) :
    nice_agent_add_stream agent n env = Run.abort agent ∧
    ∀ log ops, exec agent log (Op.add_stream n env :: ops) = Run.abort agent := by
  have h1 : nice_agent_add_stream agent n env = Run.abort agent := by
    unfold nice_agent_add_stream
    rw [if_pos h]
  refine ⟨h1, ?_⟩
  intro log ops
  simp only [exec, step, h1]

theorem add_stream_bad_count_witness :
    nice_agent_add_stream sample_run_agent 2 (sample_env 3) = Run.abort sample_run_agent ∧
    ∀ log ops, exec sample_run_agent log (Op.add_stream 2 (sample_env 3) :: ops) =
      Run.abort sample_run_agent :=
  add_stream_bad_count sample_run_agent 2 (sample_env 3) (by decide)

/-- C15, the claim as stated fails: on a new agent, add_stream (2) followed by
add_stream (1) aborts the process at the first call, so the second call returns no id,
while add_stream (1) alone returns 1. -/
theorem add_stream_bad_count_is_fatal :
    exec nice_agent_new [] [Op.add_stream 2 (sample_env 0), Op.add_stream 1 (sample_env 0)] =
      Run.abort nice_agent_new ∧
    exec nice_agent_new [] [Op.add_stream 1 (sample_env 0)] =
      Run.done ({ nice_agent_new with
                  next_stream_id := 2, streams := [⟨1, component_new 1⟩] },
        [⟨1, [], sample_env 0⟩]) :=
  ⟨rfl, rfl⟩

/-! ## Removing a stream -/

theorem erase_first (sid : Nat) (s : Stream) (l : List Stream)
    (h : l.find? (fun t => decide (t.id = sid)) = some s) :
    ∃ pre post, l = pre ++ s :: post ∧ (∀ t ∈ pre, t.id ≠ sid) ∧
      l.eraseP (fun t => decide (t.id = sid)) = pre ++ post := by
  induction l with
  | nil => simp at h
  | cons y ys ih =>
    by_cases hy : y.id = sid
    · simp only [List.find?_cons, hy, decide_True, Option.some.injEq] at h
      subst h
      exact ⟨[], ys, rfl, fun t ht => (by cases ht), by simp [List.eraseP_cons, hy]⟩
    · simp only [List.find?_cons, hy, decide_False] at h
      obtain ⟨pre, post, h1, h2, h3⟩ := ih h
      refine ⟨y :: pre, post, by rw [h1]; rfl, ?_, ?_⟩
      · intro t ht
        rcases List.mem_cons.1 ht with rfl | ht1
        · exact hy
        · exact h2 t ht1
      · simp [List.eraseP_cons, hy, h3]

/-- C16, as amended: nice_agent_remove_stream (id) returns the agent as it was when no
stream has the id; otherwise it unlinks the first stream with the id and nothing else:
the streams before and after it keep their values and their order, and the local address
list, the id counters and every other field are unchanged.  When the stream ids of the
agent are pairwise distinct, no stream of the result has the id: the getters return the
empty list for (id, 1) and nice_agent_add_remote_candidate (id, 1, ...) changes nothing. -/
theorem remove_stream_effect (agent : NiceAgent) (sid : Nat) :
    (find_stream agent sid = none → nice_agent_remove_stream agent sid = agent) ∧
    (∀ s, find_stream agent sid = some s →
      ∃ pre post, agent.streams = pre ++ s :: post ∧ (∀ t ∈ pre, t.id ≠ sid) ∧
        nice_agent_remove_stream agent sid = { agent with streams := pre ++ post }) ∧
    ((agent.streams.map (fun s => s.id)).Nodup →
      (∀ t ∈ (nice_agent_remove_stream agent sid).streams, t.id ≠ sid) ∧
      nice_agent_get_local_candidates (nice_agent_remove_stream agent sid) sid 1 = [] ∧
      nice_agent_get_remote_candidates (nice_agent_remove_stream agent sid) sid 1 = [] ∧
      ∀ type addr u pw ref sz au ap,
        nice_agent_add_remote_candidate (nice_agent_remove_stream agent sid) sid 1 type
          addr u pw ref sz au ap = nice_agent_remove_stream agent sid) := by
  have h2 : ∀ s, find_stream agent sid = some s →
      ∃ pre post, agent.streams = pre ++ s :: post ∧ (∀ t ∈ pre, t.id ≠ sid) ∧
        nice_agent_remove_stream agent sid = { agent with streams := pre ++ post } := by
    intro s hs
    obtain ⟨pre, post, h1, hpre, h3⟩ := erase_first sid s agent.streams hs
    refine ⟨pre, post, h1, hpre, ?_⟩
    simp only [nice_agent_remove_stream, hs, h3]
  refine ⟨?_, h2, ?_⟩
  · intro hn
    simp only [nice_agent_remove_stream, hn]
  · intro hnd
    have hno : ∀ t ∈ (nice_agent_remove_stream agent sid).streams, t.id ≠ sid := by
      cases hf : find_stream agent sid with
      | none =>
        simp only [nice_agent_remove_stream, hf]
        unfold find_stream at hf
        rw [List.find?_eq_none] at hf
        intro t ht
        simpa using hf t ht
      | some s =>
        obtain ⟨pre, post, h1, hpre, h3⟩ := h2 s hf
        rw [h3]
        simp only
        have hsid := (find_id sid s agent.streams hf).1
        rw [h1, List.map_append, List.map_cons, List.nodup_append] at hnd
        obtain ⟨-, hcons, hdis⟩ := hnd
        rw [List.nodup_cons] at hcons
        intro t ht
        rcases List.mem_append.1 ht with ht | ht
        · exact hpre t ht
        · intro hid
          exact hcons.1 (List.mem_map.2 ⟨t, ht, hid.trans hsid.symm⟩)
    have hf := find_component_none (nice_agent_remove_stream agent sid) sid 1 (Or.inl hno)
    refine ⟨hno, ?_, ?_, ?_⟩
    · simp only [nice_agent_get_local_candidates, hf]
    · simp only [nice_agent_get_remote_candidates, hf]
    · intro type addr u pw ref sz au ap
      simp only [nice_agent_add_remote_candidate, hf]

theorem remove_stream_effect_witness :
    (find_stream sample_run_agent 2 = none →
      nice_agent_remove_stream sample_run_agent 2 = sample_run_agent) ∧
    (∀ s, find_stream sample_run_agent 2 = some s →
      ∃ pre post, sample_run_agent.streams = pre ++ s :: post ∧ (∀ t ∈ pre, t.id ≠ 2) ∧
        nice_agent_remove_stream sample_run_agent 2 =
          { sample_run_agent with streams := pre ++ post }) ∧
    ((sample_run_agent.streams.map (fun s => s.id)).Nodup →
      (∀ t ∈ (nice_agent_remove_stream sample_run_agent 2).streams, t.id ≠ 2) ∧
      nice_agent_get_local_candidates (nice_agent_remove_stream sample_run_agent 2) 2 1 =
        [] ∧
      nice_agent_get_remote_candidates (nice_agent_remove_stream sample_run_agent 2) 2 1 =
        [] ∧
      ∀ type addr u pw ref sz au ap,
        nice_agent_add_remote_candidate (nice_agent_remove_stream sample_run_agent 2) 2 1
          type addr u pw ref sz au ap = nice_agent_remove_stream sample_run_agent 2) :=
  remove_stream_effect sample_run_agent 2

theorem add_stream_same_id_head (agent a1 : NiceAgent) (env : Nat → HostEnv) (id : Nat)
    (hd : Stream) (tl : List Stream) (hs : agent.streams = hd :: tl)
    (hid : hd.id = agent.next_stream_id)
    (h : nice_agent_add_stream agent 1 env = Run.done (a1, id)) :
    ∃ hd1, a1.streams = hd1 :: (tl ++ [⟨agent.next_stream_id, component_new 1⟩]) ∧
      hd1.id = agent.next_stream_id := by
  unfold nice_agent_add_stream at h
  simp only [ne_eq, not_true_eq_false, if_false] at h
  cases hl : add_stream_loop env agent.next_stream_id stream_new.component.id
      { agent with next_stream_id := (agent.next_stream_id + 1) % GUINT_MOD,
                   streams := agent.streams ++
                     [{ stream_new with id := agent.next_stream_id }] }
      agent.local_addresses 0 with
  | abort x => simp [hl] at h
  | done a2 =>
    simp only [hl, Run.done.injEq, Prod.mk.injEq] at h
    obtain ⟨h1, -⟩ := h
    subst h1
    exact add_stream_loop_head env
      (tl ++ [{ stream_new with id := agent.next_stream_id }]) agent.next_stream_id
      agent.local_addresses 0 _ a2 hd hid (by simp [hs]) hl

theorem wrapped_run :
    ∃ a log hd1, exec nice_agent_new [] wrap_ops = Run.done (a, log) ∧
      a.streams = [hd1, ⟨1, component_new 1⟩] ∧ hd1.id = 1 := by
  obtain ⟨a2, he2, hs2, hn2, -⟩ := churn_exec wrap_base
    [⟨1, [⟨167772161, 0⟩], sample_env 0⟩] 2 rfl 4294967295 (by
      intro k hk s hs
      simp only [wrap_base, List.mem_singleton] at hs
      subst hs
      simp only [GUINT_MOD]
      omega)
  have hn1 : a2.next_stream_id = 1 := by
    rw [hn2]
    norm_num [GUINT_MOD]
  obtain ⟨a3, id, hd⟩ := add_stream_total a2 (sample_env 1) (sample_env_ok 1)
  obtain ⟨hd1, hs3, hid3⟩ := add_stream_same_id_head a2 a3 (sample_env 1) id _ [] hs2
    (by rw [hn1]) hd
  refine ⟨a3, ([⟨1, [⟨167772161, 0⟩], sample_env 0⟩] ++
      churn_log 2 wrap_base.local_addresses 4294967295) ++
      [⟨id, a2.local_addresses, sample_env 1⟩], hd1, ?_, ?_, ?_⟩
  · unfold wrap_ops
    rw [List.append_assoc,
      exec_append _ _ nice_agent_new [] wrap_base _ wrap_base_exec,
      exec_append _ _ wrap_base _ a2 _ he2]
    simp only [exec, step, hd]
  · rw [hs3, hn1]
    rfl
  · rw [hid3, hn1]

/-- C16, the claim as stated fails: at the end of the run `wrap_ops` (the stream id counter
has wrapped onto the id 1 of a live stream) two streams have the id 1;
nice_agent_remove_stream (1) unlinks the first, a stream with the id 1 is still found
afterwards, and nice_agent_add_remote_candidate (1, 1, ...) appends a candidate to it. -/
theorem remove_stream_leaves_same_id :
    ∃ a log, exec nice_agent_new [] wrap_ops = Run.done (a, log) ∧
      find_stream (nice_agent_remove_stream a 1) 1 = some ⟨1, component_new 1⟩ ∧
      (nice_agent_add_remote_candidate (nice_agent_remove_stream a 1) 1 1
          NiceCandidateType.HOST ⟨3221225989, 40000⟩ [66] [81] 8192 128 [] []).streams ≠
        (nice_agent_remove_stream a 1).streams := by
  obtain ⟨a, log, hd1, hrun, hst, hid⟩ := wrapped_run
  have hrem : (nice_agent_remove_stream a 1).streams = [⟨1, component_new 1⟩] := by
    have hf : find_stream a 1 = some hd1 := by
      simp [find_stream, hst, List.find?_cons, hid]
    simp [nice_agent_remove_stream, hf, hst, List.eraseP_cons, hid]
  have hfind : find_stream (nice_agent_remove_stream a 1) 1 = some ⟨1, component_new 1⟩ := by
    simp [find_stream, hrem, List.find?_cons]
  refine ⟨a, log, hrun, hfind, ?_⟩
  simp [nice_agent_add_remote_candidate, find_component, hfind, hrem, store_component,
    component_new]

/-! ## Attaching to a main context -/

theorem add_stream_loop_context (env : Nat → HostEnv) (sid cid : Nat)
    (addrs : List NiceAddress) :
    ∀ (i : Nat) (agent a1 : NiceAgent),
      add_stream_loop env sid cid agent addrs i = Run.done a1 →
      a1.main_context_set = agent.main_context_set := by
  induction addrs with
  | nil =>
    intro i agent a1 h
    simp only [add_stream_loop, Run.done.injEq] at h
    rw [h]
  | cons addr rest ih =>
    intro i agent a1 h
    simp only [add_stream_loop] at h
    cases hc : nice_agent_add_local_host_candidate agent sid cid addr (env i) with
    | abort x => simp [hc] at h
    | done a2 =>
      simp only [hc] at h
      rw [ih (i + 1) a2 a1 h]
      rcases host_candidate_shape agent a2 sid cid addr (env i) hc with
        rfl | ⟨u, cand, -, -, -, rfl⟩
      · rfl
      · rfl

theorem step_context (a a1 : NiceAgent) (made : List Creation) (op : Op)
    (hs : step a op = Run.done (a1, made)) :
    a1.main_context_set = a.main_context_set ∨
      (is_attach op = true ∧ a1.main_context_set = true) := by
  cases op with
  | add_local_address addr =>
    simp only [step, Run.done.injEq, Prod.mk.injEq] at hs
    rw [← hs.1]
    exact Or.inl rfl
  | add_stream n env =>
    simp only [step] at hs
    cases hd : nice_agent_add_stream a n env with
    | abort x => simp [hd] at hs
    | done p =>
      obtain ⟨a2, id⟩ := p
      simp only [hd, Run.done.injEq, Prod.mk.injEq] at hs
      rw [← hs.1]
      left
      unfold nice_agent_add_stream at hd
      split at hd
      · cases hd
      · simp only at hd
        split at hd
        · cases hd
        · rename_i a3 hl
          simp only [Run.done.injEq, Prod.mk.injEq] at hd
          rw [← hd.1]
          have := add_stream_loop_context env _ _ _ 0 _ a3 hl
          exact this
  | remove_stream sid =>
    simp only [step, Run.done.injEq, Prod.mk.injEq] at hs
    rw [← hs.1]
    left
    unfold nice_agent_remove_stream
    split <;> rfl
  | add_remote_candidate sid cid type addr u pw ref sz au ap =>
    simp only [step, Run.done.injEq, Prod.mk.injEq] at hs
    rw [← hs.1]
    left
    unfold nice_agent_add_remote_candidate
    split <;> rfl
  | recv pack unpack rng pos candidate buf_len rd =>
    simp only [step, Run.done.injEq, Prod.mk.injEq] at hs
    rw [← hs.1]
    left
    unfold agent_recv_at
    split <;> rfl
  | main_context_attach ctx func data =>
    simp only [step, Run.done.injEq, Prod.mk.injEq] at hs
    rw [← hs.1]
    unfold nice_agent_main_context_attach
    split
    · exact Or.inl rfl
    · exact Or.inr ⟨rfl, rfl⟩
  | recv_sock pack unpack sid cid sock buf_len env =>
    simp only [step] at hs
    cases hd : nice_agent_recv_sock pack unpack a sid cid sock buf_len env with
    | abort x => simp [hd] at hs
    | done p =>
      obtain ⟨a2, n, tr⟩ := p
      simp only [hd, Run.done.injEq, Prod.mk.injEq] at hs
      rw [← hs.1, recv_sock_only_streams pack unpack a a2 sid cid sock buf_len env n tr hd]
      exact Or.inl rfl
  | poll_read pack unpack other_fds func data sel reads =>
    simp only [step, Run.done.injEq, Prod.mk.injEq] at hs
    rw [← hs.1, poll_read_only_streams pack unpack a other_fds func data sel reads]
    exact Or.inl rfl
  | agent_recv pack unpack sid cid buf_len rounds =>
    simp only [step] at hs
    cases hd : nice_agent_recv pack unpack a sid cid buf_len rounds with
    | abort x => simp [hd] at hs
    | done p =>
      obtain ⟨a2, n, tr⟩ := p
      simp only [hd, Run.done.injEq, Prod.mk.injEq] at hs
      rw [← hs.1, agent_recv_only_streams pack unpack a a2 sid cid buf_len rounds n tr hd]
      exact Or.inl rfl
  | send sid cid len buf =>
    simp only [step] at hs
    cases hd : nice_agent_send a sid cid len buf with
    | abort x => simp [hd] at hs
    | done p =>
      obtain ⟨a2, tr⟩ := p
      simp only [hd, Run.done.injEq, Prod.mk.injEq] at hs
      rw [← hs.1, send_same a a2 sid cid len buf tr hd]
      exact Or.inl rfl

theorem exec_context (ops : List Op) :
    ∀ (a0 : NiceAgent) (log0 : List Creation) (a : NiceAgent) (log : List Creation),
      exec a0 log0 ops = Run.done (a, log) →
      (a0.main_context_set = true → a.main_context_set = true) ∧
      ((∀ op ∈ ops, is_attach op = false) → a.main_context_set = a0.main_context_set) := by
  induction ops with
  | nil =>
    intro a0 log0 a log h
    simp only [exec, Run.done.injEq, Prod.mk.injEq] at h
    rw [← h.1]
    exact ⟨fun h0 => h0, fun _ => rfl⟩
  | cons op ops ih =>
    intro a0 log0 a log h
    simp only [exec] at h
    cases hs : step a0 op with
    | abort x => simp [hs] at h
    | done p =>
      obtain ⟨a1, made⟩ := p
      simp only [hs] at h
      obtain ⟨ih1, ih2⟩ := ih a1 (log0 ++ made) a log h
      have hc := step_context a0 a1 made op hs
      constructor
      · intro h0
        apply ih1
        rcases hc with hc | hc
        · rw [hc]
          exact h0
        · exact hc.2
      · intro hno
        rw [ih2 (fun op1 h1 => hno op1 (List.mem_cons_of_mem _ h1))]
        rcases hc with hc | hc
        · exact hc
        · rw [hno op (List.mem_cons_self _ _)] at hc
          cases hc.1

/-- C18: on an agent reached from a new agent by a run without
nice_agent_main_context_attach, the first call of nice_agent_main_context_attach returns
TRUE and records the context, the callback and the user data; after any further run of
operations, every later call returns FALSE, returns the agent exactly as it was (context,
callback, user data and the event sources of the candidates included) and attaches no
source. -/
theorem attach_at_most_once (ops1 : List Op) (a : NiceAgent) (log1 : List Creation)
    (h1 : exec nice_agent_new [] ops1 = Run.done (a, log1))
    (hno : ∀ op ∈ ops1, is_attach op = false) (ctx func data : Nat)
    (ops2 : List Op) (a2 : NiceAgent) (log2 : List Creation)
    (h2 : exec (nice_agent_main_context_attach a ctx func data).1 log1 ops2 =
      Run.done (a2, log2))
    (ctx2 func2 data2 : Nat) :
    (nice_agent_main_context_attach a ctx func data).2.1 = true ∧
    (nice_agent_main_context_attach a ctx func data).1.main_context = ctx ∧
    (nice_agent_main_context_attach a ctx func data).1.read_func = func ∧
    (nice_agent_main_context_attach a ctx func data).1.read_func_data = data ∧
    (nice_agent_main_context_attach a ctx func data).1.main_context_set = true ∧
    nice_agent_main_context_attach a2 ctx2 func2 data2 = (a2, false, []) := by
  have hset : a.main_context_set = false := by
    rw [(exec_context ops1 nice_agent_new [] a log1 h1).2 hno]
    rfl
  have hfirst : (nice_agent_main_context_attach a ctx func data).1.main_context_set =
      true := by
    simp only [nice_agent_main_context_attach, hset, Bool.false_eq_true, if_false]
  have hlater : a2.main_context_set = true :=
    (exec_context ops2 _ log1 a2 log2 h2).1 hfirst
  refine ⟨?_, ?_, ?_, ?_, hfirst, ?_⟩
  · simp only [nice_agent_main_context_attach, hset, Bool.false_eq_true, if_false]
  · simp only [nice_agent_main_context_attach, hset, Bool.false_eq_true, if_false]
  · simp only [nice_agent_main_context_attach, hset, Bool.false_eq_true, if_false]
  · simp only [nice_agent_main_context_attach, hset, Bool.false_eq_true, if_false]
  · simp only [nice_agent_main_context_attach, hlater, if_true]

theorem attach_at_most_once_witness :
    (nice_agent_main_context_attach sample_run_agent 7 8 9).2.1 = true ∧
    (nice_agent_main_context_attach sample_run_agent 7 8 9).1.main_context = 7 ∧
    (nice_agent_main_context_attach sample_run_agent 7 8 9).1.read_func = 8 ∧
    (nice_agent_main_context_attach sample_run_agent 7 8 9).1.read_func_data = 9 ∧
    (nice_agent_main_context_attach sample_run_agent 7 8 9).1.main_context_set = true ∧
    nice_agent_main_context_attach
        (nice_agent_add_local_address
          (nice_agent_main_context_attach sample_run_agent 7 8 9).1 ⟨167772163, 0⟩)
        17 18 19 =
      (nice_agent_add_local_address
        (nice_agent_main_context_attach sample_run_agent 7 8 9).1 ⟨167772163, 0⟩,
       false, []) :=
  attach_at_most_once sample_run_ops sample_run_agent sample_run_log sample_run_exec
    (by simp [sample_run_ops, is_attach]) 7 8 9 [Op.add_local_address ⟨167772163, 0⟩]
    _ sample_run_log rfl 17 18 19

/-! ## The active candidate -/

/-- C20: on a new agent, after every run of calls of the public API
(nice_agent_add_local_address, nice_agent_add_stream, nice_agent_remove_stream,
nice_agent_add_remote_candidate, nice_agent_recv, nice_agent_recv_sock,
nice_agent_poll_read, and also nice_agent_send and nice_agent_main_context_attach) with
arbitrary datagrams, that does not abort, the active_candidate of every component is
unset or points to a local candidate of that same component. -/
theorem active_candidate_is_local (ops : List Op) (a : NiceAgent) (log : List Creation)
    (hapi : ∀ op ∈ ops, is_bare_recv op = false)
    (h : exec nice_agent_new [] ops = Run.done (a, log)) :
    ∀ s ∈ a.streams,
      s.component.active_candidate = none ∨
      ∃ c ∈ s.component.local_candidates, s.component.active_candidate = some c.ref :=
  (api_inv_exec true ops nice_agent_new [] a log (api_inv_new true) (fun _ => hapi) h).2
    rfl

theorem active_candidate_is_local_witness :
    (some 4096 : Option Nat) = none ∨
    ∃ c ∈ [sample_host 0 0 1 1 167772161], (some 4096 : Option Nat) = some c.ref :=
  active_candidate_is_local sample_api_ops sample_api_agent _
    (by simp [sample_api_ops, is_bare_recv]) sample_api_exec
    ⟨1, { component_new 1 with
           local_candidates := [sample_host 0 0 1 1 167772161],
           remote_candidates := [sample_remote],
           active_candidate := some 4096,
           peer_addr := sample_from,
           state := NiceComponentState.CONNECTED }⟩
    (by simp [sample_api_agent])

/-! ## The list returned by nice_agent_poll_read -/

theorem foldl_max_bound (l : List Nat) :
    ∀ init, init ≤ l.foldl max init ∧ ∀ j ∈ l, j ≤ l.foldl max init := by
  induction l with
  | nil =>
    intro init
    exact ⟨le_refl _, fun j hj => by cases hj⟩
  | cons x xs ih =>
    intro init
    obtain ⟨h1, h2⟩ := ih (max init x)
    simp only [List.foldl_cons]
    refine ⟨le_trans (le_max_left _ _) h1, ?_⟩
    intro j hj
    rcases List.mem_cons.1 hj with rfl | hj1
    · exact le_trans (le_max_right _ _) h1
    · exact h2 j hj1

theorem agent_fds_evolves (l l1 : List Stream) (h : List.Forall₂ evolves_any l l1) :
    (l1.map (fun s => s.component.local_candidates.map sock_fileno)).flatten =
      (l.map (fun s => s.component.local_candidates.map sock_fileno)).flatten := by
  induction h with
  | nil => rfl
  | cons hab _ ih => simp only [List.map_cons, List.flatten_cons, hab.2.2.1, ih]

theorem candidate_for_fd (l : List Stream) (j : Nat)
    (hj : j ∈ (l.map (fun s => s.component.local_candidates.map sock_fileno)).flatten) :
    ∃ c, find_candidate_in_streams l j = some c := by
  unfold find_candidate_in_streams
  induction l with
  | nil => simp at hj
  | cons x xs ih =>
    rw [List.findSome?_cons]
    cases hx : find_candidate_by_fd x.component j with
    | some c => exact ⟨c, rfl⟩
    | none =>
      simp only
      apply ih
      simp only [List.map_cons, List.flatten_cons, List.mem_append] at hj
      rcases hj with hj | hj
      · unfold find_candidate_by_fd at hx
        rw [List.find?_eq_none] at hx
        obtain ⟨c, hc, hcj⟩ := List.mem_map.1 hj
        have := hx c hc
        simp [hcj] at this
      · exact hj

theorem poll_read_loop_ret (pack : StunMessage → List Nat)
    (unpack : List Nat → Option StunMessage) (reads : Nat → RecvEnv)
    (other_fds : List Nat) (func data : Nat) (fds : List Nat) (js : List Nat) :
    ∀ (agent : NiceAgent) (ret : List Nat) (trace : List Effect),
      Owned agent.streams →
      (∀ j ∈ fds, j ∉ other_fds → j ∈ agent_fds agent) →
      (poll_read_loop pack unpack reads other_fds func data fds js agent ret trace).2.1 =
        ret ++ js.filter (fun j => decide (j ∈ fds) && decide (j ∈ other_fds)) := by
  induction js with
  | nil =>
    intro agent ret trace _ _
    simp [poll_read_loop]
  | cons j js ih =>
    intro agent ret trace ho hfd
    unfold poll_read_loop
    split_ifs with h1 h2
    · rw [ih agent _ trace ho hfd]
      simp [List.filter_cons, h1, h2]
    · obtain ⟨candidate, hc⟩ := candidate_for_fd agent.streams j (hfd j h1 h2)
      obtain ⟨s, hsm, hcm⟩ := candidate_in_streams agent.streams j candidate hc
      have hfirst := owned_first agent.streams ho s hsm candidate hcm
      have hid : candidate.stream_id = s.id := ho.1 s hsm candidate hcm
      have hfs : find_stream agent candidate.stream_id = some s := hfirst
      simp only [hc, hfs]
      have hstep := recv_stream_evolves_any pack unpack (reads j).rng_bytes agent s
        candidate 1024 (reads j).rd (by unfold find_stream; rw [← hid]; exact hfirst)
      rw [ih _ ret _ (owned_evolves _ _ hstep ho) (by
        intro k hk hk2
        unfold agent_fds
        rw [agent_fds_evolves _ _ hstep]
        exact hfd k hk hk2)]
      simp [List.filter_cons, h1, h2]
    · rw [ih agent ret trace ho hfd]
      simp [List.filter_cons, h1]

/-- C17: on an agent reached from a new agent by a run of operations,
nice_agent_poll_read returns the empty list when select reports fewer than one readable
descriptor; otherwise the list it returns is in strictly ascending order (so every
descriptor occurs once) and holds exactly the descriptors of `other_fds` that select found
readable. -/
theorem poll_read_returns_ready (ops : List Op) (a : NiceAgent) (log : List Creation)
    (h : exec nice_agent_new [] ops = Run.done (a, log))
    (pack : StunMessage → List Nat) (unpack : List Nat → Option StunMessage)
    (other_fds : List Nat) (func data : Nat) (sel : SelectResult)
    (reads : Nat → RecvEnv) :
    (sel.num_readable < 1 →
      (nice_agent_poll_read pack unpack a other_fds func data sel reads).2.1 = []) ∧
    (1 ≤ sel.num_readable →
      (nice_agent_poll_read pack unpack a other_fds func data sel reads).2.1.Pairwise
        (fun i j => i < j) ∧
      ∀ j, j ∈ (nice_agent_poll_read pack unpack a other_fds func data sel reads).2.1 ↔
        (j ∈ other_fds ∧ sel.ready j = true)) := by
  have ho : Owned a.streams :=
    (api_inv_exec false ops nice_agent_new [] a log (api_inv_new false)
      (fun hb => by cases hb) h).1.1
  constructor
  · intro hlt
    simp only [nice_agent_poll_read, hlt, if_true]
  · intro hge
    have hnot : ¬ sel.num_readable < 1 := by omega
    have hret := poll_read_loop_ret pack unpack reads other_fds func data
      ((agent_fds a ++ other_fds).filter sel.ready)
      (List.range (max_fd_of (agent_fds a ++ other_fds) + 1)) a [] [] ho (by
        intro j hj hj2
        rw [List.mem_filter, List.mem_append] at hj
        rcases hj.1 with hj1 | hj1
        · exact hj1
        · exact absurd hj1 hj2)
    simp only [nice_agent_poll_read, hnot, if_false]
    rw [hret, List.nil_append]
    constructor
    · exact (List.pairwise_lt_range _).sublist (List.filter_sublist _)
    · intro j
      simp only [List.mem_filter, List.mem_range, List.mem_append, Bool.and_eq_true,
        decide_eq_true_eq]
      constructor
      · rintro ⟨-, ⟨-, hr⟩, ho2⟩
        exact ⟨ho2, hr⟩
      · rintro ⟨ho2, hr⟩
        refine ⟨?_, ⟨Or.inr ho2, hr⟩, ho2⟩
        have := (foldl_max_bound (agent_fds a ++ other_fds) 0).2 j
          (List.mem_append_right _ ho2)
        unfold max_fd_of
        omega

theorem poll_read_returns_ready_witness :
    ((2 : Int) < 1 →
      (nice_agent_poll_read sample_pack sample_unpack sample_api_agent [9, 5] 0 0
        ⟨2, fun j => j == 3 || j == 9⟩ (fun _ => sample_check)).2.1 = []) ∧
    ((1 : Int) ≤ 2 →
      (nice_agent_poll_read sample_pack sample_unpack sample_api_agent [9, 5] 0 0
        ⟨2, fun j => j == 3 || j == 9⟩ (fun _ => sample_check)).2.1.Pairwise
          (fun i j => i < j) ∧
      ∀ j, j ∈ (nice_agent_poll_read sample_pack sample_unpack sample_api_agent [9, 5] 0 0
          ⟨2, fun j => j == 3 || j == 9⟩ (fun _ => sample_check)).2.1 ↔
        (j ∈ [9, 5] ∧ (fun j => j == 3 || j == 9) j = true)) :=
  poll_read_returns_ready sample_api_ops sample_api_agent _ sample_api_exec sample_pack
    sample_unpack [9, 5] 0 0 ⟨2, fun j => j == 3 || j == 9⟩ (fun _ => sample_check)

/-! ## The state of a component -/

theorem forall2_map (R : Stream → Stream → Prop) (f : Stream → Stream)
    (hf : ∀ s, R s (f s)) (l : List Stream) : List.Forall₂ R l (l.map f) := by
  induction l with
  | nil => exact List.Forall₂.nil
  | cons x xs ih => exact List.Forall₂.cons (hf x) ih

theorem state_step_of_carries (b : Bool) (l l1 : List Stream)
    (h : List.Forall₂ (carries b) l l1) :
    List.Forall₂ (fun s t => t.id = s.id ∧
      (t.component.state = s.component.state ∨
        (s.component.state ≠ NiceComponentState.CONNECTED ∧
          t.component.state = NiceComponentState.CONNECTED))) l l1 := by
  refine h.imp ?_
  intro s t hab
  refine ⟨hab.1, ?_⟩
  rcases hab.2.2.1 with h1 | h1
  · exact Or.inl h1
  · by_cases hs : s.component.state = NiceComponentState.CONNECTED
    · exact Or.inl (h1.trans hs.symm)
    · exact Or.inr ⟨hs, h1⟩

theorem host_candidate_states (agent a1 : NiceAgent) (sid cid : Nat) (addr : NiceAddress)
    (e : HostEnv)
    (h : nice_agent_add_local_host_candidate agent sid cid addr e = Run.done a1) :
    List.Forall₂ (fun s t => t.id = s.id ∧ t.component.state = s.component.state)
      agent.streams a1.streams := by
  rcases host_candidate_shape agent a1 sid cid addr e h with rfl | ⟨u, cand, hu, -, -, rfl⟩
  · exact forall2_same _ (fun s => ⟨rfl, rfl⟩) _
  · simp only
    apply forall2_store _ (fun s => ⟨rfl, rfl⟩)
    intro s hs
    unfold find_stream at hu
    rw [hu] at hs
    cases hs
    exact ⟨rfl, rfl⟩

theorem add_stream_loop_states (env : Nat → HostEnv) (sid cid : Nat)
    (addrs : List NiceAddress) :
    ∀ (i : Nat) (agent a1 : NiceAgent),
      add_stream_loop env sid cid agent addrs i = Run.done a1 →
      List.Forall₂ (fun s t => t.id = s.id ∧ t.component.state = s.component.state)
        agent.streams a1.streams := by
  induction addrs with
  | nil =>
    intro i agent a1 h
    simp only [add_stream_loop, Run.done.injEq] at h
    rw [← h]
    exact forall2_same _ (fun s => ⟨rfl, rfl⟩) _
  | cons addr rest ih =>
    intro i agent a1 h
    simp only [add_stream_loop] at h
    cases hc : nice_agent_add_local_host_candidate agent sid cid addr (env i) with
    | abort x => simp [hc] at h
    | done a2 =>
      simp only [hc] at h
      exact forall2_trans _
        (fun a b c hab hbc => ⟨hbc.1.trans hab.1, hbc.2.trans hab.2⟩) _ _
        (host_candidate_states agent a2 sid cid addr (env i) hc) _ (ih (i + 1) a2 a1 h)

theorem add_stream_states (agent a1 : NiceAgent) (n : Nat) (env : Nat → HostEnv)
    (id : Nat) (h : nice_agent_add_stream agent n env = Run.done (a1, id)) :
    List.Forall₂ (fun s t => t.id = s.id ∧ t.component.state = s.component.state)
      (agent.streams ++ [⟨agent.next_stream_id, component_new 1⟩]) a1.streams := by
  unfold nice_agent_add_stream at h
  split at h
  · cases h
  · simp only at h
    split at h
    · cases h
    · rename_i a3 hl
      simp only [Run.done.injEq, Prod.mk.injEq] at h
      rw [← h.1]
      have := add_stream_loop_states env _ _ _ 0 _ a3 hl
      exact this

/-! ## Usernames with a separator -/

theorem handle_request_separator (pack : StunMessage → List Nat) (rng : List Nat)
    (stream : Stream) (component : Component) (l r : NiceCandidate) (sep : List Nat)
    (sender : NiceAddress) (msg : StunMessage)
    (hu : stun_message_find_attribute_username msg.attributes =
      some (l.username ++ sep ++ r.username))
    (hn : ∀ r1 ∈ component.remote_candidates, r1.username ≠ sep ++ r.username) :
    _handle_stun_binding_request pack rng stream component l sender msg =
      binding_request_error pack component l sender msg := by
  apply handle_request_invalid
  intro u hu1 r1 hr1 he
  rw [hu, Option.some.injEq] at hu1
  rw [← hu1, List.append_assoc] at he
  exact hn r1 hr1 (List.append_cancel_left he).symm

/-- C21, the claim as stated fails: the component holds the local candidate with username AAAAAAAA
and the remote candidate with username BBBBBBBB, and a BINDING_REQUEST arrives whose
USERNAME is AAAAAAAA, a colon, BBBBBBBB (its prefix is the local username exactly).  The
handler takes the ERROR path: the component is unchanged (no peer affinity) and the only
datagram is the BINDING_ERROR_RESPONSE. -/
theorem separator_username_rejected :
    sample_local ∈ sample_component.local_candidates ∧
    sample_remote ∈ sample_component.remote_candidates ∧
    ( g_str_has_prefix (sample_local.username ++ [58] ++ sample_remote.username)
      sample_local.username = true) ∧
    stun_message_find_attribute_username sample_ice_request.attributes =
      some (sample_local.username ++ [58] ++ sample_remote.username) ∧
    _handle_stun_binding_request sample_pack sample_rng sample_stream sample_component
        sample_local sample_from sample_ice_request =
      (sample_component,
        [Effect.udp_send sample_local.sock sample_from
          (sample_pack ⟨StunMessageType.BINDING_ERROR_RESPONSE, sample_tid, []⟩)]) := by
  decide

/-- C21, as amended: a BINDING_REQUEST whose USERNAME is L.username, then a separator, then
R.username.  The match is exact, no separator is skipped: when no remote candidate of the
component has the username separator ++ R.username, the handler takes the ERROR path (the
component as it was, one BINDING_ERROR_RESPONSE with the transaction id of the request and
no attribute); when some remote candidate has that username, the handler takes the RESPOND
path with such a candidate; so with the empty separator and R a remote candidate of the
component the request is accepted. -/
theorem separator_username_exact (pack : StunMessage → List Nat) (rng : List Nat)
    (stream : Stream) (component : Component) (l r : NiceCandidate) (sep : List Nat)
    (sender : NiceAddress) (msg : StunMessage)
    (hu : stun_message_find_attribute_username msg.attributes =
      some (l.username ++ sep ++ r.username)) :
    ((∀ r1 ∈ component.remote_candidates, r1.username ≠ sep ++ r.username) →
      _handle_stun_binding_request pack rng stream component l sender msg =
        (component,
          [Effect.udp_send l.sock sender
            (pack ⟨StunMessageType.BINDING_ERROR_RESPONSE, msg.transaction_id, []⟩)])) ∧
    ((∃ r1 ∈ component.remote_candidates, r1.username = sep ++ r.username) →
      ∃ r1 ∈ component.remote_candidates, r1.username = sep ++ r.username ∧
        _handle_stun_binding_request pack rng stream component l sender msg =
          binding_request_respond pack rng stream component l sender msg
            (l.username ++ sep ++ r.username) r1) ∧
    (sep = [] → r ∈ component.remote_candidates →
      ∃ r1 ∈ component.remote_candidates, r1.username = r.username ∧
        _handle_stun_binding_request pack rng stream component l sender msg =
          binding_request_respond pack rng stream component l sender msg
            (l.username ++ r.username) r1) := by
  have accept : ∀ r0 ∈ component.remote_candidates, r0.username = sep ++ r.username →
      ∃ r1 ∈ component.remote_candidates, r1.username = sep ++ r.username ∧
        _handle_stun_binding_request pack rng stream component l sender msg =
          binding_request_respond pack rng stream component l sender msg
            (l.username ++ sep ++ r.username) r1 := by
    intro r0 hr0 he0
    obtain ⟨r1, hf, hm, hn⟩ := find_remote_of_mem l r0 component.remote_candidates hr0
    rw [he0, ← List.append_assoc] at hf
    refine ⟨r1, hm, hn.trans he0, ?_⟩
    simp only [_handle_stun_binding_request, hu, hf]
  refine ⟨?_, ?_, ?_⟩
  · intro hn
    exact handle_request_separator pack rng stream component l r sep sender msg hu hn
  · rintro ⟨r0, hr0, he0⟩
    exact accept r0 hr0 he0
  · intro hs hr
    subst hs
    obtain ⟨r1, hm, hn, he⟩ := accept r hr (by simp)
    refine ⟨r1, hm, by simpa using hn, ?_⟩
    simpa using he

theorem separator_username_exact_witness :
    _handle_stun_binding_request sample_pack sample_rng sample_stream sample_component
        sample_local sample_from sample_ice_request =
      (sample_component,
        [Effect.udp_send sample_local.sock sample_from
          (sample_pack ⟨StunMessageType.BINDING_ERROR_RESPONSE,
            sample_ice_request.transaction_id, []⟩)]) ∧
    ∃ r1 ∈ sample_component_colon.remote_candidates,
      r1.username = [58] ++ sample_remote.username ∧
      _handle_stun_binding_request sample_pack sample_rng sample_stream
          sample_component_colon sample_local sample_from sample_ice_request =
        binding_request_respond sample_pack sample_rng sample_stream sample_component_colon
          sample_local sample_from sample_ice_request
          (sample_local.username ++ [58] ++ sample_remote.username) r1 :=
  ⟨(separator_username_exact sample_pack sample_rng sample_stream sample_component
      sample_local sample_remote [58] sample_from sample_ice_request rfl).1 (by decide),
   (separator_username_exact sample_pack sample_rng sample_stream sample_component_colon
      sample_local sample_remote [58] sample_from sample_ice_request rfl).2.1
      ⟨sample_remote_colon, by decide, rfl⟩⟩

/-! ## Messages that are not binding requests -/

/-- C22: for every parsed STUN message whose type is not BINDING_REQUEST (a
BINDING_RESPONSE, a BINDING_ERROR_RESPONSE or any other type), _handle_stun returns the
component as it was (state, active candidate, peer address and both candidate lists) with
an empty trace: nothing is sent and no signal is emitted. -/
theorem other_types_ignored (pack : StunMessage → List Nat) (rng : List Nat)
    (stream : Stream) (component : Component) (l : NiceCandidate) (sender : NiceAddress)
    (msg : StunMessage) (h : msg.type ≠ StunMessageType.BINDING_REQUEST) :
    _handle_stun pack rng stream component l sender msg = (component, []) := by
  unfold _handle_stun
  cases ht : msg.type with
  | BINDING_REQUEST => exact absurd ht h
  | BINDING_RESPONSE => rfl
  | BINDING_ERROR_RESPONSE => rfl
  | OTHER c => rfl

theorem other_types_ignored_witness :
    _handle_stun sample_pack sample_rng sample_stream sample_component sample_local
        sample_from
        ⟨StunMessageType.BINDING_RESPONSE, sample_tid,
          [StunAttribute.USERNAME (sample_local.username ++ sample_remote.username)]⟩ =
      (sample_component, []) ∧
    _handle_stun sample_pack sample_rng sample_stream sample_component sample_local
        sample_from
        ⟨StunMessageType.OTHER 2, sample_tid,
          [StunAttribute.USERNAME (sample_local.username ++ sample_remote.username)]⟩ =
      (sample_component, []) :=
  ⟨other_types_ignored _ _ _ _ _ _ _ (by decide),
   other_types_ignored _ _ _ _ _ _ _ (by decide)⟩

/-! ## A failing socket factory -/

theorem host_candidate_abort (agent a1 : NiceAgent) (sid cid : Nat) (addr : NiceAddress)
    (env : HostEnv)
    (h : nice_agent_add_local_host_candidate agent sid cid addr env = Run.abort a1) :
    env.make addr = none ∧
    ∃ s c, find_stream agent sid = some s ∧
      a1.streams = store_component agent.streams sid
        { s.component with local_candidates := s.component.local_candidates ++ [c] } ∧
      c.sock = none ∧ c.addr = addr ∧ c.id = agent.next_candidate_id := by
  unfold nice_agent_add_local_host_candidate at h
  cases hf : find_component agent sid cid with
  | none => simp [hf] at h
  | some p =>
    obtain ⟨s, comp⟩ := p
    simp only [hf] at h
    unfold find_component at hf
    split at hf
    · cases hf
    · cases hs : find_stream agent sid with
      | none => simp [hs] at hf
      | some s1 =>
        simp only [hs, Option.some.injEq, Prod.mk.injEq] at hf
        obtain ⟨rfl, rfl⟩ := hf
        cases hm : env.make addr with
        | some sock => simp [hm] at h
        | none =>
          simp only [hm, Run.abort.injEq] at h
          subst h
          exact ⟨rfl, s1,
            { nice_candidate_new env.ref NiceCandidateType.HOST with
              id := agent.next_candidate_id, stream_id := sid, component_id := cid,
              addr := addr, base_addr := addr,
              username := env.username, password := env.password },
            rfl, rfl, rfl, rfl, rfl⟩

/-- C23 fails on the code: one local address (10.0.0.1) is registered on a new agent and
add_stream (1) runs with a socket factory that fails.  The operation does not return (the
process is aborted), and at that point the local candidate list of the new stream holds
the candidate for the address, with no socket bound. -/
theorem socket_failure_leaves_candidate :
    nice_agent_add_stream (nice_agent_add_local_address nice_agent_new ⟨167772161, 0⟩) 1
        failing_env =
      Run.abort
        { nice_agent_new with
          next_candidate_id := 2, next_stream_id := 2,
          local_addresses := [⟨167772161, 0⟩],
          streams := [⟨1, { component_new 1 with local_candidates := [unbound_host] }⟩] } ∧
    unbound_host.sock = none :=
  ⟨rfl, rfl⟩

/-! ## What the binding-request handler depends on -/

theorem respond_explicit (pack : StunMessage → List Nat) (rng : List Nat)
    (stream : Stream) (c : Component) (l : NiceCandidate) (sender : NiceAddress)
    (msg : StunMessage) (u : List Nat) (r : NiceCandidate)
    (hu : u = l.username ++ r.username) :
    binding_request_respond pack rng stream c l sender msg u r =
      ({ c with active_candidate := some l.ref, peer_addr := sender,
                state := NiceComponentState.CONNECTED },
        [Effect.udp_send l.sock sender
            (pack ⟨StunMessageType.BINDING_RESPONSE, msg.transaction_id,
              [StunAttribute.MAPPED_ADDRESS sender.addr_ipv4 sender.port,
               StunAttribute.USERNAME u]⟩),
         Effect.udp_send l.sock sender
            (pack ⟨StunMessageType.BINDING_REQUEST, rng,
              [StunAttribute.USERNAME (u.drop (strlen l.username) ++ l.username)]⟩)] ++
        (if c.state ≠ NiceComponentState.CONNECTED then
          [Effect.signal_emit stream.id c.id NiceComponentState.CONNECTED] else [])) := by
  have hd : u.drop (strlen l.username) = r.username := by
    rw [hu]
    unfold strlen
    simp
  rw [hd]
  unfold binding_request_respond g_strconcat
  by_cases hs : c.state = NiceComponentState.CONNECTED
  · cases c with
    | mk id lc rc ac pa st =>
      simp only at hs
      subst hs
      simp
  · simp [hs]

theorem find_remote_usernames (u : List Nat) (l1 l2 : NiceCandidate)
    (rs1 rs2 : List NiceCandidate) (hl : l2.username = l1.username)
    (hp : (rs2.map (fun r => r.username)).Perm (rs1.map (fun r => r.username))) :
    find_remote u l1 rs1 = none ↔ find_remote u l2 rs2 = none := by
  rw [find_remote_none_iff, find_remote_none_iff, hl]
  constructor
  · intro h r hr he
    have hm : r.username ∈ rs1.map (fun r => r.username) :=
      hp.subset (List.mem_map_of_mem _ hr)
    obtain ⟨r1, hr1, he1⟩ := List.mem_map.1 hm
    exact h r1 hr1 (by rw [he1]; exact he)
  · intro h r hr he
    have hm : r.username ∈ rs2.map (fun r => r.username) :=
      hp.symm.subset (List.mem_map_of_mem _ hr)
    obtain ⟨r2, hr2, he2⟩ := List.mem_map.1 hm
    exact h r2 hr2 (by rw [he2]; exact he)

/-- C25: two runs of _handle_stun_binding_request on the same message from the same
sender, on components with the same ids, state, active candidate and peer address whose
remote candidates carry the same usernames as a multiset (passwords, addresses, types and
list order are free), and on local candidates with the same username, record and socket
(the password is free).  Both runs take the same path: either both send the one
BINDING_ERROR_RESPONSE and leave their component as it was, or the USERNAME starts with the
local username and both send the outputs of `respond_outputs` (equal up to the transaction
id the RNG gives the triggered check) and set active candidate, peer address and state
CONNECTED alike.  In both cases state, active candidate and peer address end up equal. -/
theorem binding_request_depends_on_usernames (pack : StunMessage → List Nat)
    (rng1 rng2 : List Nat) (s1 s2 : Stream) (c1 c2 : Component) (l1 l2 : NiceCandidate)
    (sender : NiceAddress) (msg : StunMessage)
    (hsid : s2.id = s1.id) (hid : c2.id = c1.id) (hst : c2.state = c1.state)
    (hac : c2.active_candidate = c1.active_candidate) (hpa : c2.peer_addr = c1.peer_addr)
    (hrem : (c2.remote_candidates.map (fun r => r.username)).Perm
      (c1.remote_candidates.map (fun r => r.username)))
    (hlu : l2.username = l1.username) (hlr : l2.ref = l1.ref) (hls : l2.sock = l1.sock) :
    ((_handle_stun_binding_request pack rng2 s2 c2 l2 sender msg).1.state =
        (_handle_stun_binding_request pack rng1 s1 c1 l1 sender msg).1.state ∧
      (_handle_stun_binding_request pack rng2 s2 c2 l2 sender msg).1.active_candidate =
        (_handle_stun_binding_request pack rng1 s1 c1 l1 sender msg).1.active_candidate ∧
      (_handle_stun_binding_request pack rng2 s2 c2 l2 sender msg).1.peer_addr =
        (_handle_stun_binding_request pack rng1 s1 c1 l1 sender msg).1.peer_addr) ∧
    ((_handle_stun_binding_request pack rng1 s1 c1 l1 sender msg =
          (c1, [Effect.udp_send l1.sock sender
            (pack ⟨StunMessageType.BINDING_ERROR_RESPONSE, msg.transaction_id, []⟩)]) ∧
        _handle_stun_binding_request pack rng2 s2 c2 l2 sender msg =
          (c2, [Effect.udp_send l1.sock sender
            (pack ⟨StunMessageType.BINDING_ERROR_RESPONSE, msg.transaction_id, []⟩)])) ∨
      ∃ u, stun_message_find_attribute_username msg.attributes = some u ∧
        ( g_str_has_prefix u l1.username = true) ∧
        _handle_stun_binding_request pack rng1 s1 c1 l1 sender msg =
          ({ c1 with active_candidate := some l1.ref, peer_addr := sender,
                     state := NiceComponentState.CONNECTED },
            respond_outputs pack rng1 s1.id c1.id c1.state l1.sock l1.username sender
              msg.transaction_id u) ∧
        _handle_stun_binding_request pack rng2 s2 c2 l2 sender msg =
          ({ c2 with active_candidate := some l1.ref, peer_addr := sender,
                     state := NiceComponentState.CONNECTED },
            respond_outputs pack rng2 s1.id c1.id c1.state l1.sock l1.username sender
              msg.transaction_id u)) := by
  have key :
      (_handle_stun_binding_request pack rng1 s1 c1 l1 sender msg =
          (c1, [Effect.udp_send l1.sock sender
            (pack ⟨StunMessageType.BINDING_ERROR_RESPONSE, msg.transaction_id, []⟩)]) ∧
        _handle_stun_binding_request pack rng2 s2 c2 l2 sender msg =
          (c2, [Effect.udp_send l1.sock sender
            (pack ⟨StunMessageType.BINDING_ERROR_RESPONSE, msg.transaction_id, []⟩)])) ∨
      ∃ u, stun_message_find_attribute_username msg.attributes = some u ∧
        ( g_str_has_prefix u l1.username = true) ∧
        _handle_stun_binding_request pack rng1 s1 c1 l1 sender msg =
          ({ c1 with active_candidate := some l1.ref, peer_addr := sender,
                     state := NiceComponentState.CONNECTED },
            respond_outputs pack rng1 s1.id c1.id c1.state l1.sock l1.username sender
              msg.transaction_id u) ∧
        _handle_stun_binding_request pack rng2 s2 c2 l2 sender msg =
          ({ c2 with active_candidate := some l1.ref, peer_addr := sender,
                     state := NiceComponentState.CONNECTED },
            respond_outputs pack rng2 s1.id c1.id c1.state l1.sock l1.username sender
              msg.transaction_id u) := by
    cases hu : stun_message_find_attribute_username msg.attributes with
    | none =>
      left
      simp only [_handle_stun_binding_request, hu, binding_request_error, hls, and_self]
    | some u =>
      have hiff := find_remote_usernames u l1 l2 c1.remote_candidates c2.remote_candidates
        hlu hrem
      cases hf1 : find_remote u l1 c1.remote_candidates with
      | none =>
        left
        simp only [_handle_stun_binding_request, hu, hf1, hiff.1 hf1, binding_request_error,
          hls, and_self]
      | some ra =>
        cases hf2 : find_remote u l2 c2.remote_candidates with
        | none =>
          rw [hiff.2 hf2] at hf1
          cases hf1
        | some rb =>
          right
          have h1 := (find_remote_some u l1 _ ra hf1).2
          have h2 := (find_remote_some u l2 _ rb hf2).2
          refine ⟨u, rfl, (g_str_has_prefix_iff u l1.username).2 ⟨ra.username, h1⟩, ?_, ?_⟩
          · simp only [_handle_stun_binding_request, hu, hf1]
            rw [respond_explicit pack rng1 s1 c1 l1 sender msg u ra h1]
            rfl
          · simp only [_handle_stun_binding_request, hu, hf2]
            rw [respond_explicit pack rng2 s2 c2 l2 sender msg u rb h2]
            simp only [respond_outputs, hlu, hlr, hls, hsid, hid, hst]
  refine ⟨?_, key⟩
  rcases key with ⟨e1, e2⟩ | ⟨u, -, -, e1, e2⟩
  · rw [e1, e2]
    exact ⟨hst, hac, hpa⟩
  · rw [e1, e2]
    exact ⟨rfl, rfl, rfl⟩

theorem binding_request_depends_on_usernames_witness :
    ((_handle_stun_binding_request sample_pack sample_tid sample_stream
          sample_component_variant sample_local_variant sample_from sample_request).1.state =
        (_handle_stun_binding_request sample_pack sample_rng sample_stream
          sample_component_two sample_local sample_from sample_request).1.state ∧
      (_handle_stun_binding_request sample_pack sample_tid sample_stream
          sample_component_variant sample_local_variant sample_from
          sample_request).1.active_candidate =
        (_handle_stun_binding_request sample_pack sample_rng sample_stream
          sample_component_two sample_local sample_from sample_request).1.active_candidate ∧
      (_handle_stun_binding_request sample_pack sample_tid sample_stream
          sample_component_variant sample_local_variant sample_from
          sample_request).1.peer_addr =
        (_handle_stun_binding_request sample_pack sample_rng sample_stream
          sample_component_two sample_local sample_from sample_request).1.peer_addr) ∧
    ((_handle_stun_binding_request sample_pack sample_rng sample_stream
            sample_component_two sample_local sample_from sample_request =
          (sample_component_two, [Effect.udp_send sample_local.sock sample_from
            (sample_pack ⟨StunMessageType.BINDING_ERROR_RESPONSE,
              sample_request.transaction_id, []⟩)]) ∧
        _handle_stun_binding_request sample_pack sample_tid sample_stream
            sample_component_variant sample_local_variant sample_from sample_request =
          (sample_component_variant, [Effect.udp_send sample_local.sock sample_from
            (sample_pack ⟨StunMessageType.BINDING_ERROR_RESPONSE,
              sample_request.transaction_id, []⟩)])) ∨
      ∃ u, stun_message_find_attribute_username sample_request.attributes = some u ∧
        ( g_str_has_prefix u sample_local.username = true) ∧
        _handle_stun_binding_request sample_pack sample_rng sample_stream
            sample_component_two sample_local sample_from sample_request =
          ({ sample_component_two with
              active_candidate := some sample_local.ref, peer_addr := sample_from,
              state := NiceComponentState.CONNECTED },
            respond_outputs sample_pack sample_rng sample_stream.id sample_component_two.id
              sample_component_two.state sample_local.sock sample_local.username sample_from
              sample_request.transaction_id u) ∧
        _handle_stun_binding_request sample_pack sample_tid sample_stream
            sample_component_variant sample_local_variant sample_from sample_request =
          ({ sample_component_variant with
              active_candidate := some sample_local.ref, peer_addr := sample_from,
              state := NiceComponentState.CONNECTED },
            respond_outputs sample_pack sample_tid sample_stream.id sample_component_two.id
              sample_component_two.state sample_local.sock sample_local.username sample_from
              sample_request.transaction_id u)) :=
  binding_request_depends_on_usernames sample_pack sample_rng sample_tid sample_stream
    sample_stream sample_component_two sample_component_variant sample_local
    sample_local_variant sample_from sample_request rfl rfl rfl rfl rfl
    (List.Perm.swap _ _ _) rfl rfl rfl

/-! ## The order of reads and callbacks in nice_agent_poll_read -/

theorem handle_stun_no_reads (pack : StunMessage → List Nat) (rng : List Nat)
    (stream : Stream) (component : Component) (l : NiceCandidate) (sender : NiceAddress)
    (msg : StunMessage) :
    (_handle_stun pack rng stream component l sender msg).2.filter is_udp_recv = [] ∧
    (_handle_stun pack rng stream component l sender msg).2.filter is_read_func = [] := by
  unfold _handle_stun
  split
  · unfold _handle_stun_binding_request
    split
    · exact ⟨rfl, rfl⟩
    · split
      · exact ⟨rfl, rfl⟩
      · unfold binding_request_respond
        simp only
        split <;> exact ⟨rfl, rfl⟩
  · exact ⟨rfl, rfl⟩
  · exact ⟨rfl, rfl⟩

theorem recv_reads (pack : StunMessage → List Nat)
    (unpack : List Nat → Option StunMessage) (rng : List Nat) (stream : Stream)
    (component : Component) (candidate : NiceCandidate) (buf_len : Nat) (rd : UdpRecv) :
    (_nice_agent_recv pack unpack rng stream component candidate buf_len rd).trace.filter
        is_udp_recv = [Effect.udp_recv candidate.sock] ∧
    (_nice_agent_recv pack unpack rng stream component candidate buf_len rd).trace.filter
        is_read_func = [] ∧
    (_nice_agent_recv pack unpack rng stream component candidate buf_len rd).ret =
      app_data_len buf_len rd := by
  unfold _nice_agent_recv app_data_len
  simp only
  split_ifs with h1 h2 h3 h4 h5 h6 h7 h8
  all_goals first
    | exact ⟨rfl, rfl, rfl⟩
    | omega
    | skip
  split
  · rename_i msg hm
    have hn := handle_stun_no_reads pack rng stream component candidate rd.from_ msg
    simp only [List.filter_append, hn.1, hn.2, List.append_nil]
    simp [is_udp_recv, is_read_func]
  · simp [is_udp_recv, is_read_func]

theorem find_candidate_evolves (l l1 : List Stream) (h : List.Forall₂ evolves_any l l1)
    (j : Nat) : find_candidate_in_streams l1 j = find_candidate_in_streams l j := by
  unfold find_candidate_in_streams
  induction h with
  | nil => rfl
  | cons hab _ ih =>
    have hx : ∀ (a b : Stream), evolves_any a b →
        find_candidate_by_fd b.component j = find_candidate_by_fd a.component j := by
      intro a b he
      unfold find_candidate_by_fd
      rw [he.2.2.1]
    simp only [List.findSome?_cons, hx _ _ hab, ih]

theorem poll_read_loop_trace (pack : StunMessage → List Nat)
    (unpack : List Nat → Option StunMessage) (reads : Nat → RecvEnv)
    (other_fds : List Nat) (func data : Nat) (fds : List Nat) (js : List Nat) :
    ∀ (agent : NiceAgent) (ret : List Nat) (trace : List Effect),
      Owned agent.streams →
      (∀ j ∈ fds, j ∉ other_fds → j ∈ agent_fds agent) →
      (poll_read_loop pack unpack reads other_fds func data fds js agent ret trace
          ).2.2.filter is_udp_recv =
        trace.filter is_udp_recv ++
          (js.filter (fun j => decide (j ∈ fds) && !decide (j ∈ other_fds))).filterMap
            (expected_read agent.streams) ∧
      (poll_read_loop pack unpack reads other_fds func data fds js agent ret trace
          ).2.2.filter is_read_func =
        trace.filter is_read_func ++
          (js.filter (fun j => decide (j ∈ fds) && !decide (j ∈ other_fds))).filterMap
            (expected_call agent.streams reads func data) := by
  induction js with
  | nil =>
    intro agent ret trace _ _
    simp [poll_read_loop]
  | cons j js ih =>
    intro agent ret trace ho hfd
    unfold poll_read_loop
    split_ifs with h1 h2
    · rw [(ih agent _ trace ho hfd).1, (ih agent _ trace ho hfd).2]
      simp [List.filter_cons, h1, h2]
    · obtain ⟨candidate, hc⟩ := candidate_for_fd agent.streams j (hfd j h1 h2)
      obtain ⟨s, hsm, hcm⟩ := candidate_in_streams agent.streams j candidate hc
      have hfirst := owned_first agent.streams ho s hsm candidate hcm
      have hid : candidate.stream_id = s.id := ho.1 s hsm candidate hcm
      have hfs : find_stream agent candidate.stream_id = some s := hfirst
      simp only [hc, hfs]
      have hstep := recv_stream_evolves_any pack unpack (reads j).rng_bytes agent s
        candidate 1024 (reads j).rd (by unfold find_stream; rw [← hid]; exact hfirst)
      have hnext := ih (recv_stream pack unpack (reads j).rng_bytes agent s candidate 1024
          (reads j).rd).1 ret
        (trace ++ (recv_stream pack unpack (reads j).rng_bytes agent s candidate 1024
            (reads j).rd).2.trace ++
          (if (recv_stream pack unpack (reads j).rng_bytes agent s candidate 1024
              (reads j).rd).2.ret ≠ 0 ∧ func ≠ 0 then
            [Effect.read_func s.id candidate.component_id
              (recv_stream pack unpack (reads j).rng_bytes agent s candidate 1024
                (reads j).rd).2.ret
              ((reads j).rd.buf.take (recv_stream pack unpack (reads j).rng_bytes agent s
                candidate 1024 (reads j).rd).2.ret) data]
          else []))
        (owned_evolves _ _ hstep ho) (by
          intro k hk hk2
          unfold agent_fds
          rw [agent_fds_evolves _ _ hstep]
          exact hfd k hk hk2)
      have he1 : expected_read (recv_stream pack unpack (reads j).rng_bytes agent s
          candidate 1024 (reads j).rd).1.streams = expected_read agent.streams := by
        funext k
        unfold expected_read
        rw [find_candidate_evolves _ _ hstep]
      have he2 : expected_call (recv_stream pack unpack (reads j).rng_bytes agent s
          candidate 1024 (reads j).rd).1.streams reads func data =
          expected_call agent.streams reads func data := by
        funext k
        unfold expected_call
        rw [find_candidate_evolves _ _ hstep]
      rw [he1, he2] at hnext
      rw [hnext.1, hnext.2]
      have hr := recv_reads pack unpack (reads j).rng_bytes s s.component candidate 1024
        (reads j).rd
      have hrs : (recv_stream pack unpack (reads j).rng_bytes agent s candidate 1024
          (reads j).rd).2 = _nice_agent_recv pack unpack (reads j).rng_bytes s s.component
            candidate 1024 (reads j).rd := rfl
      rw [hrs]
      simp only [List.filter_append, hr.1, hr.2.1, hr.2.2]
      have hex1 : expected_read agent.streams j = some (Effect.udp_recv candidate.sock) := by
        unfold expected_read
        simp only [hc]
      have hex2 : expected_call agent.streams reads func data j =
          if app_data_len 1024 (reads j).rd ≠ 0 ∧ func ≠ 0 then
            some (Effect.read_func s.id candidate.component_id
              (app_data_len 1024 (reads j).rd)
              ((reads j).rd.buf.take (app_data_len 1024 (reads j).rd)) data)
          else none := by
        unfold expected_call
        simp only [hc, hid]
      constructor
      · simp only [List.filter_cons, h1, h2, decide_True, decide_False, Bool.not_false,
          Bool.and_self, if_true, List.filterMap_cons, hex1]
        split_ifs <;> simp [is_udp_recv]
      · simp only [List.filter_cons, h1, h2, decide_True, decide_False, Bool.not_false,
          Bool.and_self, if_true, List.filterMap_cons, hex2]
        split_ifs <;> simp [is_read_func]
    · rw [(ih agent ret trace ho hfd).1, (ih agent ret trace ho hfd).2]
      simp [List.filter_cons, h1]

theorem filterMap_length_of_some (f : Nat → Option Effect) (l : List Nat)
    (h : ∀ x ∈ l, ∃ y, f x = some y) : (l.filterMap f).length = l.length := by
  induction l with
  | nil => rfl
  | cons x xs ih =>
    obtain ⟨y, hy⟩ := h x (List.mem_cons_self _ _)
    rw [List.filterMap_cons, hy]
    simp only [List.length_cons]
    rw [ih (fun z hz => h z (List.mem_cons_of_mem _ hz))]

theorem poll_sockets_mem (a : NiceAgent) (other_fds : List Nat) (sel : SelectResult)
    (j : Nat) :
    j ∈ poll_sockets a other_fds sel ↔
      (j ∈ agent_fds a ∧ sel.ready j = true ∧ j ∉ other_fds) := by
  unfold poll_sockets
  simp only [List.mem_filter, List.mem_range, List.mem_append, Bool.and_eq_true,
    decide_eq_true_eq, Bool.not_eq_true', decide_eq_false_iff_not]
  constructor
  · rintro ⟨-, ⟨hm, hr⟩, hn⟩
    rcases hm with hm | hm
    · exact ⟨hm, hr, hn⟩
    · exact absurd hm hn
  · rintro ⟨hm, hr, hn⟩
    refine ⟨?_, ⟨Or.inl hm, hr⟩, hn⟩
    have := (foldl_max_bound (agent_fds a ++ other_fds) 0).2 j
      (List.mem_append_left _ hm)
    unfold max_fd_of
    omega

theorem poll_socket_owner (a : NiceAgent) (ho : Owned a.streams) (j : Nat)
    (hj : j ∈ agent_fds a) :
    ∃ s ∈ a.streams, ∃ c ∈ s.component.local_candidates,
      find_candidate_in_streams a.streams j = some c ∧ sock_fileno c = j ∧
      c.stream_id = s.id ∧ find_stream a s.id = some s := by
  obtain ⟨c, hc⟩ := candidate_for_fd a.streams j hj
  have hc1 := hc
  unfold find_candidate_in_streams at hc1
  obtain ⟨s, hs, hf⟩ := List.exists_of_findSome?_eq_some hc1
  unfold find_candidate_by_fd at hf
  have hcm : c ∈ s.component.local_candidates := List.mem_of_find?_eq_some hf
  have hfd : sock_fileno c = j := by
    have := List.find?_some hf
    simpa using this
  have hid : c.stream_id = s.id := ho.1 s hs c hcm
  have hfirst := owned_first a.streams ho s hs c hcm
  rw [hid] at hfirst
  exact ⟨s, hs, c, hcm, hc, hfd, hid, hfirst⟩

/-- C24: on an agent reached from a new agent by a run of operations, one call of
nice_agent_poll_read in which select reports at least one readable descriptor.  The
descriptors read, `poll_sockets`, are in strictly ascending order and are exactly the
descriptors of the local candidates of the agent that select found readable and that are
not in `other_fds`; each belongs to a local candidate of a stream of the agent, which is
the candidate and the stream the loop finds for it.  The datagram reads in the trace are
one per such descriptor, on the socket of its candidate, in that order; and the callback
invocations in the trace are, in that order, one for each of those descriptors whose read
yields application data (a length other than 0) when a callback is given, with the id of
the stream, the component id of the candidate, the length, the bytes and `data`.  When
select reports no readable descriptor the trace is empty. -/
theorem poll_read_order (ops : List Op) (a : NiceAgent) (log : List Creation)
    (h : exec nice_agent_new [] ops = Run.done (a, log))
    (pack : StunMessage → List Nat) (unpack : List Nat → Option StunMessage)
    (other_fds : List Nat) (func data : Nat) (sel : SelectResult)
    (reads : Nat → RecvEnv) :
    (sel.num_readable < 1 →
      (nice_agent_poll_read pack unpack a other_fds func data sel reads).2.2 = []) ∧
    (1 ≤ sel.num_readable →
      (poll_sockets a other_fds sel).Pairwise (fun i j => i < j) ∧
      (∀ j, j ∈ poll_sockets a other_fds sel ↔
        (j ∈ agent_fds a ∧ sel.ready j = true ∧ j ∉ other_fds)) ∧
      (∀ j ∈ poll_sockets a other_fds sel,
        ∃ s ∈ a.streams, ∃ c ∈ s.component.local_candidates,
          find_candidate_in_streams a.streams j = some c ∧ sock_fileno c = j ∧
          c.stream_id = s.id ∧ find_stream a s.id = some s) ∧
      (nice_agent_poll_read pack unpack a other_fds func data sel reads).2.2.filter
          is_udp_recv =
        (poll_sockets a other_fds sel).filterMap (expected_read a.streams) ∧
      ((nice_agent_poll_read pack unpack a other_fds func data sel reads).2.2.filter
          is_udp_recv).length = (poll_sockets a other_fds sel).length ∧
      (nice_agent_poll_read pack unpack a other_fds func data sel reads).2.2.filter
          is_read_func =
        (poll_sockets a other_fds sel).filterMap
          (expected_call a.streams reads func data)) := by
  have ho : Owned a.streams :=
    (api_inv_exec false ops nice_agent_new [] a log (api_inv_new false)
      (fun hb => by cases hb) h).1.1
  constructor
  · intro hlt
    simp only [nice_agent_poll_read, hlt, if_true]
  · intro hge
    have hnot : ¬ sel.num_readable < 1 := by omega
    have htr := poll_read_loop_trace pack unpack reads other_fds func data
      ((agent_fds a ++ other_fds).filter sel.ready)
      (List.range (max_fd_of (agent_fds a ++ other_fds) + 1)) a [] [] ho (by
        intro j hj hj2
        rw [List.mem_filter, List.mem_append] at hj
        rcases hj.1 with hj1 | hj1
        · exact hj1
        · exact absurd hj1 hj2)
    have hown : ∀ j ∈ poll_sockets a other_fds sel,
        ∃ s ∈ a.streams, ∃ c ∈ s.component.local_candidates,
          find_candidate_in_streams a.streams j = some c ∧ sock_fileno c = j ∧
          c.stream_id = s.id ∧ find_stream a s.id = some s := fun j hj =>
      poll_socket_owner a ho j ((poll_sockets_mem a other_fds sel j).1 hj).1
    have hreads : (nice_agent_poll_read pack unpack a other_fds func data sel reads
        ).2.2.filter is_udp_recv =
        (poll_sockets a other_fds sel).filterMap (expected_read a.streams) := by
      simp only [nice_agent_poll_read, hnot, if_false]
      rw [htr.1]
      rfl
    refine ⟨?_, poll_sockets_mem a other_fds sel, hown, hreads, ?_, ?_⟩
    · exact (List.pairwise_lt_range _).sublist (List.filter_sublist _)
    · rw [hreads]
      apply filterMap_length_of_some
      intro j hj
      obtain ⟨s, -, c, -, hc, -⟩ := hown j hj
      exact ⟨Effect.udp_recv c.sock, by unfold expected_read; simp only [hc]⟩
    · simp only [nice_agent_poll_read, hnot, if_false]
      rw [htr.2]
      rfl

theorem poll_read_order_witness :
    (sample_select.num_readable < 1 →
      (nice_agent_poll_read sample_pack sample_unpack sample_run_agent [9, 36] 77 5
        sample_select sample_reads).2.2 = []) ∧
    (1 ≤ sample_select.num_readable →
      (poll_sockets sample_run_agent [9, 36] sample_select).Pairwise (fun i j => i < j) ∧
      (∀ j, j ∈ poll_sockets sample_run_agent [9, 36] sample_select ↔
        (j ∈ agent_fds sample_run_agent ∧ sample_select.ready j = true ∧ j ∉ [9, 36])) ∧
      (∀ j ∈ poll_sockets sample_run_agent [9, 36] sample_select,
        ∃ s ∈ sample_run_agent.streams, ∃ c ∈ s.component.local_candidates,
          find_candidate_in_streams sample_run_agent.streams j = some c ∧
          sock_fileno c = j ∧ c.stream_id = s.id ∧
          find_stream sample_run_agent s.id = some s) ∧
      (nice_agent_poll_read sample_pack sample_unpack sample_run_agent [9, 36] 77 5
          sample_select sample_reads).2.2.filter is_udp_recv =
        (poll_sockets sample_run_agent [9, 36] sample_select).filterMap
          (expected_read sample_run_agent.streams) ∧
      ((nice_agent_poll_read sample_pack sample_unpack sample_run_agent [9, 36] 77 5
          sample_select sample_reads).2.2.filter is_udp_recv).length =
        (poll_sockets sample_run_agent [9, 36] sample_select).length ∧
      (nice_agent_poll_read sample_pack sample_unpack sample_run_agent [9, 36] 77 5
          sample_select sample_reads).2.2.filter is_read_func =
        (poll_sockets sample_run_agent [9, 36] sample_select).filterMap
          (expected_call sample_run_agent.streams sample_reads 77 5)) :=
  poll_read_order sample_run_ops sample_run_agent _ sample_run_exec sample_pack
    sample_unpack [9, 36] 77 5 sample_select sample_reads

theorem poll_read_order_sample :
    poll_sockets sample_run_agent [9, 36] sample_select = [19, 35] ∧
    (nice_agent_poll_read sample_pack sample_unpack sample_run_agent [9, 36] 77 5
        sample_select sample_reads).2.2.filter is_udp_recv =
      [Effect.udp_recv (some ⟨19, ⟨167772161, 5016⟩⟩),
       Effect.udp_recv (some ⟨35, ⟨167772161, 5032⟩⟩)] ∧
    (nice_agent_poll_read sample_pack sample_unpack sample_run_agent [9, 36] 77 5
        sample_select sample_reads).2.2.filter is_read_func =
      [Effect.read_func 2 1 3 [128, 1, 2] 5] := by
  decide

/-! ## State changes and the checks that cause them -/

theorem recv_handled (pack : StunMessage → List Nat)
    (unpack : List Nat → Option StunMessage) (rng : List Nat) (stream : Stream)
    (component : Component) (candidate : NiceCandidate) (buf_len : Nat) (rd : UdpRecv) :
    (_nice_agent_recv pack unpack rng stream component candidate buf_len rd).component =
      component ∨
    ((_nice_agent_recv pack unpack rng stream component candidate buf_len rd).component =
        { component with active_candidate := some candidate.ref, peer_addr := rd.from_,
                         state := NiceComponentState.CONNECTED } ∧
      ∃ msg, Effect.handle_stun rd.from_ msg ∈
          (_nice_agent_recv pack unpack rng stream component candidate buf_len rd).trace ∧
        msg.type = StunMessageType.BINDING_REQUEST ∧
        ∃ r ∈ component.remote_candidates,
          stun_message_find_attribute_username msg.attributes =
            some (candidate.username ++ r.username)) := by
  unfold _nice_agent_recv
  simp only
  split_ifs
  · exact Or.inl rfl
  · exact Or.inl rfl
  · exact Or.inl rfl
  · cases hm : unpack (rd.buf.take rd.len) with
    | none => exact Or.inl rfl
    | some msg =>
      simp only
      rcases handle_stun_cases pack rng stream component candidate rd.from_ msg with h | h
      · exact Or.inl h
      · exact Or.inr ⟨h.1, msg, by simp, h.2⟩
  · exact Or.inl rfl

theorem checked_same (tr : List Effect) (s : Stream) : checked tr s s :=
  ⟨evolves_any_same s, Or.inl rfl⟩

theorem checked_mono (tr tr1 : List Effect) (hsub : ∀ e ∈ tr, e ∈ tr1) (s t : Stream)
    (h : checked tr s t) : checked tr1 s t := by
  refine ⟨h.1, ?_⟩
  rcases h.2 with h2 | ⟨h2, sender, msg, hm, rest⟩
  · exact Or.inl h2
  · exact Or.inr ⟨h2, sender, msg, hsub _ hm, rest⟩

theorem checked_trans (tr : List Effect) (a b c : Stream) (hab : checked tr a b)
    (hbc : checked tr b c) : checked tr a c := by
  refine ⟨evolves_any_trans a b c hab.1 hbc.1, ?_⟩
  rcases hab.2 with h1 | h1
  · rcases hbc.2 with h2 | ⟨h2, sender, msg, hm, hty, l, hl, r, hr, hu⟩
    · exact Or.inl (h2.trans h1)
    · refine Or.inr ⟨by rw [← h1]; exact h2, sender, msg, hm, hty, l, ?_, r, ?_, hu⟩
      · rw [← hab.1.2.2.1]
        exact hl
      · rw [← hab.1.2.2.2.1]
        exact hr
  · exact Or.inr h1

theorem checked_state_step (tr : List Effect) (l l1 : List Stream)
    (h : List.Forall₂ (checked tr) l l1) : List.Forall₂ (state_step tr) l l1 := by
  refine h.imp ?_
  intro s t hst
  refine ⟨hst.1.1, ?_⟩
  rcases hst.2 with h2 | ⟨h2, h3⟩
  · exact Or.inl h2
  · rcases hst.1.2.2.2.2 with h4 | h4
    · exact Or.inl h4
    · exact Or.inr ⟨h2, h4, h3⟩

theorem recv_checked (pack : StunMessage → List Nat)
    (unpack : List Nat → Option StunMessage) (rng : List Nat) (stream : Stream)
    (candidate : NiceCandidate) (buf_len : Nat) (rd : UdpRecv)
    (hc : candidate ∈ stream.component.local_candidates) :
    checked
      (_nice_agent_recv pack unpack rng stream stream.component candidate buf_len rd).trace
      stream
      { stream with component :=
          (_nice_agent_recv pack unpack rng stream stream.component candidate buf_len rd
            ).component } := by
  refine ⟨recv_evolves_any pack unpack rng stream candidate buf_len rd, ?_⟩
  rcases recv_handled pack unpack rng stream stream.component candidate buf_len rd with
    h | ⟨h, msg, hm, hty, r, hr, hu⟩
  · rw [h]
    exact Or.inl rfl
  · by_cases hs : stream.component.state = NiceComponentState.CONNECTED
    · rw [h]
      exact Or.inl hs.symm
    · exact Or.inr ⟨hs, rd.from_, msg, hm, hty, candidate, hc, r, hr, hu⟩

theorem recv_stream_checked (pack : StunMessage → List Nat)
    (unpack : List Nat → Option StunMessage) (rng : List Nat) (agent : NiceAgent)
    (stream : Stream) (candidate : NiceCandidate) (buf_len : Nat) (rd : UdpRecv)
    (hf : find_stream agent stream.id = some stream)
    (hc : candidate ∈ stream.component.local_candidates) :
    List.Forall₂
      (checked (recv_stream pack unpack rng agent stream candidate buf_len rd).2.trace)
      agent.streams
      (recv_stream pack unpack rng agent stream candidate buf_len rd).1.streams := by
  unfold recv_stream
  simp only
  apply forall2_store _ (checked_same _)
  intro s hs
  unfold find_stream at hf
  rw [hf] at hs
  cases hs
  exact recv_checked pack unpack rng stream candidate buf_len rd hc

theorem recv_sock_checked (pack : StunMessage → List Nat)
    (unpack : List Nat → Option StunMessage) (agent a1 : NiceAgent)
    (sid cid sock buf_len : Nat) (env : RecvEnv) (n : Nat) (tr : List Effect)
    (h : nice_agent_recv_sock pack unpack agent sid cid sock buf_len env =
      Run.done (a1, n, tr)) :
    List.Forall₂ (checked tr) agent.streams a1.streams := by
  unfold nice_agent_recv_sock at h
  cases hf : find_component agent sid cid with
  | none =>
    simp only [hf, Run.done.injEq, Prod.mk.injEq] at h
    rw [← h.1]
    exact forall2_same _ (checked_same _) _
  | some p =>
    obtain ⟨stream, component⟩ := p
    simp only [hf] at h
    cases hc : find_candidate_by_fd component sock with
    | none => simp [hc] at h
    | some candidate =>
      simp only [hc, Run.done.injEq, Prod.mk.injEq] at h
      rw [← h.1, ← h.2.2]
      unfold find_component at hf
      split at hf
      · cases hf
      · cases hfs : find_stream agent sid with
        | none => simp [hfs] at hf
        | some st =>
          simp only [hfs, Option.some.injEq, Prod.mk.injEq] at hf
          obtain ⟨rfl, rfl⟩ := hf
          have hid := (find_id sid st agent.streams hfs).1
          exact recv_stream_checked pack unpack env.rng_bytes agent st candidate buf_len
            env.rd (by rw [hid]; exact hfs) (List.mem_of_find?_eq_some hc)

theorem poll_read_loop_checked (pack : StunMessage → List Nat)
    (unpack : List Nat → Option StunMessage) (reads : Nat → RecvEnv)
    (other_fds : List Nat) (func data : Nat) (fds : List Nat) (js : List Nat) :
    ∀ (agent : NiceAgent) (ret : List Nat) (trace : List Effect),
      Owned agent.streams →
      List.Forall₂
          (checked (poll_read_loop pack unpack reads other_fds func data fds js agent ret
            trace).2.2)
          agent.streams
          (poll_read_loop pack unpack reads other_fds func data fds js agent ret trace
            ).1.streams ∧
        ∀ e ∈ trace,
          e ∈ (poll_read_loop pack unpack reads other_fds func data fds js agent ret
            trace).2.2 := by
  induction js with
  | nil =>
    intro agent ret trace _
    simp only [poll_read_loop]
    exact ⟨forall2_same _ (checked_same _) _, fun e he => he⟩
  | cons j js ih =>
    intro agent ret trace ho
    unfold poll_read_loop
    split_ifs with h1 h2
    · exact ih agent _ trace ho
    · cases hc : find_candidate_in_streams agent.streams j with
      | none => exact ⟨forall2_same _ (checked_same _) _, fun e he => he⟩
      | some candidate =>
        simp only
        cases hs : find_stream agent candidate.stream_id with
        | none => exact ⟨forall2_same _ (checked_same _) _, fun e he => he⟩
        | some stream =>
          simp only
          obtain ⟨s, hsm, hcm⟩ := candidate_in_streams agent.streams j candidate hc
          have hfirst := owned_first agent.streams ho s hsm candidate hcm
          have hss : stream = s := by
            unfold find_stream at hs
            rw [hfirst] at hs
            exact (Option.some.inj hs).symm
          rw [hss]
          have hid : candidate.stream_id = s.id := ho.1 s hsm candidate hcm
          have hstep := recv_stream_checked pack unpack (reads j).rng_bytes agent s
            candidate 1024 (reads j).rd (by unfold find_stream; rw [← hid]; exact hfirst)
            hcm
          have hown := owned_evolves _ _ (hstep.imp (fun _ _ hk => hk.1)) ho
          have hnext := ih (recv_stream pack unpack (reads j).rng_bytes agent s candidate
              1024 (reads j).rd).1 ret
            (trace ++ (recv_stream pack unpack (reads j).rng_bytes agent s candidate 1024
                (reads j).rd).2.trace ++
              (if (recv_stream pack unpack (reads j).rng_bytes agent s candidate 1024
                  (reads j).rd).2.ret ≠ 0 ∧ func ≠ 0 then
                [Effect.read_func s.id candidate.component_id
                  (recv_stream pack unpack (reads j).rng_bytes agent s candidate 1024
                    (reads j).rd).2.ret
                  ((reads j).rd.buf.take (recv_stream pack unpack (reads j).rng_bytes agent
                    s candidate 1024 (reads j).rd).2.ret) data]
              else [])) hown
          refine ⟨forall2_trans _ (checked_trans _) _ _
            (hstep.imp (checked_mono _ _ ?_)) _ hnext.1, ?_⟩
          · intro e he
            exact hnext.2 e (List.mem_append_left _ (List.mem_append_right _ he))
          · intro e he
            exact hnext.2 e (List.mem_append_left _ (List.mem_append_left _ he))
    · exact ih agent ret trace ho

theorem poll_read_checked (pack : StunMessage → List Nat)
    (unpack : List Nat → Option StunMessage) (agent : NiceAgent) (other_fds : List Nat)
    (func data : Nat) (sel : SelectResult) (reads : Nat → RecvEnv)
    (ho : Owned agent.streams) :
    List.Forall₂
      (checked (nice_agent_poll_read pack unpack agent other_fds func data sel reads).2.2)
      agent.streams
      (nice_agent_poll_read pack unpack agent other_fds func data sel reads).1.streams := by
  unfold nice_agent_poll_read
  simp only
  split_ifs
  · exact forall2_same _ (checked_same _) _
  · exact (poll_read_loop_checked pack unpack reads other_fds func data _ _ agent [] []
      ho).1

theorem agent_recv_scan_checked (pack : StunMessage → List Nat)
    (unpack : List Nat → Option StunMessage) (reads : Nat → RecvEnv) (buf_len : Nat)
    (fds : List Nat) (js : List Nat) :
    ∀ (agent : NiceAgent) (stream : Stream) (trace : List Effect) (a1 : NiceAgent)
      (st1 : Stream) (len : Option Nat) (tr : List Effect),
      find_stream agent stream.id = some stream →
      agent_recv_scan pack unpack reads buf_len fds js agent stream trace =
        Run.done (a1, st1, len, tr) →
      List.Forall₂ (checked tr) agent.streams a1.streams ∧ ∀ e ∈ trace, e ∈ tr := by
  induction js with
  | nil =>
    intro agent stream trace a1 st1 len tr hf h
    simp only [agent_recv_scan, Run.done.injEq, Prod.mk.injEq] at h
    obtain ⟨rfl, rfl, -, rfl⟩ := h
    exact ⟨forall2_same _ (checked_same _) _, fun e he => he⟩
  | cons j js ih =>
    intro agent stream trace a1 st1 len tr hf h
    unfold agent_recv_scan at h
    split_ifs at h with h1
    · cases hc : find_candidate_by_fd stream.component j with
      | none => simp [hc] at h
      | some candidate =>
        simp only [hc] at h
        have hstep := recv_stream_checked pack unpack (reads j).rng_bytes agent stream
          candidate buf_len (reads j).rd hf (List.mem_of_find?_eq_some hc)
        have hfirst := recv_stream_first pack unpack (reads j).rng_bytes agent stream
          candidate buf_len (reads j).rd hf
        split_ifs at h with h2
        · simp only [Run.done.injEq, Prod.mk.injEq] at h
          obtain ⟨rfl, rfl, -, rfl⟩ := h
          exact ⟨hstep.imp (checked_mono _ _ (fun e he => List.mem_append_right _ he)),
            fun e he => List.mem_append_left _ he⟩
        · obtain ⟨hrest, hsub⟩ := ih _
            { stream with component :=
              (recv_stream pack unpack (reads j).rng_bytes agent stream candidate buf_len
                (reads j).rd).2.component } _ a1 st1 len tr hfirst h
          exact ⟨forall2_trans _ (checked_trans _) _ _
              (hstep.imp (checked_mono _ _
                (fun e he => hsub e (List.mem_append_right _ he)))) _ hrest,
            fun e he => hsub e (List.mem_append_left _ he)⟩
    · exact ih agent stream trace a1 st1 len tr hf h

theorem agent_recv_rounds_checked (pack : StunMessage → List Nat)
    (unpack : List Nat → Option StunMessage) (buf_len max_fd : Nat)
    (rounds : List RecvRound) :
    ∀ (fds : List Nat) (agent : NiceAgent) (stream : Stream) (trace : List Effect)
      (a1 : NiceAgent) (len : Option Nat) (tr : List Effect),
      find_stream agent stream.id = some stream →
      agent_recv_rounds pack unpack buf_len max_fd rounds fds agent stream trace =
        Run.done (a1, len, tr) →
      List.Forall₂ (checked tr) agent.streams a1.streams ∧ ∀ e ∈ trace, e ∈ tr := by
  induction rounds with
  | nil =>
    intro fds agent stream trace a1 len tr _ h
    simp only [agent_recv_rounds, Run.done.injEq, Prod.mk.injEq] at h
    obtain ⟨rfl, -, rfl⟩ := h
    exact ⟨forall2_same _ (checked_same _) _, fun e he => he⟩
  | cons round rounds ih =>
    intro fds agent stream trace a1 len tr hf h
    unfold agent_recv_rounds at h
    split_ifs at h with h1 h2
    · cases hs : agent_recv_scan pack unpack round.reads buf_len
          (fds.filter round.sel.ready) (List.range (max_fd + 1)) agent stream trace with
      | abort x => simp [hs] at h
      | done p =>
        obtain ⟨a2, st2, len2, tr2⟩ := p
        obtain ⟨hstep, hsub⟩ := agent_recv_scan_checked pack unpack round.reads buf_len _ _
          agent stream trace a2 st2 len2 tr2 hf hs
        have hf2 := (agent_recv_scan_evolves pack unpack round.reads buf_len _ _
          agent stream trace a2 st2 len2 tr2 hf hs).2
        cases len2 with
        | some n =>
          simp only [hs, Run.done.injEq, Prod.mk.injEq] at h
          obtain ⟨rfl, -, rfl⟩ := h
          exact ⟨hstep, hsub⟩
        | none =>
          simp only [hs] at h
          obtain ⟨hrest, hsub2⟩ := ih _ a2 st2 tr2 a1 len tr hf2 h
          exact ⟨forall2_trans _ (checked_trans _) _ _
              (hstep.imp (checked_mono _ _ hsub2)) _ hrest,
            fun e he => hsub2 e (hsub e he)⟩
    · exact ih _ agent stream trace a1 len tr hf h

theorem agent_recv_checked (pack : StunMessage → List Nat)
    (unpack : List Nat → Option StunMessage) (agent a1 : NiceAgent)
    (sid cid buf_len : Nat) (rounds : List RecvRound) (len : Option Nat)
    (tr : List Effect)
    (h : nice_agent_recv pack unpack agent sid cid buf_len rounds = Run.done (a1, len, tr)) :
    List.Forall₂ (checked tr) agent.streams a1.streams := by
  unfold nice_agent_recv at h
  cases hf : find_component agent sid cid with
  | none =>
    simp only [hf, Run.done.injEq, Prod.mk.injEq] at h
    rw [← h.1]
    exact forall2_same _ (checked_same _) _
  | some p =>
    obtain ⟨stream, component⟩ := p
    simp only [hf] at h
    unfold find_component at hf
    split at hf
    · cases hf
    · cases hfs : find_stream agent sid with
      | none => simp [hfs] at hf
      | some st =>
        simp only [hfs, Option.some.injEq, Prod.mk.injEq] at hf
        obtain ⟨rfl, rfl⟩ := hf
        have hid := (find_id sid st agent.streams hfs).1
        exact (agent_recv_rounds_checked pack unpack buf_len _ rounds _ agent st [] a1 len
          tr (by rw [hid]; exact hfs) h).1

/-- C19: the state of a component only ever goes to CONNECTED, and only for a valid
connectivity check.
(1) One datagram read (_nice_agent_recv) leaves the state as it was, or the state was not
CONNECTED and becomes CONNECTED, and then the datagram parsed as a BINDING_REQUEST whose
USERNAME is the username of the receiving local candidate followed by the username of a
remote candidate of the component.
(2) One operation of a run, on any agent.  nice_agent_remove_stream unlinks the first
stream with the id and leaves the others as they are.  nice_agent_add_stream keeps the
state of every stream and appends one stream in state DISCONNECTED.  The receive drivers
keep the streams in place and, for each, leave the state as it was or take it from a state
other than CONNECTED to CONNECTED, and then a valid connectivity check was handled: for
nice_agent_recv_sock, nice_agent_recv and nice_agent_poll_read (on an agent whose local
candidates are owned by their streams, as in every run) the trace of the call records the
entry into _handle_stun with a BINDING_REQUEST whose USERNAME is the username of a local
candidate of the component followed by that of one of its remote candidates; for the bare
call of _nice_agent_recv the datagram parses as such a request for the candidate it was
given.  Every other operation (nice_agent_add_local_address,
nice_agent_add_remote_candidate, nice_agent_main_context_attach, nice_agent_send) keeps the
state of every stream.  So a CONNECTED component stays CONNECTED as long as its stream is in
the list.
(3) After every run from a new agent the local candidates are owned by their streams and
every component is DISCONNECTED or CONNECTED. -/
theorem component_state_monotone :
    (∀ (pack : StunMessage → List Nat) (unpack : List Nat → Option StunMessage)
        (rng : List Nat) (stream : Stream) (component : Component)
        (candidate : NiceCandidate) (buf_len : Nat) (rd : UdpRecv),
      (_nice_agent_recv pack unpack rng stream component candidate buf_len rd
          ).component.state = component.state ∨
      (component.state ≠ NiceComponentState.CONNECTED ∧
        (_nice_agent_recv pack unpack rng stream component candidate buf_len rd
          ).component.state = NiceComponentState.CONNECTED ∧
        ∃ msg, unpack (rd.buf.take rd.len) = some msg ∧
          msg.type = StunMessageType.BINDING_REQUEST ∧
          ∃ r ∈ component.remote_candidates,
            stun_message_find_attribute_username msg.attributes =
              some (candidate.username ++ r.username))) ∧
    (∀ (a : NiceAgent) (op : Op) (a1 : NiceAgent) (made : List Creation),
      step a op = Run.done (a1, made) →
      match op with
      | Op.remove_stream sid =>
        a1.streams = a.streams.eraseP (fun s => decide (s.id = sid))
      | Op.add_stream _ _ =>
        List.Forall₂ (fun s t => t.id = s.id ∧ t.component.state = s.component.state)
          (a.streams ++ [⟨a.next_stream_id, component_new 1⟩]) a1.streams
      | Op.recv _ unpack _ _ candidate _ rd =>
        List.Forall₂ (fun s t => t.id = s.id ∧
          (t.component.state = s.component.state ∨
            (s.component.state ≠ NiceComponentState.CONNECTED ∧
              t.component.state = NiceComponentState.CONNECTED ∧
              ∃ msg, unpack (rd.buf.take rd.len) = some msg ∧
                msg.type = StunMessageType.BINDING_REQUEST ∧
                ∃ r ∈ s.component.remote_candidates,
                  stun_message_find_attribute_username msg.attributes =
                    some (candidate.username ++ r.username)))) a.streams a1.streams
      | Op.recv_sock pack unpack sid cid sock buf_len env =>
        ∃ n tr, nice_agent_recv_sock pack unpack a sid cid sock buf_len env =
            Run.done (a1, n, tr) ∧
          List.Forall₂ (state_step tr) a.streams a1.streams
      | Op.poll_read pack unpack other_fds func data sel reads =>
        Owned a.streams →
          List.Forall₂
            (state_step (nice_agent_poll_read pack unpack a other_fds func data sel
              reads).2.2) a.streams a1.streams
      | Op.agent_recv pack unpack sid cid buf_len rounds =>
        ∃ len tr, nice_agent_recv pack unpack a sid cid buf_len rounds =
            Run.done (a1, len, tr) ∧
          List.Forall₂ (state_step tr) a.streams a1.streams
      | _ =>
        List.Forall₂ (fun s t => t.id = s.id ∧ t.component.state = s.component.state)
          a.streams a1.streams) ∧
    (∀ (ops : List Op) (a : NiceAgent) (log : List Creation),
      exec nice_agent_new [] ops = Run.done (a, log) →
      Owned a.streams ∧
      ∀ s ∈ a.streams, s.component.state = NiceComponentState.DISCONNECTED ∨
        s.component.state = NiceComponentState.CONNECTED) := by
  refine ⟨?_, ?_, ?_⟩
  · intro pack unpack rng stream component candidate buf_len rd
    rcases recv_cases pack unpack rng stream component candidate buf_len rd with
      h | ⟨h, msg, hm, hty, r, hr, hu⟩
    · exact Or.inl (by rw [h])
    · by_cases hs : component.state = NiceComponentState.CONNECTED
      · exact Or.inl (by rw [h, hs])
      · exact Or.inr ⟨hs, by rw [h], msg, hm, hty, r, hr, hu⟩
  · intro a op a1 made hs
    cases op with
    | add_local_address addr =>
      simp only [step, Run.done.injEq, Prod.mk.injEq] at hs
      rw [← hs.1]
      exact forall2_same _ (fun s => ⟨rfl, rfl⟩) _
    | add_stream n env =>
      simp only [step] at hs
      cases hd : nice_agent_add_stream a n env with
      | abort x => simp [hd] at hs
      | done p =>
        obtain ⟨a2, id⟩ := p
        simp only [hd, Run.done.injEq, Prod.mk.injEq] at hs
        rw [← hs.1]
        exact add_stream_states a a2 n env id hd
    | remove_stream sid =>
      simp only [step, Run.done.injEq, Prod.mk.injEq] at hs
      rw [← hs.1]
      simp only [nice_agent_remove_stream]
      cases hf : find_stream a sid with
      | none =>
        simp only
        unfold find_stream at hf
        rw [List.find?_eq_none] at hf
        rw [List.eraseP_of_forall_not]
        intro s hsm
        exact hf s hsm
      | some s => rfl
    | add_remote_candidate sid cid type addr u pw ref sz au ap =>
      simp only [step, Run.done.injEq, Prod.mk.injEq] at hs
      rw [← hs.1]
      simp only
      unfold nice_agent_add_remote_candidate
      cases hf : find_component a sid cid with
      | none => exact forall2_same _ (fun s => ⟨rfl, rfl⟩) _
      | some p =>
        obtain ⟨st, component⟩ := p
        simp only
        apply forall2_store _ (fun s => ⟨rfl, rfl⟩)
        intro st1 hst1
        unfold find_component at hf
        split at hf
        · cases hf
        · unfold find_stream at hf
          rw [hst1] at hf
          simp only [Option.some.injEq, Prod.mk.injEq] at hf
          rw [← hf.2]
          exact ⟨rfl, rfl⟩
    | recv pack unpack rng pos candidate buf_len rd =>
      simp only [step, Run.done.injEq, Prod.mk.injEq] at hs
      rw [← hs.1]
      simp only
      unfold agent_recv_at
      cases hg : a.streams.get? pos with
      | none => exact forall2_same _ (fun s => ⟨rfl, Or.inl rfl⟩) _
      | some stream =>
        simp only
        refine forall2_set _ (fun s => ⟨rfl, Or.inl rfl⟩) _ _ pos stream hg ⟨rfl, ?_⟩
        rcases recv_cases pack unpack rng stream stream.component candidate buf_len rd with
          h | ⟨h, msg, hm, hty, r, hr, hu⟩
        · exact Or.inl (by rw [h])
        · by_cases hst : stream.component.state = NiceComponentState.CONNECTED
          · exact Or.inl (by rw [h, hst])
          · exact Or.inr ⟨hst, by rw [h], msg, hm, hty, r, hr, hu⟩
    | main_context_attach ctx func data =>
      simp only [step, Run.done.injEq, Prod.mk.injEq] at hs
      rw [← hs.1]
      simp only [nice_agent_main_context_attach]
      split
      · exact forall2_same _ (fun s => ⟨rfl, rfl⟩) _
      · exact forall2_map _ _ (fun s => ⟨rfl, rfl⟩) _
    | recv_sock pack unpack sid cid sock buf_len env =>
      simp only [step] at hs
      cases hd : nice_agent_recv_sock pack unpack a sid cid sock buf_len env with
      | abort x => simp [hd] at hs
      | done p =>
        obtain ⟨a2, n, tr⟩ := p
        simp only [hd, Run.done.injEq, Prod.mk.injEq] at hs
        rw [← hs.1]
        exact ⟨n, tr, hd, checked_state_step tr _ _
          (recv_sock_checked pack unpack a a2 sid cid sock buf_len env n tr hd)⟩
    | poll_read pack unpack other_fds func data sel reads =>
      simp only [step, Run.done.injEq, Prod.mk.injEq] at hs
      rw [← hs.1]
      intro ho
      exact checked_state_step _ _ _
        (poll_read_checked pack unpack a other_fds func data sel reads ho)
    | agent_recv pack unpack sid cid buf_len rounds =>
      simp only [step] at hs
      cases hd : nice_agent_recv pack unpack a sid cid buf_len rounds with
      | abort x => simp [hd] at hs
      | done p =>
        obtain ⟨a2, n, tr⟩ := p
        simp only [hd, Run.done.injEq, Prod.mk.injEq] at hs
        rw [← hs.1]
        exact ⟨n, tr, hd, checked_state_step tr _ _
          (agent_recv_checked pack unpack a a2 sid cid buf_len rounds n tr hd)⟩
    | send sid cid len buf =>
      simp only [step] at hs
      cases hd : nice_agent_send a sid cid len buf with
      | abort x => simp [hd] at hs
      | done p =>
        obtain ⟨a2, tr⟩ := p
        simp only [hd, Run.done.injEq, Prod.mk.injEq] at hs
        rw [← hs.1, send_same a a2 sid cid len buf tr hd]
        exact forall2_same _ (fun s => ⟨rfl, rfl⟩) _
  · intro ops a log h
    have hi := api_inv_exec false ops nice_agent_new [] a log (api_inv_new false)
      (fun hb => by cases hb) h
    exact ⟨hi.1.1, hi.1.2.2⟩

end Nice
